import Mathlib

/-! Message buffers, message queues and the message pool (`common/message.hpp`), the AES-GCM
port of Mbed TLS (`gcm_alt.c`) and the NCP changed-properties set (`changed_props_set.cpp`).

A shallow embedding of the OpenThread message-buffer subsystem shipped in
`ti_wisunfan/ncp_interface/src/core/common/message.hpp`, followed by the embeddings of
`third_party/mbedtls/ti/port/gcm_alt.c` (namespace `gcm_alt`) and of
`ti_wisunfan/ncp_interface/src/ncp/changed_props_set.cpp` (namespace `ot.Ncp`).

* Pointers are `Option Nat`: `none` is `NULL`, `some a` is the object at address `a`.
* Bit-fields of `MessageInfo` (`mType : 2`, `mSubType : 4`, `mPriority : 2`) are `Fin` values,
  so a stored value always fits its field; setters reduce their `uint8_t` argument modulo the
  field width.
* Everything that `message.hpp` defines inline is translated from it.  Member functions that the
  header only declares (their bodies live in `message.cpp`) are modelled from the specification
  and from the header documentation; each such definition says so in its doc comment.
* Byte counts (`mReserved`, `mLength`, `mOffset`, lengths passed to the operations) are natural
  numbers, as in the specification; a message is a metadata record plus a chain of fixed-size
  buffers, and the pool counts its free buffers.  The three members are `uint16_t` in
  `message.hpp`: `SetReserved` stores its argument modulo `2 ^ 16`, and `Message.inRange` is the
  16-bit range, which the theorems about a growing message assume and establish again.
* A handle is valid while `live` holds for it.  `Free` ends that; the theorems about `Append`
  and `Clone` assume that the messages they talk about cannot be reclaimed during the call and
  show that they are still allocated afterwards.
-/

namespace ot

/-! ## Error codes and build-time configuration -/

/-- Modelled from the spec: the `otError` values named by the `@retval` lines of `message.hpp`
(`openthread/error.h` declares the enumeration). -/
inductive otError where
  | OT_ERROR_NONE
  | OT_ERROR_NO_BUFS
  | OT_ERROR_INVALID_ARGS
  | OT_ERROR_ALREADY
  | OT_ERROR_NOT_FOUND
deriving DecidableEq, Repr

/-- The build-time parameters `message.hpp` reads from the configuration headers:
`OPENTHREAD_CONFIG_NUM_MESSAGE_BUFFERS`, `OPENTHREAD_CONFIG_MESSAGE_BUFFER_SIZE`,
`sizeof(struct otMessage)` and `sizeof(struct MessageInfo)`. -/
structure Config where
  kNumBuffers : Nat
  kBufferSize : Nat
  sizeofOtMessage : Nat
  sizeofMessageInfo : Nat
deriving DecidableEq, Repr

/-- `Buffer::kBufferDataSize = kBufferSize - sizeof(struct otMessage)`. -/
def Config.kBufferDataSize (cfg : Config) : Nat :=
  cfg.kBufferSize - cfg.sizeofOtMessage

/-- `Buffer::kHeadBufferDataSize = kBufferDataSize - sizeof(struct MessageInfo)`. -/
def Config.kHeadBufferDataSize (cfg : Config) : Nat :=
  cfg.kBufferDataSize - cfg.sizeofMessageInfo

/-- Modelled from the spec: `OT_MESSAGE_PRIORITY_LOW` of `openthread/message.h`; the spec lists
the classes low, normal, high, network-control in increasing index order. -/
def OT_MESSAGE_PRIORITY_LOW : Nat := 0

/-- Modelled from the spec: `OT_MESSAGE_PRIORITY_NORMAL` of `openthread/message.h`. -/
def OT_MESSAGE_PRIORITY_NORMAL : Nat := 1

/-- Modelled from the spec: `OT_MESSAGE_PRIORITY_HIGH` of `openthread/message.h`. -/
def OT_MESSAGE_PRIORITY_HIGH : Nat := 2

/-- `Message::kPriorityLow`. -/
def kPriorityLow : Nat := OT_MESSAGE_PRIORITY_LOW

/-- `Message::kPriorityNormal`. -/
def kPriorityNormal : Nat := OT_MESSAGE_PRIORITY_NORMAL

/-- `Message::kPriorityHigh`. -/
def kPriorityHigh : Nat := OT_MESSAGE_PRIORITY_HIGH

/-- `Message::kPriorityNet = OT_MESSAGE_PRIORITY_HIGH + 1`. -/
def kPriorityNet : Nat := OT_MESSAGE_PRIORITY_HIGH + 1

/-- `Message::kNumPriorities`. -/
def kNumPriorities : Nat := 4

/-- `MessagePool::kDefaultMessagePriority = Message::kPriorityNormal`. -/
def kDefaultMessagePriority : Nat := kPriorityNormal

/-! ## Message types and sub types -/

/-- `Message::kTypeIp6`: a full uncompressed IPv6 packet. -/
def kTypeIp6 : Nat := 0

/-- `Message::kType6lowpan`: a 6lowpan frame. -/
def kType6lowpan : Nat := 1

/-- `Message::kTypeSupervision`: a child supervision frame. -/
def kTypeSupervision : Nat := 2

/-- `Message::kTypeOther`: other (data) message. -/
def kTypeOther : Nat := 3

/-- `Message::kSubTypeNone`. -/
def kSubTypeNone : Nat := 0

/-- `Message::kSubTypeMleAnnounce`. -/
def kSubTypeMleAnnounce : Nat := 1

/-- `Message::kSubTypeMleDiscoverRequest`. -/
def kSubTypeMleDiscoverRequest : Nat := 2

/-- `Message::kSubTypeMleDiscoverResponse`. -/
def kSubTypeMleDiscoverResponse : Nat := 3

/-- `Message::kSubTypeJoinerEntrust`. -/
def kSubTypeJoinerEntrust : Nat := 4

/-- `Message::kSubTypeMplRetransmission`. -/
def kSubTypeMplRetransmission : Nat := 5

/-- `Message::kSubTypeMleGeneral`. -/
def kSubTypeMleGeneral : Nat := 6

/-- `Message::kSubTypeJoinerFinalizeResponse`. -/
def kSubTypeJoinerFinalizeResponse : Nat := 7

/-- `Message::kSubTypeMleChildUpdateRequest`. -/
def kSubTypeMleChildUpdateRequest : Nat := 8

/-- `Message::kSubTypeMleDataResponse`. -/
def kSubTypeMleDataResponse : Nat := 9

/-- `Message::kSubTypeMleChildIdRequest`. -/
def kSubTypeMleChildIdRequest : Nat := 10

/-- The values of the type enumeration of `Message`, in declaration order. -/
def messageTypes : List Nat := [kTypeIp6, kType6lowpan, kTypeSupervision, kTypeOther]

/-- The values of the sub type enumeration of `Message`, in declaration order. -/
def messageSubTypes : List Nat :=
  [kSubTypeNone, kSubTypeMleAnnounce, kSubTypeMleDiscoverRequest, kSubTypeMleDiscoverResponse,
    kSubTypeJoinerEntrust, kSubTypeMplRetransmission, kSubTypeMleGeneral,
    kSubTypeJoinerFinalizeResponse, kSubTypeMleChildUpdateRequest, kSubTypeMleDataResponse,
    kSubTypeMleChildIdRequest]

/-! ## Message metadata -/

/-- `struct MessageInfo`: the metadata kept in the head buffer of a message.  `mQueue` is the
union of the two back-references (`mQueue.mMessage` and `mQueue.mPriority` share storage).
`mReserved`, `mLength` and `mOffset` are `uint16_t` members: they are kept as natural numbers,
and `Message.inRange` says that they hold 16-bit values. -/
structure MessageInfo where
  mNext : Option Nat
  mPrev : Option Nat
  mQueue : Option Nat
  mDatagramTag : Nat
  mReserved : Nat
  mLength : Nat
  mOffset : Nat
  mMeshDest : Nat
  mTimeout : Nat
  mType : Fin 4
  mSubType : Fin 16
  mDirectTx : Bool
  mLinkSecurity : Bool
  mPriority : Fin 4
  mInPriorityQ : Bool
  mTxSuccess : Bool
  mDoNotEvict : Bool
deriving DecidableEq, Repr

/-- A message: its metadata, the data bytes of its head buffer (`mBuffer.mHead.mData`) and the
data bytes of the further buffers of its chain (`mBuffer.mData` of each, in chain order). -/
structure Message where
  mInfo : MessageInfo
  mHeadData : List Nat
  mChain : List (List Nat)
deriving DecidableEq, Repr

namespace Message

/-- `Message::GetLength`. -/
def GetLength (m : Message) : Nat := m.mInfo.mLength

/-- `Message::GetOffset`. -/
def GetOffset (m : Message) : Nat := m.mInfo.mOffset

/-- `Message::GetReserved`. -/
def GetReserved (m : Message) : Nat := m.mInfo.mReserved

/-- `Message::SetReserved`: the `uint16_t` argument is stored in the `uint16_t` member
`mReserved`. -/
def SetReserved (m : Message) (aReservedHeader : Nat) : Message :=
  { m with mInfo := { m.mInfo with mReserved := aReservedHeader % 2 ^ 16 } }

/-- `Message::GetType`. -/
def GetType (m : Message) : Nat := m.mInfo.mType.val

/-- `Message::SetType`: the `uint8_t` argument is stored in a 2-bit field. -/
def SetType (m : Message) (aType : Nat) : Message :=
  { m with mInfo := { m.mInfo with mType := ⟨aType % 4, Nat.mod_lt _ (by decide)⟩ } }

/-- `Message::GetSubType`. -/
def GetSubType (m : Message) : Nat := m.mInfo.mSubType.val

/-- `Message::SetSubType`: the `uint8_t` argument is stored in a 4-bit field. -/
def SetSubType (m : Message) (aSubType : Nat) : Message :=
  { m with mInfo := { m.mInfo with mSubType := ⟨aSubType % 16, Nat.mod_lt _ (by decide)⟩ } }

/-- `Message::GetPriority`. -/
def GetPriority (m : Message) : Nat := m.mInfo.mPriority.val

/-- `Message::GetDirectTransmission`. -/
def GetDirectTransmission (m : Message) : Bool := m.mInfo.mDirectTx

/-- `Message::GetTxSuccess`. -/
def GetTxSuccess (m : Message) : Bool := m.mInfo.mTxSuccess

/-- `Message::GetDoNotEvict`. -/
def GetDoNotEvict (m : Message) : Bool := m.mInfo.mDoNotEvict

/-- `Message::SetDoNotEvict`. -/
def SetDoNotEvict (m : Message) (aDoNotEvict : Bool) : Message :=
  { m with mInfo := { m.mInfo with mDoNotEvict := aDoNotEvict } }

/-- `Message::IsLinkSecurityEnabled`. -/
def IsLinkSecurityEnabled (m : Message) : Bool := m.mInfo.mLinkSecurity

/-- `Message::GetMessageQueue`: the stored back-reference when the message is not flagged as
being in a priority queue, `NULL` otherwise. -/
def GetMessageQueue (m : Message) : Option Nat :=
  if !m.mInfo.mInPriorityQ then m.mInfo.mQueue else none

/-- `Message::GetPriorityQueue`: the stored back-reference when the message is flagged as
being in a priority queue, `NULL` otherwise. -/
def GetPriorityQueue (m : Message) : Option Nat :=
  if m.mInfo.mInPriorityQ then m.mInfo.mQueue else none

/-- `Message::IsInAQueue`: `mQueue.mMessage != NULL`. -/
def IsInAQueue (m : Message) : Bool := m.mInfo.mQueue != none

/-- Modelled from the spec: `Message::SetMessageQueue` (declared in `message.hpp`, body in
`message.cpp`): records the FIFO queue in the tagged back-reference. -/
def SetMessageQueue (m : Message) (aMessageQueue : Option Nat) : Message :=
  { m with mInfo := { m.mInfo with mQueue := aMessageQueue, mInPriorityQ := false } }

/-- Modelled from the spec: `Message::SetPriorityQueue` (declared in `message.hpp`, body in
`message.cpp`): records the priority queue in the tagged back-reference. -/
def SetPriorityQueue (m : Message) (aPriorityQueue : Option Nat) : Message :=
  { m with mInfo := { m.mInfo with mQueue := aPriorityQueue, mInPriorityQ := true } }

/-- Write access through the reference `Message::Next()`. -/
def setNext (m : Message) (p : Option Nat) : Message :=
  { m with mInfo := { m.mInfo with mNext := p } }

/-- Write access through the reference `Message::Prev()`. -/
def setPrev (m : Message) (p : Option Nat) : Message :=
  { m with mInfo := { m.mInfo with mPrev := p } }

end Message

/-! ## Queues and the memory they live in -/

/-- `class MessageQueue : public otMessageQueue`: the inherited `mData` holds the tail. -/
structure MessageQueue where
  mData : Option Nat
deriving DecidableEq, Repr

/-- `class PriorityQueue`: `mTails[kNumPriorities]`, one tail pointer per priority level. -/
structure PriorityQueue where
  mTails : Nat → Option Nat

/-- The objects of the subsystem: message objects by handle, `MessageQueue` and `PriorityQueue`
objects by address, and the bookkeeping of the `MessagePool` (`mNumFreeBuffers`, the handles
that are currently allocated, and the priority queue whose messages the pool may reclaim). -/
structure State where
  msg : Nat → Message
  mq : Nat → MessageQueue
  pq : Nat → PriorityQueue
  mNumFreeBuffers : Nat
  live : Nat → Bool
  reclaimQueue : Nat

namespace State

/-- Applies `f` to the message object at handle `a`. -/
def modifyMsg (s : State) (a : Nat) (f : Message → Message) : State :=
  { s with msg := Function.update s.msg a (f (s.msg a)) }

/-- Applies `f` to the message object a pointer refers to; a `NULL` pointer is not followed. -/
def modifyPtr (s : State) (p : Option Nat) (f : Message → Message) : State :=
  match p with
  | some a => s.modifyMsg a f
  | none => s

/-- Stores a `MessageQueue` object at address `q`. -/
def setMq (s : State) (q : Nat) (v : MessageQueue) : State :=
  { s with mq := Function.update s.mq q v }

/-- Stores a `PriorityQueue` object at address `q`. -/
def setPq (s : State) (q : Nat) (v : PriorityQueue) : State :=
  { s with pq := Function.update s.pq q v }

end State

/-! ## MessageQueue -/

namespace MessageQueue

/-- `MessageQueue::QueuePosition`. -/
inductive QueuePosition where
  | kQueuePositionHead
  | kQueuePositionTail
deriving DecidableEq, Repr

/-- `MessageQueue::GetTail`. -/
def GetTail (q : MessageQueue) : Option Nat := q.mData

/-- `MessageQueue::SetTail`. -/
def SetTail (_q : MessageQueue) (aMessage : Option Nat) : MessageQueue := { mData := aMessage }

/-- Modelled from the spec: `MessageQueue::MessageQueue` (body in `message.cpp`): an empty queue
has no tail. -/
def init : MessageQueue := { mData := none }

/-- Modelled from the spec: `MessageQueue::GetHead` (body in `message.cpp`): the list is linked
through the messages' own next/prev fields and only the tail is stored, so the head is the
message after the tail. -/
def GetHead (s : State) (q : Nat) : Option Nat :=
  match (s.mq q).GetTail with
  | none => none
  | some tail => (s.msg tail).mInfo.mNext

/-- Modelled from the spec: `MessageQueue::Enqueue(aMessage, aPosition)` (body in `message.cpp`):
fails with `OT_ERROR_ALREADY` when the message's queue tag is already set; otherwise tags the
message with this queue and links it between the tail and the head, moving the tail pointer
when the message is added at the tail. -/
def Enqueue (s : State) (q : Nat) (aMessage : Nat) (aPosition : QueuePosition) :
    otError × State :=
  if (s.msg aMessage).IsInAQueue then (otError.OT_ERROR_ALREADY, s)
  else
    let s := s.modifyMsg aMessage (fun m => m.SetMessageQueue (some q))
    match (s.mq q).GetTail with
    | none =>
      let s := s.modifyMsg aMessage (fun m => (m.setNext (some aMessage)).setPrev (some aMessage))
      (otError.OT_ERROR_NONE, s.setMq q ((s.mq q).SetTail (some aMessage)))
    | some tail =>
      let head := (s.msg tail).mInfo.mNext
      let s := s.modifyMsg aMessage (fun m => (m.setNext head).setPrev (some tail))
      let s := s.modifyPtr head (fun m => m.setPrev (some aMessage))
      let s := s.modifyMsg tail (fun m => m.setNext (some aMessage))
      match aPosition with
      | QueuePosition.kQueuePositionTail =>
        (otError.OT_ERROR_NONE, s.setMq q ((s.mq q).SetTail (some aMessage)))
      | QueuePosition.kQueuePositionHead => (otError.OT_ERROR_NONE, s)

/-- `MessageQueue::Enqueue(aMessage)`: adds at the tail. -/
def EnqueueTail (s : State) (q : Nat) (aMessage : Nat) : otError × State :=
  Enqueue s q aMessage QueuePosition.kQueuePositionTail

/-- Modelled from the spec: `MessageQueue::Dequeue` (body in `message.cpp`): fails with
`OT_ERROR_NOT_FOUND` when the tag shows the message is not in this queue; otherwise moves the
tail pointer off the message, links its neighbours to each other and clears its links and
its queue tag. -/
def Dequeue (s : State) (q : Nat) (aMessage : Nat) : otError × State :=
  if (s.msg aMessage).GetMessageQueue ≠ some q then (otError.OT_ERROR_NOT_FOUND, s)
  else
    let s :=
      if (s.mq q).GetTail = some aMessage then
        let prev := (s.msg aMessage).mInfo.mPrev
        s.setMq q ((s.mq q).SetTail (if prev = some aMessage then none else prev))
      else s
    let prev := (s.msg aMessage).mInfo.mPrev
    let next := (s.msg aMessage).mInfo.mNext
    let s := s.modifyPtr prev (fun m => m.setNext next)
    let s := s.modifyPtr next (fun m => m.setPrev prev)
    let s := s.modifyMsg aMessage (fun m => ((m.setNext none).setPrev none).SetMessageQueue none)
    (otError.OT_ERROR_NONE, s)

end MessageQueue

/-! ## PriorityQueue -/

namespace PriorityQueue

/-- `PriorityQueue::PrevPriority`: moves the level forward by one, wrapping from
`kNumPriorities - 1` back to 0 (the result is a `uint8_t`). -/
def PrevPriority (aPriority : Nat) : Nat :=
  if aPriority = kNumPriorities - 1 then 0 else (aPriority + 1) % 256

/-- Modelled from the spec: `PriorityQueue::PriorityQueue` (body in `message.cpp`): classes with
no messages have a null tail, and a new queue has no messages. -/
def init : PriorityQueue := { mTails := fun _ => none }

/-- Modelled from the spec: the loop of `PriorityQueue::FindFirstNonNullTail` (body in
`message.cpp`): at most `fuel` levels are inspected. -/
def FindFirstNonNullTailLoop (q : PriorityQueue) (aStartPriorityLevel : Nat) :
    Nat → Nat → Option Nat
  | 0, _ => none
  | fuel + 1, priority =>
    match q.mTails priority with
    | some tail => some tail
    | none =>
      if PrevPriority priority = aStartPriorityLevel then none
      else FindFirstNonNullTailLoop q aStartPriorityLevel fuel (PrevPriority priority)

/-- Modelled from the spec: `PriorityQueue::FindFirstNonNullTail` (declared and documented in
`message.hpp`, body in `message.cpp`): the first non-NULL tail starting from the given level and
moving forward with `PrevPriority`, wrapping from `kNumPriorities - 1` back to 0; `NULL` when
every level is empty. -/
def FindFirstNonNullTail (q : PriorityQueue) (aStartPriorityLevel : Nat) : Option Nat :=
  FindFirstNonNullTailLoop q aStartPriorityLevel kNumPriorities aStartPriorityLevel

/-- Modelled from the spec: `PriorityQueue::GetTail` (body in `message.cpp`): the last message of
the list is the tail of the lowest non-empty priority level. -/
def GetTail (q : PriorityQueue) : Option Nat := q.FindFirstNonNullTail 0

/-- Modelled from the spec: `PriorityQueue::GetHead` (body in `message.cpp`): the messages form
one ring, so the first message is the one after the last. -/
def GetHead (s : State) (q : Nat) : Option Nat :=
  match (s.pq q).GetTail with
  | none => none
  | some tail => (s.msg tail).mInfo.mNext

/-- Modelled from the spec: `PriorityQueue::GetHeadForPriority` (body in `message.cpp`): the
first message of a level follows the tail of the closest non-empty level before it. -/
def GetHeadForPriority (s : State) (q : Nat) (aPriority : Nat) : Option Nat :=
  match (s.pq q).mTails aPriority with
  | none => none
  | some _ =>
    match (s.pq q).FindFirstNonNullTail (PrevPriority aPriority) with
    | none => none
    | some previousTail => (s.msg previousTail).mInfo.mNext

/-- Modelled from the spec: `PriorityQueue::Enqueue` (body in `message.cpp`): fails with
`OT_ERROR_ALREADY` when the message's queue tag is already set; otherwise tags the message with
this queue and appends it to its priority class, splicing it in after the tail found by scanning
the levels from its own one forward (with wrap-around), and records it as the tail of its
class. -/
def Enqueue (s : State) (q : Nat) (aMessage : Nat) : otError × State :=
  if (s.msg aMessage).IsInAQueue then (otError.OT_ERROR_ALREADY, s)
  else
    let s := s.modifyMsg aMessage (fun m => m.SetPriorityQueue (some q))
    let priority := (s.msg aMessage).GetPriority
    let s :=
      match (s.pq q).FindFirstNonNullTail priority with
      | some tail =>
        let next := (s.msg tail).mInfo.mNext
        let s := s.modifyMsg aMessage (fun m => (m.setNext next).setPrev (some tail))
        let s := s.modifyPtr next (fun m => m.setPrev (some aMessage))
        s.modifyMsg tail (fun m => m.setNext (some aMessage))
      | none =>
        s.modifyMsg aMessage (fun m => (m.setNext (some aMessage)).setPrev (some aMessage))
    (otError.OT_ERROR_NONE,
      s.setPq q { mTails := Function.update (s.pq q).mTails priority (some aMessage) })

/-- Modelled from the spec: `PriorityQueue::Dequeue` (body in `message.cpp`): fails with
`OT_ERROR_NOT_FOUND` when the tag shows the message is not in this queue; otherwise, if the
message was the tail of its class, the class tail becomes the previous surviving message of
that class or `NULL` when the class is now empty; the neighbours are linked to each other and
the message's links and queue tag are cleared. -/
def Dequeue (s : State) (q : Nat) (aMessage : Nat) : otError × State :=
  if (s.msg aMessage).GetPriorityQueue ≠ some q then (otError.OT_ERROR_NOT_FOUND, s)
  else
    let priority := (s.msg aMessage).GetPriority
    let s :=
      if (s.pq q).mTails priority = some aMessage then
        let prev := (s.msg aMessage).mInfo.mPrev
        let tail :=
          match prev with
          | none => none
          | some p => if p = aMessage ∨ (s.msg p).GetPriority ≠ priority then none else some p
        s.setPq q { mTails := Function.update (s.pq q).mTails priority tail }
      else s
    let prev := (s.msg aMessage).mInfo.mPrev
    let next := (s.msg aMessage).mInfo.mNext
    let s := s.modifyPtr next (fun m => m.setPrev prev)
    let s := s.modifyPtr prev (fun m => m.setNext next)
    let s := s.modifyMsg aMessage (fun m => ((m.setNext none).setPrev none).SetMessageQueue none)
    (otError.OT_ERROR_NONE, s)

end PriorityQueue

/-- Modelled from the spec: `Message::GetNext` (declared and documented in `message.hpp`, body in
`message.cpp`): the next message in the list the message is queued in, or `NULL` at the end of
the list (the tail of its queue) and for a message that is in no queue. -/
def Message.GetNext (s : State) (aMessage : Nat) : Option Nat :=
  let m := s.msg aMessage
  if m.mInfo.mInPriorityQ then
    match m.GetPriorityQueue with
    | none => none
    | some q => if (s.pq q).GetTail = some aMessage then none else m.mInfo.mNext
  else
    match m.GetMessageQueue with
    | none => none
    | some q => if (s.mq q).GetTail = some aMessage then none else m.mInfo.mNext

/-- Follows `GetNext` from a pointer and collects the handles visited; `none` when the end of the
list is not reached within `fuel` steps. -/
def walk (s : State) : Nat → Option Nat → Option (List Nat)
  | _, none => some []
  | 0, some _ => none
  | fuel + 1, some a => (walk s fuel (Message.GetNext s a)).map (fun l => a :: l)

/-- Enqueues the given messages, in order, into the priority queue at address `q`. -/
def enqueueAll (s : State) (q : Nat) : List Nat → State
  | [] => s
  | a :: rest => enqueueAll (PriorityQueue.Enqueue s q a).2 q rest

end ot

namespace ot

/-! ## Proof vocabulary for the priority queue -/

/-- The `mNext` pointer of `a` refers to `b`. -/
def nextIs (s : State) (a b : Nat) : Prop := (s.msg a).mInfo.mNext = some b

/-- The `mNext` pointers lead once around `l`: from each element to its successor in `l` and
from the last element back to the first. -/
def isRing (s : State) (l : List Nat) : Prop :=
  List.Chain' (nextIs s) (l ++ l.head?.toList)

/-- The list of queued messages, from the contents of the four priority classes: highest class
first. -/
def ringList (cls : Nat → List Nat) : List Nat := cls 3 ++ cls 2 ++ cls 1 ++ cls 0

/-- The ring read so that it ends with class `p`: the classes in the order in which
`FindFirstNonNullTail p` inspects them, reversed. -/
def ringUpTo (cls : Nat → List Nat) : Nat → List Nat
  | 0 => cls 3 ++ cls 2 ++ cls 1 ++ cls 0
  | 1 => cls 0 ++ cls 3 ++ cls 2 ++ cls 1
  | 2 => cls 1 ++ cls 0 ++ cls 3 ++ cls 2
  | _ => cls 2 ++ cls 1 ++ cls 0 ++ cls 3

/-- Representation invariant of the priority queue at address `q`: class `p` holds the
messages `cls p`, oldest first. -/
structure PQInv (s : State) (q : Nat) (cls : Nat → List Nat) : Prop where
  nodup : (ringList cls).Nodup
  tails : ∀ p, p < 4 → (s.pq q).mTails p = (cls p).getLast?
  ring : isRing s (ringList cls)
  tagged : ∀ x ∈ ringList cls,
    (s.msg x).mInfo.mInPriorityQ = true ∧ (s.msg x).mInfo.mQueue = some q

end ot

namespace ot

/-! ## Payload access -/

/-- Modelled from the spec: the copy loop of `Message::Read` (body in `message.cpp`): walking the
buffers of the chain in order, it takes from each buffer the part of the requested byte range
(`aLength` bytes starting `aOffset` bytes into the chain) that lies in that buffer. -/
def readChain : List (List Nat) → Nat → Nat → List Nat
  | [], _, _ => []
  | buf :: rest, aOffset, aLength =>
    (buf.drop aOffset).take aLength ++
      readChain rest (aOffset - buf.length) (aLength - (buf.length - aOffset))

/-- Modelled from the spec: the copy loop of `Message::Write` (body in `message.cpp`): walking
the buffers of the chain in order, it overwrites in each buffer the part of the addressed byte
range that lies in that buffer; buffers keep their size. -/
def writeChain : List (List Nat) → Nat → List Nat → List (List Nat)
  | [], _, _ => []
  | buf :: rest, aOffset, aBuf =>
    (buf.take aOffset ++ aBuf.take (buf.length - aOffset) ++ buf.drop (aOffset + aBuf.length)) ::
      writeChain rest (aOffset - buf.length) (aBuf.drop (buf.length - aOffset))

/-- Modelled from the spec: the buffer count of the resize computation (body in `message.cpp`):
the number of buffers after the head buffer that a message needs for `aTotal` bytes (reserved
header bytes plus payload), exactly enough and no more. -/
def Config.extraBuffers (cfg : Config) (aTotal : Nat) : Nat :=
  if aTotal ≤ cfg.kHeadBufferDataSize then 0
  else (aTotal - cfg.kHeadBufferDataSize - 1) / cfg.kBufferDataSize + 1

namespace Message

/-- The buffers of the message in chain order: the data of the head buffer, then the data of
each further buffer. -/
def buffers (m : Message) : List (List Nat) := m.mHeadData :: m.mChain

/-- Stores back the data of the buffers of the message. -/
def setBuffers (m : Message) (bufs : List (List Nat)) : Message :=
  match bufs with
  | [] => m
  | head :: rest => { m with mHeadData := head, mChain := rest }

/-- The logical payload: the `GetLength()` bytes that follow the reserved header bytes. -/
def payload (m : Message) : List Nat :=
  (m.buffers.flatten.drop m.GetReserved).take m.GetLength

/-- A message occupies exactly the buffers it needs: the head buffer holds
`kHeadBufferDataSize` data bytes, every further buffer `kBufferDataSize`, and the chain has
exactly the buffers needed for the reserved header plus the payload. -/
def WF (cfg : Config) (m : Message) : Prop :=
  m.mHeadData.length = cfg.kHeadBufferDataSize ∧
  (∀ buf ∈ m.mChain, buf.length = cfg.kBufferDataSize) ∧
  m.mChain.length = cfg.extraBuffers (m.GetReserved + m.GetLength)

instance (cfg : Config) (m : Message) : Decidable (m.WF cfg) := by
  unfold WF
  infer_instance

/-- Modelled from the spec: `Message::Read` (declared in `message.hpp`, body in `message.cpp`):
copies `min(aLength, length - aOffset)` payload bytes starting at payload position `aOffset`,
spanning however many buffers are needed; an offset beyond the length yields 0 bytes.  The
result is the number of bytes read and the bytes stored into `aBuf`. -/
def Read (m : Message) (aOffset aLength : Nat) : Nat × List Nat :=
  if m.GetLength ≤ aOffset then (0, [])
  else
    let bytes := readChain m.buffers (m.GetReserved + aOffset) (min aLength (m.GetLength - aOffset))
    (bytes.length, bytes)

/-- Modelled from the spec: `Message::Write` (declared in `message.hpp`, body in `message.cpp`):
overwrites existing payload bytes in place, never extends the length, and clamps a write past
the current length to the available length.  The result is the number of bytes written and
the message afterwards. -/
def Write (m : Message) (aOffset aLength : Nat) (aBuf : List Nat) : Nat × Message :=
  if m.GetLength ≤ aOffset then (0, m)
  else
    let n := min aLength (m.GetLength - aOffset)
    (n, m.setBuffers (writeChain m.buffers (m.GetReserved + aOffset) (aBuf.take n)))

/-- Modelled from the spec: `Message::SetOffset` (declared and documented in `message.hpp`, body
in `message.cpp`): `OT_ERROR_INVALID_ARGS` when the requested offset is not within the existing
message. -/
def SetOffset (m : Message) (aOffset : Nat) : otError × Message :=
  if aOffset ≤ m.GetLength then
    (otError.OT_ERROR_NONE, { m with mInfo := { m.mInfo with mOffset := aOffset } })
  else (otError.OT_ERROR_INVALID_ARGS, m)

/-- Modelled from the spec: `Message::MoveOffset` (declared and documented in `message.hpp`, body
in `message.cpp`): moves the offset by a positive or negative delta; `OT_ERROR_INVALID_ARGS` when
the resulting offset is not within the existing message. -/
def MoveOffset (m : Message) (aDelta : Int) : otError × Message :=
  if 0 ≤ (m.GetOffset : Int) + aDelta ∧ (m.GetOffset : Int) + aDelta ≤ (m.GetLength : Int) then
    (otError.OT_ERROR_NONE,
      { m with mInfo := { m.mInfo with mOffset := ((m.GetOffset : Int) + aDelta).toNat } })
  else (otError.OT_ERROR_INVALID_ARGS, m)

/-- Modelled from the spec: `Message::Prepend` (declared and documented in `message.hpp`, body in
`message.cpp`): consumes `aLength` of the reserved header bytes and fails with
`OT_ERROR_NO_BUFS` when not enough reserved bytes remain; on success the payload grows at the
front by the bytes of `aBuf` and the offset cursor keeps pointing at the same byte. -/
def Prepend (m : Message) (aBuf : List Nat) (aLength : Nat) : otError × Message :=
  if m.GetReserved < aLength then (otError.OT_ERROR_NO_BUFS, m)
  else
    let m1 : Message :=
      { m with mInfo := { m.mInfo with
          mReserved := m.GetReserved - aLength,
          mLength := m.GetLength + aLength,
          mOffset := m.GetOffset + aLength } }
    (otError.OT_ERROR_NONE, (m1.Write 0 aLength aBuf).2)

/-- Modelled from the spec: `Message::RemoveHeader` (declared in `message.hpp`, body in
`message.cpp`): strips `aLength` bytes from the front, increasing the reserved bytes by
`aLength`; the offset cursor keeps pointing at the same byte, or at the new front when its byte
was stripped. -/
def RemoveHeader (m : Message) (aLength : Nat) : Message :=
  { m with mInfo := { m.mInfo with
      mReserved := m.GetReserved + aLength,
      mLength := m.GetLength - aLength,
      mOffset := if aLength < m.GetOffset then m.GetOffset - aLength else 0 } }

/-- Modelled from the spec: `Message::ResizeMessage` (declared and documented in `message.hpp`,
body in `message.cpp`): adds buffers at the tail of the chain or frees trailing ones so that the
chain exactly fits `aLength` bytes; existing buffers keep their bytes. -/
def ResizeMessage (cfg : Config) (m : Message) (aLength : Nat) : Message :=
  let needed := cfg.extraBuffers aLength
  let added := List.replicate (needed - m.mChain.length) (List.replicate cfg.kBufferDataSize 0)
  { m with mChain := m.mChain.take needed ++ added }

/-- Modelled from the spec: the part of `Message::SetLength` (body in `message.cpp`) that works
on the message itself once the buffers are granted: the
chain is resized to fit the reserved header plus `aLength` bytes, the length is stored and an
offset beyond the new length is corrected to the new length. -/
def storeLength (cfg : Config) (m : Message) (aLength : Nat) : Message :=
  let m1 := m.ResizeMessage cfg (m.GetReserved + aLength)
  { m1 with mInfo := { m1.mInfo with
      mLength := aLength,
      mOffset := if aLength < m1.GetOffset then aLength else m1.GetOffset } }

/-- The message with its queue linkage (next, previous, queue tag) blanked: everything about a
message that does not depend on the queue it is in. -/
def unlinked (m : Message) : Message :=
  { m with mInfo := { m.mInfo with
      mNext := none, mPrev := none, mQueue := none, mInPriorityQ := false } }

/-- The range of the `uint16_t` members of `MessageInfo`, which are kept as natural numbers:
the number of bytes the buffers of the message handle (`mReserved + mLength`, the `uint16_t`
argument of `ResizeMessage`) and the offset are below `2 ^ 16`. -/
def inRange (m : Message) : Prop :=
  m.GetReserved + m.GetLength < 2 ^ 16 ∧ m.GetOffset < 2 ^ 16

instance (m : Message) : Decidable m.inRange := by
  unfold inRange
  infer_instance

end Message

/-- Two states hold the same messages up to queue linkage. -/
def State.sameData (s s' : State) : Prop :=
  ∀ x, (s'.msg x).unlinked = (s.msg x).unlinked

/-- The invariant `offset ≤ length` for every message object of the state. -/
def State.offsetsOk (s : State) : Prop :=
  ∀ x, (s.msg x).GetOffset ≤ (s.msg x).GetLength

/-! ## MessagePool -/

namespace MessagePool

/-- `MessagePool::GetFreeBufferCount`. -/
def GetFreeBufferCount (s : State) : Nat := s.mNumFreeBuffers

/-- Modelled from the spec: `MessagePool::Free` (declared in `message.hpp`, body in
`message.cpp`): walks the chain, returns each buffer (the head buffer and every further buffer)
to the free list and invalidates the handle. -/
def Free (s : State) (aMessage : Nat) : State :=
  { s with
    mNumFreeBuffers := s.mNumFreeBuffers + 1 + (s.msg aMessage).mChain.length,
    live := Function.update s.live aMessage false }

/-- Modelled from the spec: the messages the pool scans for reclamation, in queue order: all
messages of the priority queue it may reclaim from (at most `kNumBuffers` messages exist). -/
def queuedMessages (cfg : Config) (s : State) : List Nat :=
  (walk s cfg.kNumBuffers (PriorityQueue.GetHead s s.reclaimQueue)).getD []

/-- Modelled from the spec: the reclamation policy of section 4.1: among the queued messages
that are evictable (`do-not-evict == false`) and belong to a priority class at or below the
requesting priority, the one to evict next is of the lowest priority, and the oldest-enqueued
one within that priority; `none` when there is no such message. -/
def evictionCandidate (cfg : Config) (s : State) (aPriority : Nat) : Option Nat :=
  let evictable := (queuedMessages cfg s).filter
    (fun m => !(s.msg m).GetDoNotEvict && decide ((s.msg m).GetPriority ≤ aPriority))
  (List.range kNumPriorities).findSome?
    (fun p => evictable.find? (fun m => decide ((s.msg m).GetPriority = p)))

/-- Modelled from the spec: eviction of one queued message: it is removed from the priority
queue and freed. -/
def EvictMessage (s : State) (aMessage : Nat) : State :=
  Free (PriorityQueue.Dequeue s s.reclaimQueue aMessage).2 aMessage

/-- Modelled from the spec: the loop of `MessagePool::ReclaimBuffers` (body in `message.cpp`):
evicts one candidate after the other until `aNumBuffers` buffers are free; `none` when the
candidates (or the `fuel`) run out first. -/
def ReclaimLoop (cfg : Config) (aNumBuffers aPriority : Nat) : Nat → State → Option State
  | 0, s => if aNumBuffers ≤ GetFreeBufferCount s then some s else none
  | fuel + 1, s =>
    if aNumBuffers ≤ GetFreeBufferCount s then some s
    else
      match evictionCandidate cfg s aPriority with
      | none => none
      | some victim => ReclaimLoop cfg aNumBuffers aPriority fuel (EvictMessage s victim)

/-- Modelled from the spec: `MessagePool::ReclaimBuffers` (declared in `message.hpp`, body in
`message.cpp`): makes sure `aNumBuffers` buffers are free, evicting queued messages according to
the reclamation policy when the pool is exhausted.  A pass either frees enough buffers or
fails with `OT_ERROR_NO_BUFS` and leaves the state exactly as before the attempt.  Every
eviction frees at least the head buffer, so `kNumBuffers` evictions are the most a pass makes. -/
def ReclaimBuffers (cfg : Config) (s : State) (aNumBuffers aPriority : Nat) : otError × State :=
  match ReclaimLoop cfg aNumBuffers aPriority cfg.kNumBuffers s with
  | some s' => (otError.OT_ERROR_NONE, s')
  | none => (otError.OT_ERROR_NO_BUFS, s)

/-- Modelled from the spec: `MessagePool::NewBuffer` (declared in `message.hpp`, body in
`message.cpp`): takes one buffer from the pool, reclaiming buffers first when the pool is
exhausted; `NULL` when no buffer can be had.  The buffer is returned as the handle of an
unused slot of the static buffer array. -/
def NewBuffer (cfg : Config) (s : State) (aPriority : Nat) : Option Nat × State :=
  match ReclaimBuffers cfg s 1 aPriority with
  | (otError.OT_ERROR_NONE, s1) =>
    match (List.range cfg.kNumBuffers).find? (fun i => !s1.live i) with
    | some handle =>
      (some handle,
        { s1 with
          mNumFreeBuffers := s1.mNumFreeBuffers - 1,
          live := Function.update s1.live handle true })
    | none => (none, s)
  | (_, _) => (none, s)

end MessagePool

namespace Message

/-- Modelled from the spec: `Message::SetLength` (declared and documented in `message.hpp`, body
in `message.cpp`): delegates to the pool resize: growing takes the missing buffers from the
pool (reclaiming when the pool is exhausted) and fails with `OT_ERROR_NO_BUFS`, leaving the
message as it was, when they cannot be had; shrinking releases trailing buffers back to the
pool.  Existing bytes are preserved and the offset is kept within the new length. -/
def SetLength (cfg : Config) (s : State) (aMessage : Nat) (aLength : Nat) : otError × State :=
  let m := s.msg aMessage
  let needed := cfg.extraBuffers (m.GetReserved + aLength)
  let current := m.mChain.length
  if current < needed then
    match MessagePool.ReclaimBuffers cfg s (needed - current) m.GetPriority with
    | (otError.OT_ERROR_NONE, s1) =>
      (otError.OT_ERROR_NONE,
        State.modifyMsg
          { s1 with mNumFreeBuffers := s1.mNumFreeBuffers - (needed - current) }
          aMessage (fun m => m.storeLength cfg aLength))
    | (_, _) => (otError.OT_ERROR_NO_BUFS, s)
  else
    (otError.OT_ERROR_NONE,
      State.modifyMsg
        { s with mNumFreeBuffers := s.mNumFreeBuffers + (current - needed) }
        aMessage (fun m => m.storeLength cfg aLength))

/-- Modelled from the spec: `Message::Append` (declared and documented in `message.hpp`, body in
`message.cpp`): grows the chain at the tail as needed, copies the bytes and extends the length;
fails with `OT_ERROR_NO_BUFS`, leaving everything as it was, when the message cannot grow. -/
def Append (cfg : Config) (s : State) (aMessage : Nat) (aBuf : List Nat) (aLength : Nat) :
    otError × State :=
  let oldLength := (s.msg aMessage).GetLength
  match SetLength cfg s aMessage (oldLength + aLength) with
  | (otError.OT_ERROR_NONE, s1) =>
    (otError.OT_ERROR_NONE, s1.modifyMsg aMessage (fun m => (m.Write oldLength aLength aBuf).2))
  | (e, _) => (e, s)

/-- Modelled from the spec: `Message::SetPriority` (declared and documented in `message.hpp`,
body in `message.cpp`): fails with `OT_ERROR_INVALID_ARGS` for a priority outside the closed
priority set; a message that is linked in a priority queue is re-linked at the tail of its new
class (dequeue, then enqueue at the new priority). -/
def SetPriority (s : State) (aMessage : Nat) (aPriority : Nat) : otError × State :=
  if h : aPriority < kNumPriorities then
    let store : Message → Message := fun m =>
      { m with mInfo := { m.mInfo with mPriority := ⟨aPriority, h⟩ } }
    if !(s.msg aMessage).IsInAQueue then (otError.OT_ERROR_NONE, s.modifyMsg aMessage store)
    else if (s.msg aMessage).GetPriority = aPriority then (otError.OT_ERROR_NONE, s)
    else
      match (s.msg aMessage).GetPriorityQueue with
      | some q =>
        let s1 := (PriorityQueue.Dequeue s q aMessage).2
        let s2 := s1.modifyMsg aMessage store
        (otError.OT_ERROR_NONE, (PriorityQueue.Enqueue s2 q aMessage).2)
      | none => (otError.OT_ERROR_NONE, s.modifyMsg aMessage store)
  else (otError.OT_ERROR_INVALID_ARGS, s)

end Message

namespace MessagePool

/-- Modelled from the spec: the state of a message right after its head buffer was obtained:
all metadata at its defaults (length 0, offset 0, flags cleared, not queued). -/
def clearedMessage (cfg : Config) : Message :=
  { mInfo :=
      { mNext := none, mPrev := none, mQueue := none, mDatagramTag := 0, mReserved := 0,
        mLength := 0, mOffset := 0, mMeshDest := 0, mTimeout := 0, mType := 0, mSubType := 0,
        mDirectTx := false, mLinkSecurity := false, mPriority := 0, mInPriorityQ := false,
        mTxSuccess := false, mDoNotEvict := false },
    mHeadData := List.replicate cfg.kHeadBufferDataSize 0,
    mChain := [] }

/-- Modelled from the spec: `MessagePool::New(aType, aReserveHeader, aPriority)` (declared and
documented in `message.hpp`, body in `message.cpp`): allocates exactly enough buffers for a
zero-length payload plus `aReserveHeader` bytes and initializes all metadata to defaults
(offset 0, length 0, flags cleared) with the given type and priority; `NULL` when the buffers
cannot be had or the priority is outside the priority set. -/
def New (cfg : Config) (s : State) (aType aReserveHeader aPriority : Nat) : Option Nat × State :=
  match NewBuffer cfg s aPriority with
  | (none, s1) => (none, s1)
  | (some message, s1) =>
    let fresh := ((clearedMessage cfg).SetType aType).SetReserved aReserveHeader
    let s2 : State := { s1 with msg := Function.update s1.msg message fresh }
    match Message.SetPriority s2 message aPriority with
    | (otError.OT_ERROR_NONE, s3) =>
      match Message.SetLength cfg s3 message 0 with
      | (otError.OT_ERROR_NONE, s4) => (some message, s4)
      | (_, s4) => (none, Free s4 message)
    | (_, s3) => (none, Free s3 message)

/-- The defaults the specification gives a new message: length and offset 0, flags cleared, with
the requested type, reserved header bytes (a `uint16_t`) and priority, occupying exactly the
buffers it needs. -/
def isNewMessage (cfg : Config) (m : Message) (aType aReserveHeader aPriority : Nat) : Prop :=
  m.GetLength = 0 ∧ m.GetOffset = 0 ∧ m.GetPriority = aPriority ∧ m.GetType = aType % 4 ∧
  m.GetSubType = 0 ∧ m.GetReserved = aReserveHeader % 2 ^ 16 ∧ m.GetDirectTransmission = false ∧
  m.GetTxSuccess = false ∧ m.GetDoNotEvict = false ∧ m.IsLinkSecurityEnabled = false ∧
  m.WF cfg

/-- `MessagePool::New(aType, aReserveHeader)`: the priority argument defaults to
`kDefaultMessagePriority`. -/
def NewDefault (cfg : Config) (s : State) (aType aReserveHeader : Nat) : Option Nat × State :=
  New cfg s aType aReserveHeader kDefaultMessagePriority

end MessagePool

/-- The order the specification prescribes for the queued messages `ms` (listed in enqueue
order): network-control messages first, then high, normal and low priority ones, each class
in the order of `ms`.  Priorities are read in state `s`. -/
def priorityMajor (s : State) (ms : List Nat) : List Nat :=
  ms.filter (fun m => (s.msg m).GetPriority = kPriorityNet) ++
  ms.filter (fun m => (s.msg m).GetPriority = kPriorityHigh) ++
  ms.filter (fun m => (s.msg m).GetPriority = kPriorityNormal) ++
  ms.filter (fun m => (s.msg m).GetPriority = kPriorityLow)

/-! ## Sample objects -/

/-- A message object of the given priority with zeroed metadata otherwise: it is in no queue
and owns a head buffer of 8 zero data bytes (the head buffer size of `sampleConfig`). -/
def blankMessage (p : Fin 4) : Message :=
  { mInfo :=
      { mNext := none, mPrev := none, mQueue := none, mDatagramTag := 0, mReserved := 0,
        mLength := 0, mOffset := 0, mMeshDest := 0, mTimeout := 0, mType := 0, mSubType := 0,
        mDirectTx := false, mLinkSecurity := false, mPriority := p, mInPriorityQ := false,
        mTxSuccess := false, mDoNotEvict := false },
    mHeadData := List.replicate 8 0,
    mChain := [] }

/-- A memory in which handle `i` holds a blank message of priority `i mod 4`, every queue is
empty and the pool has no free buffer. -/
def sampleState : State :=
  { msg := fun i => blankMessage ⟨i % 4, Nat.mod_lt _ (by decide)⟩,
    mq := fun _ => MessageQueue.init,
    pq := fun _ => PriorityQueue.init,
    mNumFreeBuffers := 0,
    live := fun _ => false,
    reclaimQueue := 0 }

/-- A configuration with 8-byte head buffers and 12-byte further buffers in a pool of 16. -/
def sampleConfig : Config :=
  { kNumBuffers := 16, kBufferSize := 16, sizeofOtMessage := 4, sizeofMessageInfo := 4 }

/-- A message of `sampleConfig` with 2 reserved header bytes and the 5 payload bytes
`[1, 2, 3, 4, 5]`, all in the head buffer. -/
def sampleMessage : Message :=
  { mInfo := { (blankMessage 1).mInfo with mReserved := 2, mLength := 5, mOffset := 1 },
    mHeadData := [0, 0, 1, 2, 3, 4, 5, 0],
    mChain := [] }

/-- An exhausted pool: no buffer is free, and the priority queue the pool reclaims from holds
one allocated message (handle 4, low priority) that is marked not-evictable. -/
def exhaustedPool : State :=
  (PriorityQueue.Enqueue
    { sampleState with
      msg := Function.update sampleState.msg 4 ((blankMessage 0).SetDoNotEvict true),
      live := fun i => decide (i = 4) } 0 4).2

/-- The sample memory with 6 free buffers in the pool. -/
def samplePool : State := { sampleState with mNumFreeBuffers := 6 }

end ot

/-! ## Cloning -/

namespace ot

namespace Message

end Message

end ot

/-! ## The AES-GCM port (`third_party/mbedtls/ti/port/gcm_alt.c`) -/

namespace gcm_alt

/-- The status and error codes `gcm_alt.c` uses by name.  Their values are defined in
`ti/drivers/AESGCM.h`, `mbedtls/gcm.h`, `mbedtls/cipher.h` and `mbedtls/platform.h`, none of
which is part of the sources, so they are parameters of the embedding. -/
structure Codes where
  AESGCM_STATUS_SUCCESS : Int
  AESGCM_STATUS_MAC_INVALID : Int
  MBEDTLS_ERR_CIPHER_INVALID_CONTEXT : Int
  MBEDTLS_ERR_PLATFORM_FEATURE_UNSUPPORTED : Int
  MBEDTLS_ERR_PLATFORM_HW_ACCEL_FAILED : Int
  MBEDTLS_ERR_GCM_AUTH_FAILED : Int
  MBEDTLS_GCM_ENCRYPT : Int
  MBEDTLS_GCM_DECRYPT : Int
deriving DecidableEq, Repr

/-- `AESGCM_OneStepOperation` as `gcm_auth_crypt` fills it in. -/
structure OneStepOperation where
  aad : List Nat
  aadLength : Nat
  input : List Nat
  inputLength : Nat
  iv : List Nat
  ivLength : Nat
  mac : List Nat
  macLength : Nat
deriving DecidableEq, Repr

/-- `AESGCM_SegmentedDataOperation` as `mbedtls_gcm_update` fills it in. -/
structure SegmentedDataOperation where
  input : List Nat
  inputLength : Nat
deriving DecidableEq, Repr

/-- A call into the AESGCM driver, with the handle and the operation passed. -/
inductive DriverCall where
  | oneStepEncrypt (handle : Nat) (operation : OneStepOperation)
  | oneStepDecrypt (handle : Nat) (operation : OneStepOperation)
  | addData (handle : Nat) (operation : SegmentedDataOperation)
deriving DecidableEq, Repr

/-- The AESGCM driver (`ti/drivers/AESGCM.h`, external to the sources): the status each call
reports. -/
structure Driver where
  AESGCM_oneStepEncrypt : Nat → OneStepOperation → Int
  AESGCM_oneStepDecrypt : Nat → OneStepOperation → Int
  AESGCM_addData : Nat → SegmentedDataOperation → Int

/-- The fields of `mbedtls_gcm_context` the port reads: the driver handle (`NULL` is `none`) and
the mode stored by `mbedtls_gcm_starts`. -/
structure mbedtls_gcm_context where
  handle : Option Nat
  mode : Int
deriving DecidableEq, Repr

/-- `gcm_auth_crypt`: the value returned and the driver calls made. -/
def gcm_auth_crypt (k : Codes) (drv : Driver) (ctx : mbedtls_gcm_context) (mode : Int)
    (length : Nat) (iv : List Nat) (iv_len : Nat) (add : List Nat) (add_len : Nat)
    (input : List Nat) (tag_len : Nat) (tag : List Nat) : Int × List DriverCall :=
  match ctx.handle with
  | none => (k.MBEDTLS_ERR_CIPHER_INVALID_CONTEXT, [])
  | some handle =>
    if iv_len ≠ 12 ∨ (add_len = 0 ∧ length = 0) then
      (k.MBEDTLS_ERR_PLATFORM_FEATURE_UNSUPPORTED, [])
    else
      let operation : OneStepOperation :=
        { aad := add, aadLength := add_len, input := input, inputLength := length,
          iv := iv, ivLength := iv_len, mac := tag, macLength := tag_len }
      let run : Int × List DriverCall :=
        if mode = k.MBEDTLS_GCM_ENCRYPT then
          (drv.AESGCM_oneStepEncrypt handle operation, [DriverCall.oneStepEncrypt handle operation])
        else if mode = k.MBEDTLS_GCM_DECRYPT then
          (drv.AESGCM_oneStepDecrypt handle operation, [DriverCall.oneStepDecrypt handle operation])
        else (0, [])
      if run.1 ≠ k.AESGCM_STATUS_SUCCESS then (k.MBEDTLS_ERR_PLATFORM_HW_ACCEL_FAILED, run.2)
      else (run.1, run.2)

/-- `mbedtls_gcm_crypt_and_tag`. -/
def mbedtls_gcm_crypt_and_tag (k : Codes) (drv : Driver) (ctx : mbedtls_gcm_context)
    (mode : Int) (length : Nat) (iv : List Nat) (iv_len : Nat) (add : List Nat) (add_len : Nat)
    (input : List Nat) (tag_len : Nat) (tag : List Nat) : Int × List DriverCall :=
  let r := gcm_auth_crypt k drv ctx mode length iv iv_len add add_len input tag_len tag
  if mode = k.MBEDTLS_GCM_DECRYPT ∧ r.1 = k.AESGCM_STATUS_MAC_INVALID then (0, r.2)
  else r

/-- `mbedtls_gcm_auth_decrypt`. -/
def mbedtls_gcm_auth_decrypt (k : Codes) (drv : Driver) (ctx : mbedtls_gcm_context)
    (length : Nat) (iv : List Nat) (iv_len : Nat) (add : List Nat) (add_len : Nat)
    (tag : List Nat) (tag_len : Nat) (input : List Nat) : Int × List DriverCall :=
  let r := gcm_auth_crypt k drv ctx k.MBEDTLS_GCM_DECRYPT length iv iv_len add add_len input
    tag_len tag
  if r.1 = k.AESGCM_STATUS_MAC_INVALID then (k.MBEDTLS_ERR_GCM_AUTH_FAILED, r.2)
  else r

/-- What `mbedtls_gcm_update` leaves behind: the value returned, the value stored through
`output_length`, and the driver calls made. -/
structure UpdateResult where
  ret : Int
  output_length : Nat
  calls : List DriverCall
deriving DecidableEq, Repr

/-- `mbedtls_gcm_update`. -/
def mbedtls_gcm_update (k : Codes) (drv : Driver) (ctx : mbedtls_gcm_context)
    (input : List Nat) (input_length : Nat) (_output_size : Nat) : UpdateResult :=
  match ctx.handle with
  | none =>
    { ret := k.MBEDTLS_ERR_CIPHER_INVALID_CONTEXT, output_length := input_length, calls := [] }
  | some handle =>
    if input_length = 0 then { ret := 0, output_length := input_length, calls := [] }
    else
      let segmentedDataOperation : SegmentedDataOperation :=
        { input := input, inputLength := input_length }
      let status := drv.AESGCM_addData handle segmentedDataOperation
      { ret := if status ≠ k.AESGCM_STATUS_SUCCESS then k.MBEDTLS_ERR_PLATFORM_HW_ACCEL_FAILED
          else status,
        output_length := input_length,
        calls := [DriverCall.addData handle segmentedDataOperation] }

/-! ### The parts of `mbedtls_gcm_self_test_alt` that react to these results -/

/-- `MAX_TESTS`. -/
def MAX_TESTS : Nat := 6

/-- `iv_len_test_data`. -/
def iv_len_test_data : List Nat := [12, 12, 12, 12, 8, 60]

/-- `add_len_test_data`. -/
def add_len_test_data : List Nat := [0, 0, 0, 20, 20, 20]

/-- `pt_len_test_data`. -/
def pt_len_test_data : List Nat := [0, 16, 64, 60, 60, 60]

/-- The self-test's decision after the one-step encryption of test vector `i` returned `ret`:
`true` when it prints "not supported" and continues with the next vector. -/
def selfTestSkips (k : Codes) (ret : Int) (i : Nat) : Bool :=
  decide (ret = k.MBEDTLS_ERR_PLATFORM_FEATURE_UNSUPPORTED) &&
    (decide (iv_len_test_data.getD i 0 ≠ 12) ||
      (decide (add_len_test_data.getD i 0 = 0) && decide (pt_len_test_data.getD i 0 = 0)))

/-- How one `mbedtls_gcm_update` step of the self-test ends. -/
inductive UpdateStep where
  | exitWithRet (ret : Int)
  | exitOnLength
  | goOn
deriving DecidableEq, Repr

/-- One `mbedtls_gcm_update` step of the self-test: the call, `if (ret != 0) goto exit;`, and
`if (olen != expected) goto exit;` with `expected` the input length that was passed. -/
def selfTestUpdateStep (k : Codes) (drv : Driver) (ctx : mbedtls_gcm_context)
    (input : List Nat) (input_length : Nat) (output_size : Nat) : UpdateStep :=
  let r := mbedtls_gcm_update k drv ctx input input_length output_size
  if r.ret ≠ 0 then UpdateStep.exitWithRet r.ret
  else if r.output_length ≠ input_length then UpdateStep.exitOnLength
  else UpdateStep.goOn

/-- The values the named codes have in the public headers of Mbed TLS and of the TI drivers
(not part of the sources): sample values for evaluating the port. -/
def headerCodes : Codes :=
  { AESGCM_STATUS_SUCCESS := 0,
    AESGCM_STATUS_MAC_INVALID := -3,
    MBEDTLS_ERR_CIPHER_INVALID_CONTEXT := -0x6380,
    MBEDTLS_ERR_PLATFORM_FEATURE_UNSUPPORTED := -0x0072,
    MBEDTLS_ERR_PLATFORM_HW_ACCEL_FAILED := -0x0070,
    MBEDTLS_ERR_GCM_AUTH_FAILED := -0x0012,
    MBEDTLS_GCM_ENCRYPT := 1,
    MBEDTLS_GCM_DECRYPT := 0 }

/-- A driver whose decryption always reports an invalid MAC and whose other calls succeed. -/
def macInvalidDriver : Driver :=
  { AESGCM_oneStepEncrypt := fun _ _ => headerCodes.AESGCM_STATUS_SUCCESS,
    AESGCM_oneStepDecrypt := fun _ _ => headerCodes.AESGCM_STATUS_MAC_INVALID,
    AESGCM_addData := fun _ _ => headerCodes.AESGCM_STATUS_SUCCESS }

/-- A context with a driver handle. -/
def sampleContext : mbedtls_gcm_context := { handle := some 1, mode := 0 }

end gcm_alt

/-! ## The NCP changed-properties set (`ncp/changed_props_set.cpp`) -/

namespace ot

namespace Ncp

/-- The spinel constants `changed_props_set.cpp` uses by name.  Their values are defined in
`spinel.h`, which is not part of the sources, so they are parameters of the embedding. -/
structure SpinelValues where
  SPINEL_PROP_LAST_STATUS : Nat
  SPINEL_STATUS_RESET_UNKNOWN : Nat
  SPINEL_STATUS_NOMEM : Nat
  SPINEL_STATUS_DROPPED : Nat
  SPINEL_STATUS_JOIN_FAILED : Nat
deriving DecidableEq, Repr

/-- `ChangedPropsSet::Entry`: spinel property, status (if the property is `LAST_STATUS`), and
whether the entry is filterable. -/
structure Entry where
  mPropKey : Nat
  mStatus : Nat
  mFilterable : Bool
deriving DecidableEq, Repr

/-- `ChangedPropsSet::mSupportedProps`: the list of properties that support unsolicited
update.  The `SPINEL_STATUS_NOMEM` entry is commented out in the source. -/
def mSupportedProps (k : SpinelValues) : List Entry :=
  [ { mPropKey := k.SPINEL_PROP_LAST_STATUS, mStatus := k.SPINEL_STATUS_RESET_UNKNOWN,
      mFilterable := false },
    { mPropKey := k.SPINEL_PROP_LAST_STATUS, mStatus := k.SPINEL_STATUS_DROPPED,
      mFilterable := true },
    { mPropKey := k.SPINEL_PROP_LAST_STATUS, mStatus := k.SPINEL_STATUS_JOIN_FAILED,
      mFilterable := false } ]

/-- `ChangedPropsSet::GetNumEntries`: `OT_ARRAY_LENGTH(mSupportedProps)`, returned as a
`uint8_t`. -/
def GetNumEntries (k : SpinelValues) : Nat := (mSupportedProps k).length % 256

/-- The width of the bit masks: `sizeof(mChangedSet) * CHAR_BIT` for the `uint64_t` the source
comments name. -/
def kBitMaskWidth : Nat := 64

/-- The data members of `ChangedPropsSet`: two `uint64_t` bit masks with one bit per entry of
`mSupportedProps`. -/
structure ChangedPropsSet where
  mChangedSet : Nat
  mFilterSet : Nat
deriving DecidableEq, Repr

/-- Modelled from the spec: `ChangedPropsSet::SetBit` of `changed_props_set.hpp` (not part of the
sources): sets bit `aBitIndex` of a 64-bit mask. -/
def SetBit (aBitset aBitIndex : Nat) : Nat :=
  (aBitset ||| (1 <<< aBitIndex)) % 2 ^ kBitMaskWidth

/-- Modelled from the spec: `ChangedPropsSet::ClearBit` of `changed_props_set.hpp` (not part of
the sources): clears bit `aBitIndex` of a 64-bit mask. -/
def ClearBit (aBitset aBitIndex : Nat) : Nat :=
  aBitset &&& ((2 ^ kBitMaskWidth - 1) ^^^ ((1 <<< aBitIndex) % 2 ^ kBitMaskWidth))

/-- Modelled from the spec: `ChangedPropsSet::IsBitSet` of `changed_props_set.hpp` (not part of
the sources): whether bit `aBitIndex` of a 64-bit mask is set. -/
def IsBitSet (aBitset aBitIndex : Nat) : Bool :=
  (aBitset &&& ((1 <<< aBitIndex) % 2 ^ kBitMaskWidth)) != 0

namespace ChangedPropsSet

/-- Modelled from the spec: the constructor of `ChangedPropsSet` in `changed_props_set.hpp` (not
part of the sources): both sets start empty. -/
def init : ChangedPropsSet := { mChangedSet := 0, mFilterSet := 0 }

/-- Modelled from the spec: `ChangedPropsSet::IsEntryFiltered` of `changed_props_set.hpp` (not
part of the sources): whether the filter bit of the entry is set. -/
def IsEntryFiltered (s : ChangedPropsSet) (aIndex : Nat) : Bool := IsBitSet s.mFilterSet aIndex

/-- The `for` loop of `Add` from entry `index` on, over the remaining entries. -/
def AddLoop (aPropKey aStatus : Nat) : List Entry → Nat → ChangedPropsSet → ChangedPropsSet
  | [], _, s => s
  | entry :: rest, index, s =>
    if entry.mPropKey = aPropKey ∧ entry.mStatus = aStatus then
      if !s.IsEntryFiltered index then { s with mChangedSet := SetBit s.mChangedSet index }
      else s
    else AddLoop aPropKey aStatus rest (index + 1) s

/-- `ChangedPropsSet::Add`. -/
def Add (k : SpinelValues) (s : ChangedPropsSet) (aPropKey aStatus : Nat) : ChangedPropsSet :=
  AddLoop aPropKey aStatus (mSupportedProps k) 0 s

/-- The `for` loop of `EnablePropertyFilter` from entry `index` on, over the remaining
entries; the state carries `didFind`. -/
def EnableLoop (k : SpinelValues) (aPropKey : Nat) (aEnable : Bool) :
    List Entry → Nat → ChangedPropsSet → Bool → ChangedPropsSet × Bool
  | [], _, s, didFind => (s, didFind)
  | entry :: rest, index, s, didFind =>
    if entry.mFilterable = true ∧ entry.mPropKey = aPropKey then
      let s1 : ChangedPropsSet :=
        if aEnable then
          { mFilterSet := SetBit s.mFilterSet index,
            mChangedSet := ClearBit s.mChangedSet index }
        else { s with mFilterSet := ClearBit s.mFilterSet index }
      if aPropKey ≠ k.SPINEL_PROP_LAST_STATUS then (s1, true)
      else EnableLoop k aPropKey aEnable rest (index + 1) s1 true
    else EnableLoop k aPropKey aEnable rest (index + 1) s didFind

/-- `ChangedPropsSet::EnablePropertyFilter`: the error returned and the set afterwards. -/
def EnablePropertyFilter (k : SpinelValues) (s : ChangedPropsSet) (aPropKey : Nat)
    (aEnable : Bool) : otError × ChangedPropsSet :=
  let r := EnableLoop k aPropKey aEnable (mSupportedProps k) 0 s false
  (if r.2 then otError.OT_ERROR_NONE else otError.OT_ERROR_INVALID_ARGS, r.1)

/-- The `for` loop of `IsPropertyFiltered` from entry `index` on, over the remaining entries. -/
def IsFilteredLoop (s : ChangedPropsSet) (aPropKey : Nat) : List Entry → Nat → Bool
  | [], _ => false
  | entry :: rest, index =>
    if entry.mFilterable = true ∧ entry.mPropKey = aPropKey then s.IsEntryFiltered index
    else IsFilteredLoop s aPropKey rest (index + 1)

/-- `ChangedPropsSet::IsPropertyFiltered`. -/
def IsPropertyFiltered (k : SpinelValues) (s : ChangedPropsSet) (aPropKey : Nat) : Bool :=
  IsFilteredLoop s aPropKey (mSupportedProps k) 0

end ChangedPropsSet

/-- Modelled from the spec: `ChangedPropsSet::IsEntryChanged` of `changed_props_set.hpp` (not
part of the sources): whether the change bit of the entry is set. -/
def ChangedPropsSet.IsEntryChanged (s : ChangedPropsSet) (aIndex : Nat) : Bool :=
  IsBitSet s.mChangedSet aIndex

/-- Modelled from the spec: the order in which pending property updates are reported.  The loop
that reports them is in the NCP base code (not part of the sources); as the comment on
`mSupportedProps` says of the first entry, it goes through the `GetNumEntries` supported entries
in table order and reports each one that is in the changed set. -/
def reportOrder (k : SpinelValues) (s : ChangedPropsSet) : List Nat :=
  (List.range (GetNumEntries k)).filter (fun index => s.IsEntryChanged index)

/-- No entry is both pending and filtered: no bit is set in both masks. -/
def ChangedPropsSet.disjointSets (s : ChangedPropsSet) : Prop :=
  ∀ j, ¬ (s.mChangedSet.testBit j = true ∧ s.mFilterSet.testBit j = true)

/-- Whether some entry of a table is filterable with the given property key. -/
def hasFilterable (entries : List Entry) (aPropKey : Nat) : Prop :=
  ∃ entry ∈ entries, entry.mFilterable = true ∧ entry.mPropKey = aPropKey

/-- A call of `Add` or of `EnablePropertyFilter`. -/
inductive Call where
  | add (aPropKey aStatus : Nat)
  | enablePropertyFilter (aPropKey : Nat) (aEnable : Bool)
deriving DecidableEq, Repr

/-- The set after a sequence of calls. -/
def runCalls (k : SpinelValues) : List Call → ChangedPropsSet → ChangedPropsSet
  | [], s => s
  | Call.add aPropKey aStatus :: rest, s => runCalls k rest (ChangedPropsSet.Add k s aPropKey aStatus)
  | Call.enablePropertyFilter aPropKey aEnable :: rest, s =>
    runCalls k rest (ChangedPropsSet.EnablePropertyFilter k s aPropKey aEnable).2

/-- Sample values for the spinel constants, pairwise different statuses. -/
def sampleSpinel : SpinelValues :=
  { SPINEL_PROP_LAST_STATUS := 0,
    SPINEL_STATUS_RESET_UNKNOWN := 131,
    SPINEL_STATUS_NOMEM := 11,
    SPINEL_STATUS_DROPPED := 14,
    SPINEL_STATUS_JOIN_FAILED := 104 }

end Ncp

end ot

/-! # Theorems -/

namespace ot

/-! ## State updates -/

@[simp] theorem State.modifyMsg_msg (s : State) (a : Nat) (f : Message → Message) (x : Nat) :
    (s.modifyMsg a f).msg x = if x = a then f (s.msg a) else s.msg x := by
  unfold State.modifyMsg
  by_cases h : x = a
  · subst h; simp
  · simp [h]

@[simp] theorem State.modifyMsg_pq (s : State) (a : Nat) (f : Message → Message) :
    (s.modifyMsg a f).pq = s.pq := rfl

@[simp] theorem State.modifyMsg_mq (s : State) (a : Nat) (f : Message → Message) :
    (s.modifyMsg a f).mq = s.mq := rfl

@[simp] theorem State.modifyPtr_msg (s : State) (p : Option Nat) (f : Message → Message)
    (x : Nat) :
    (s.modifyPtr p f).msg x = if p = some x then f (s.msg x) else s.msg x := by
  cases p with
  | none => simp [State.modifyPtr]
  | some a =>
    by_cases h : x = a
    · subst h; simp [State.modifyPtr]
    · have h2 : ¬ a = x := fun e => h e.symm
      simp [State.modifyPtr, h, h2]

@[simp] theorem State.modifyPtr_pq (s : State) (p : Option Nat) (f : Message → Message) :
    (s.modifyPtr p f).pq = s.pq := by
  cases p <;> rfl

@[simp] theorem State.modifyPtr_mq (s : State) (p : Option Nat) (f : Message → Message) :
    (s.modifyPtr p f).mq = s.mq := by
  cases p <;> rfl

@[simp] theorem State.setPq_msg (s : State) (q : Nat) (v : PriorityQueue) :
    (s.setPq q v).msg = s.msg := rfl

@[simp] theorem State.setPq_pq (s : State) (q : Nat) (v : PriorityQueue) (x : Nat) :
    (s.setPq q v).pq x = if x = q then v else s.pq x := by
  unfold State.setPq
  by_cases h : x = q
  · subst h; simp
  · simp [h]

@[simp] theorem State.setMq_msg (s : State) (q : Nat) (v : MessageQueue) :
    (s.setMq q v).msg = s.msg := rfl

/-! ## Rings -/

theorem isRing_nil (s : State) : isRing s [] := by
  simp [isRing]

theorem isRing_rotate (s : State) (A B : List Nat) :
    isRing s (A ++ B) ↔ isRing s (B ++ A) := by
  cases A with
  | nil => simp
  | cons a A' =>
    cases B with
    | nil => simp
    | cons b B' =>
      simp only [isRing, List.chain'_append, List.head?_cons, List.head?_append,
        List.getLast?_append, Option.toList]
      simp
      tauto

end ot

namespace ot

theorem isRing_head_of_last (s : State) (l : List Nat) (t : Nat) (h : isRing s l)
    (ht : l.getLast? = some t) : ∃ hd, l.head? = some hd ∧ nextIs s t hd := by
  cases l with
  | nil => simp at ht
  | cons a l' =>
    refine ⟨a, rfl, ?_⟩
    have h2 := (List.chain'_append.1 h).2.2
    exact h2 t (by simpa using ht) a (by simp)

/-- Two states whose `mNext` pointers agree on the elements of `l` chain the same lists
`l ++ [z]`. -/
theorem chain_congr_init (s s' : State) (l : List Nat) (z : List Nat)
    (hsame : ∀ a ∈ l, (s'.msg a).mInfo.mNext = (s.msg a).mInfo.mNext)
    (h : List.Chain' (nextIs s) (l ++ z)) (hz : z.length ≤ 1) :
    List.Chain' (nextIs s') (l ++ z) := by
  induction l with
  | nil =>
    match z, hz with
    | [], _ => simp
    | [_], _ => simp
  | cons a l' ih =>
    have ha : (s'.msg a).mInfo.mNext = (s.msg a).mInfo.mNext := hsame a (by simp)
    have ih' := ih (fun x hx => hsame x (by simp [hx]))
    rw [List.cons_append] at h ⊢
    rw [List.chain'_cons'] at h ⊢
    refine ⟨?_, ih' h.2⟩
    intro y hy
    have := h.1 y hy
    unfold nextIs at this ⊢
    rw [ha]; exact this

/-- Appending a message to a ring: if the last element now points to `m` and `m` points to the
old head, and all other `mNext` pointers are as before, the ring is `l ++ [m]`. -/
theorem isRing_snoc (s s' : State) (l : List Nat) (m : Nat)
    (hring : isRing s l) (hnd : l.Nodup) (hm : m ∉ l)
    (hother : ∀ x, x ≠ m → some x ≠ l.getLast? →
      (s'.msg x).mInfo.mNext = (s.msg x).mInfo.mNext)
    (hlast : ∀ t, l.getLast? = some t → (s'.msg t).mInfo.mNext = some m)
    (hnew : (s'.msg m).mInfo.mNext =
      match l.getLast? with
      | some t => (s.msg t).mInfo.mNext
      | none => some m) :
    isRing s' (l ++ [m]) := by
  rcases List.eq_nil_or_concat l with hl | ⟨l', t, hl⟩
  · subst hl
    simp [isRing, nextIs] at hnew ⊢
    exact hnew
  · rw [List.concat_eq_append] at hl
    subst hl
    have hlastt : (l' ++ [t]).getLast? = some t := by simp
    obtain ⟨hd, hhd, hthd⟩ := isRing_head_of_last s _ t hring hlastt
    rw [hlastt] at hnew hother
    simp only at hnew
    have htm := hlast t hlastt
    unfold isRing at hring ⊢
    have hhd' : (l' ++ [t] ++ [m]).head? = some hd := by
      rw [List.head?_append_of_ne_nil _ (by simp)]
      exact hhd
    rw [hhd', hhd] at *
    simp only [Option.toList] at hring ⊢
    rw [List.nodup_append] at hnd
    have hsame : ∀ a ∈ l', (s'.msg a).mInfo.mNext = (s.msg a).mInfo.mNext := by
      intro a ha
      apply hother
      · intro e; subst e; exact hm (by simp [ha])
      · intro e
        have : a = t := by simpa using e
        subst this
        exact hnd.2.2 ha (by simp)
    have h1 : List.Chain' (nextIs s') (l' ++ [t]) :=
      chain_congr_init s s' l' [t] hsame (List.chain'_append.1 hring).1 (by simp)
    rw [List.chain'_append]
    refine ⟨?_, by simp, ?_⟩
    · rw [List.chain'_append]
      refine ⟨h1, by simp, ?_⟩
      intro x hx y hy
      simp at hx hy
      subst hx; subst hy
      exact htm
    · intro x hx y hy
      simp at hx hy
      subst hx; subst hy
      unfold nextIs at hthd ⊢
      rw [hnew]; exact hthd

end ot

namespace ot

namespace PriorityQueue

theorem Enqueue_next (s : State) (q m : Nat) (hq : (s.msg m).IsInAQueue = false)
    (htm : (s.pq q).FindFirstNonNullTail (s.msg m).GetPriority ≠ some m) (x : Nat) :
    ((Enqueue s q m).2.msg x).mInfo.mNext =
      if x = m then
        (match (s.pq q).FindFirstNonNullTail (s.msg m).GetPriority with
          | some tail => (s.msg tail).mInfo.mNext
          | none => some m)
      else if (s.pq q).FindFirstNonNullTail (s.msg m).GetPriority = some x then some m
      else (s.msg x).mInfo.mNext := by
  unfold Enqueue
  simp only [hq, Bool.false_eq_true, if_false, State.modifyMsg_msg, State.modifyMsg_pq, if_true]
  have hp : (Message.SetPriorityQueue (s.msg m) (some q)).GetPriority = (s.msg m).GetPriority := rfl
  rw [hp]
  cases ht : (s.pq q).FindFirstNonNullTail (s.msg m).GetPriority with
  | none =>
    by_cases hx : x = m
    · subst hx; simp [Message.setNext, Message.setPrev]
    · simp [hx]
  | some tail =>
    have hne : tail ≠ m := by
      intro e; apply htm; rw [ht, e]
    by_cases hx : x = m
    · subst hx
      have : ¬ x = tail := fun e => hne e.symm
      simp [Message.setNext, Message.setPrev, hne, this]
      split_ifs <;> rfl
    · by_cases hxt : x = tail
      · subst hxt
        simp [Message.setNext, Message.setPrev, hx]
      · have : ¬ tail = x := fun e => hxt e.symm
        simp [hx, hxt, this]
        split_ifs <;> rfl

theorem Enqueue_tag (s : State) (q m : Nat) (hq : (s.msg m).IsInAQueue = false) (x : Nat) :
    ((Enqueue s q m).2.msg x).mInfo.mInPriorityQ =
        (if x = m then true else (s.msg x).mInfo.mInPriorityQ) ∧
    ((Enqueue s q m).2.msg x).mInfo.mQueue =
        (if x = m then some q else (s.msg x).mInfo.mQueue) ∧
    ((Enqueue s q m).2.msg x).mInfo.mPriority = (s.msg x).mInfo.mPriority := by
  unfold Enqueue
  simp only [hq, Bool.false_eq_true, if_false, State.modifyMsg_msg, State.modifyMsg_pq, if_true]
  cases (s.pq q).FindFirstNonNullTail (Message.SetPriorityQueue (s.msg m) (some q)).GetPriority with
  | none =>
    by_cases hx : x = m
    · subst hx; simp [Message.setNext, Message.setPrev, Message.SetPriorityQueue]
    · simp [hx]
  | some tail =>
    by_cases hx : x = m
    · subst hx
      simp only [State.setPq_msg, State.modifyMsg_msg, State.modifyPtr_msg]
      split_ifs <;> first
        | omega
        | (subst_vars; first
            | rfl
            | simp [Message.setNext, Message.setPrev, Message.SetPriorityQueue])
    · simp only [State.setPq_msg, State.modifyMsg_msg, State.modifyPtr_msg, hx, if_false]
      split_ifs <;> first
        | omega
        | (subst_vars; first
            | rfl
            | simp [Message.setNext, Message.setPrev, Message.SetPriorityQueue])

theorem Enqueue_tails (s : State) (q m : Nat) (hq : (s.msg m).IsInAQueue = false) :
    ((Enqueue s q m).2.pq q).mTails =
      Function.update (s.pq q).mTails (s.msg m).GetPriority (some m) := by
  unfold Enqueue
  simp only [hq, Bool.false_eq_true, if_false, State.modifyMsg_msg, State.modifyMsg_pq, if_true]
  have hp : (Message.SetPriorityQueue (s.msg m) (some q)).GetPriority = (s.msg m).GetPriority := rfl
  rw [hp]
  cases (s.pq q).FindFirstNonNullTail (s.msg m).GetPriority <;> simp

/-- `Enqueue` touches only the message itself, the tail it is linked after and the message
after that tail. -/
theorem Enqueue_frame (s : State) (q m : Nat) (x : Nat) (hx : x ≠ m)
    (ht : (s.pq q).FindFirstNonNullTail (s.msg m).GetPriority ≠ some x)
    (hn : ∀ t, (s.pq q).FindFirstNonNullTail (s.msg m).GetPriority = some t →
      (s.msg t).mInfo.mNext ≠ some x) :
    (Enqueue s q m).2.msg x = s.msg x := by
  unfold Enqueue
  by_cases hq : (s.msg m).IsInAQueue = true
  · simp [hq]
  · have hq' : (s.msg m).IsInAQueue = false := by simpa using hq
    simp only [hq', Bool.false_eq_true, if_false, State.modifyMsg_msg, State.modifyMsg_pq,
      if_true]
    have hp : (Message.SetPriorityQueue (s.msg m) (some q)).GetPriority = (s.msg m).GetPriority :=
      rfl
    rw [hp]
    cases hf : (s.pq q).FindFirstNonNullTail (s.msg m).GetPriority with
    | none => simp [hx]
    | some tail =>
      have h1 : ¬ x = tail := by
        intro e; apply ht; rw [hf, e]
      have h2 := hn tail hf
      have key : (if tail = m then (s.msg m).SetPriorityQueue (some q)
          else s.msg tail).mInfo.mNext = (s.msg tail).mInfo.mNext := by
        split_ifs with h
        · subst h; rfl
        · rfl
      simp only [State.setPq_msg, State.modifyMsg_msg, State.modifyPtr_msg, hx, h1, if_false,
        key, h2]

end PriorityQueue

end ot

namespace ot

theorem ringUpTo_split (cls : Nat → List Nat) (p : Nat) :
    ∃ A B, ringList cls = A ++ B ∧ ringUpTo cls p = B ++ A := by
  match p with
  | 0 => exact ⟨ringList cls, [], by simp, by simp [ringUpTo, ringList]⟩
  | 1 => exact ⟨cls 3 ++ cls 2 ++ cls 1, cls 0, by simp [ringList], by simp [ringUpTo]⟩
  | 2 => exact ⟨cls 3 ++ cls 2, cls 1 ++ cls 0, by simp [ringList], by simp [ringUpTo]⟩
  | (n + 3) => exact ⟨cls 3, cls 2 ++ cls 1 ++ cls 0, by simp [ringList], by simp [ringUpTo]⟩

theorem mem_ringUpTo (cls : Nat → List Nat) (p x : Nat) :
    x ∈ ringUpTo cls p ↔ x ∈ ringList cls := by
  obtain ⟨A, B, h1, h2⟩ := ringUpTo_split cls p
  rw [h1, h2]; simp [or_comm]

theorem nodup_ringUpTo (cls : Nat → List Nat) (p : Nat) :
    (ringUpTo cls p).Nodup ↔ (ringList cls).Nodup := by
  obtain ⟨A, B, h1, h2⟩ := ringUpTo_split cls p
  rw [h1, h2]; exact List.nodup_append_comm

theorem isRing_ringUpTo (s : State) (cls : Nat → List Nat) (p : Nat) :
    isRing s (ringUpTo cls p) ↔ isRing s (ringList cls) := by
  obtain ⟨A, B, h1, h2⟩ := ringUpTo_split cls p
  rw [h1, h2]; exact isRing_rotate s B A

theorem ringUpTo_update (cls : Nat → List Nat) (p m : Nat) (hp : p < 4) :
    ringUpTo (Function.update cls p (cls p ++ [m])) p = ringUpTo cls p ++ [m] := by
  interval_cases p <;> simp [ringUpTo, Function.update]

theorem PriorityQueue.FindFirstNonNullTail_eq (pq : PriorityQueue) (cls : Nat → List Nat)
    (htails : ∀ p, p < 4 → pq.mTails p = (cls p).getLast?) (p : Nat) (hp : p < 4) :
    pq.FindFirstNonNullTail p = (ringUpTo cls p).getLast? := by
  have h0 := htails 0 (by decide)
  have h1 := htails 1 (by decide)
  have h2 := htails 2 (by decide)
  have h3 := htails 3 (by decide)
  clear htails
  interval_cases p <;>
    simp only [FindFirstNonNullTail, FindFirstNonNullTailLoop, PrevPriority, kNumPriorities,
      ringUpTo, List.getLast?_append, ← h0, ← h1, ← h2, ← h3] <;>
    clear h0 h1 h2 h3 <;>
    norm_num <;>
    cases pq.mTails 0 <;> cases pq.mTails 1 <;> cases pq.mTails 2 <;>
    cases pq.mTails 3 <;> simp

end ot

namespace ot

theorem Message.GetPriority_lt (m : Message) : m.GetPriority < 4 := m.mInfo.mPriority.isLt

/-- A successful `Enqueue` appends the message to its priority class and keeps the
representation invariant. -/
theorem PriorityQueue.Enqueue_inv (s : State) (q m : Nat) (cls : Nat → List Nat)
    (hinv : PQInv s q cls) (hm : m ∉ ringList cls) (hq : (s.msg m).IsInAQueue = false) :
    PQInv (Enqueue s q m).2 q
      (Function.update cls (s.msg m).GetPriority (cls (s.msg m).GetPriority ++ [m])) := by
  have hp := (s.msg m).GetPriority_lt
  generalize hpe : (s.msg m).GetPriority = p at hp
  have hfind := FindFirstNonNullTail_eq (s.pq q) cls hinv.tails p hp
  have hmL : m ∉ ringUpTo cls p := fun h => hm ((mem_ringUpTo cls p m).1 h)
  have hndL : (ringUpTo cls p).Nodup := (nodup_ringUpTo cls p).2 hinv.nodup
  have htm : (s.pq q).FindFirstNonNullTail (s.msg m).GetPriority ≠ some m := by
    rw [hpe, hfind]
    intro h
    exact hmL (List.mem_of_getLast?_eq_some h)
  have hnext := Enqueue_next s q m hq htm
  rw [hpe, hfind] at hnext
  have hupd := ringUpTo_update cls p m hp
  refine ⟨?_, ?_, ?_, ?_⟩
  · rw [← nodup_ringUpTo _ p, hupd]
    exact List.Nodup.append hndL (by simp) (by simpa using hmL)
  · intro p' hp'
    rw [Enqueue_tails s q m hq, hpe]
    by_cases h : p' = p
    · subst h; simp
    · simpa [Function.update, h] using hinv.tails p' hp'
  · rw [← isRing_ringUpTo _ _ p, hupd]
    apply isRing_snoc s _ _ m ((isRing_ringUpTo s cls p).2 hinv.ring) hndL hmL
    · intro x hx hxl
      rw [hnext x]
      have : ¬ (ringUpTo cls p).getLast? = some x := fun e => hxl e.symm
      simp [hx, this]
    · intro t ht
      rw [hnext t]
      have : t ≠ m := by
        intro e; subst e
        exact hmL (List.mem_of_getLast?_eq_some ht)
      simp [this, ht]
    · rw [hnext m]; simp
  · intro x hx
    rw [← mem_ringUpTo _ p, hupd] at hx
    have ht := Enqueue_tag s q m hq x
    rw [ht.1, ht.2.1]
    by_cases hxm : x = m
    · simp [hxm]
    · have hx' : x ∈ ringList cls := by
        rw [← mem_ringUpTo _ p]
        simpa [hxm] using hx
      simpa [hxm] using hinv.tagged x hx'

/-- Messages outside the queue, other than the one enqueued, are left alone by `Enqueue`. -/
theorem PriorityQueue.Enqueue_frame_inv (s : State) (q m : Nat) (cls : Nat → List Nat)
    (hinv : PQInv s q cls) (x : Nat) (hx : x ≠ m) (hxr : x ∉ ringList cls) :
    (Enqueue s q m).2.msg x = s.msg x := by
  have hp := (s.msg m).GetPriority_lt
  have hfind := FindFirstNonNullTail_eq (s.pq q) cls hinv.tails _ hp
  have hxL : x ∉ ringUpTo cls (s.msg m).GetPriority :=
    fun h => hxr ((mem_ringUpTo cls _ x).1 h)
  apply Enqueue_frame s q m x hx
  · rw [hfind]
    intro h
    exact hxL (List.mem_of_getLast?_eq_some h)
  · intro t ht h
    rw [hfind] at ht
    obtain ⟨hd, hhd, hthd⟩ := isRing_head_of_last s _ t
      ((isRing_ringUpTo s cls _).2 hinv.ring) ht
    unfold nextIs at hthd
    rw [hthd] at h
    have : hd = x := by simpa using h
    subst this
    exact hxL (List.mem_of_mem_head? hhd)

end ot

namespace ot

theorem ringList_update_mem (cls : Nat → List Nat) (p m x : Nat) (hp : p < 4) :
    x ∈ ringList (Function.update cls p (cls p ++ [m])) ↔ x ∈ ringList cls ∨ x = m := by
  rw [← mem_ringUpTo _ p, ringUpTo_update cls p m hp, List.mem_append, mem_ringUpTo]
  simp

theorem enqueueAll_inv (q : Nat) (ms : List Nat) :
    ∀ (s : State) (cls : Nat → List Nat), PQInv s q cls → ms.Nodup →
      (∀ m ∈ ms, m ∉ ringList cls) → (∀ m ∈ ms, (s.msg m).IsInAQueue = false) →
      PQInv (enqueueAll s q ms) q
          (fun p => cls p ++ ms.filter (fun m => (s.msg m).GetPriority = p)) ∧
        ∀ x, ((enqueueAll s q ms).msg x).mInfo.mPriority = (s.msg x).mInfo.mPriority := by
  induction ms with
  | nil =>
    intro s cls hinv _ _ _
    simpa [enqueueAll] using hinv
  | cons m rest ih =>
    intro s cls hinv hnd hfresh hfree
    have hq : (s.msg m).IsInAQueue = false := hfree m (by simp)
    have hmr : m ∉ ringList cls := hfresh m (by simp)
    have hp := (s.msg m).GetPriority_lt
    have hstep := PriorityQueue.Enqueue_inv s q m cls hinv hmr hq
    have hprio : ∀ x, ((PriorityQueue.Enqueue s q m).2.msg x).mInfo.mPriority =
        (s.msg x).mInfo.mPriority := fun x => (PriorityQueue.Enqueue_tag s q m hq x).2.2
    rw [List.nodup_cons] at hnd
    have ih' := ih (PriorityQueue.Enqueue s q m).2 _ hstep hnd.2
      (by
        intro x hx hmem
        rcases (ringList_update_mem cls _ m x hp).1 hmem with h | h
        · exact hfresh x (by simp [hx]) h
        · subst h; exact hnd.1 hx)
      (by
        intro x hx
        have hxm : x ≠ m := by
          intro e; subst e; exact hnd.1 hx
        rw [PriorityQueue.Enqueue_frame_inv s q m cls hinv x hxm (hfresh x (by simp [hx]))]
        exact hfree x (by simp [hx]))
    refine ⟨?_, ?_⟩
    · have hfun : (fun p => Function.update cls (s.msg m).GetPriority
            (cls (s.msg m).GetPriority ++ [m]) p ++
            rest.filter (fun x => ((PriorityQueue.Enqueue s q m).2.msg x).GetPriority = p)) =
          (fun p => cls p ++ (m :: rest).filter (fun x => (s.msg x).GetPriority = p)) := by
        funext p
        have hf : rest.filter (fun x => ((PriorityQueue.Enqueue s q m).2.msg x).GetPriority = p)
            = rest.filter (fun x => (s.msg x).GetPriority = p) := by
          apply List.filter_congr
          intro x _
          simp only [Message.GetPriority, hprio x]
        rw [hf]
        by_cases h : (s.msg m).GetPriority = p
        · subst h
          simp [List.filter_cons]
        · have h' : ¬ p = (s.msg m).GetPriority := fun e => h e.symm
          simp [List.filter_cons, h, Function.update, h']
      simp only [enqueueAll]
      rw [← hfun]
      exact ih'.1
    · intro x
      simp only [enqueueAll]
      rw [ih'.2 x, hprio x]

theorem walk_suffix (s : State) (q t : Nat) (htail : (s.pq q).GetTail = some t) (z : List Nat) :
    ∀ (S : List Nat) (a : Nat), List.Chain' (nextIs s) (a :: S ++ z) →
      (a :: S).getLast? = some t → (a :: S).Nodup →
      (∀ x ∈ a :: S, (s.msg x).mInfo.mInPriorityQ = true ∧ (s.msg x).mInfo.mQueue = some q) →
      ∀ fuel, (a :: S).length ≤ fuel → walk s fuel (some a) = some (a :: S) := by
  intro S
  induction S with
  | nil =>
    intro a _ hlast _ htag fuel hfuel
    have hat : a = t := by simpa using hlast
    subst hat
    obtain ⟨h1, h2⟩ := htag a (by simp)
    cases fuel with
    | zero => simp at hfuel
    | succ n =>
      have : Message.GetNext s a = none := by
        simp [Message.GetNext, Message.GetPriorityQueue, h1, h2, htail]
      cases n <;> simp [walk, this]
  | cons b S' ih =>
    intro a hch hlast hnd htag fuel hfuel
    obtain ⟨h1, h2⟩ := htag a (by simp)
    rw [List.cons_append, List.cons_append, List.chain'_cons] at hch
    have hlast' : (b :: S').getLast? = some t := by
      rw [List.getLast?_cons_cons] at hlast; exact hlast
    have hne : a ≠ t := by
      intro e; subst e
      exact (List.nodup_cons.1 hnd).1 (List.mem_of_getLast?_eq_some hlast')
    have hnext : Message.GetNext s a = some b := by
      have hab : (s.msg a).mInfo.mNext = some b := hch.1
      have : ¬ t = a := fun e => hne e.symm
      simp [Message.GetNext, Message.GetPriorityQueue, h1, h2, htail, this, hab]
    cases fuel with
    | zero => simp at hfuel
    | succ n =>
      have hrec := ih b (by rw [List.cons_append]; exact hch.2) hlast' (List.nodup_cons.1 hnd).2
        (fun x hx => htag x (by simp [List.mem_cons] at hx ⊢; tauto)) n
        (by simp at hfuel ⊢; omega)
      simp [walk, hnext, hrec]

theorem PriorityQueue.GetTail_inv (s : State) (q : Nat) (cls : Nat → List Nat)
    (hinv : PQInv s q cls) : (s.pq q).GetTail = (ringList cls).getLast? := by
  have := FindFirstNonNullTail_eq (s.pq q) cls hinv.tails 0 (by decide)
  simpa [GetTail, ringUpTo, ringList] using this

theorem PriorityQueue.GetHead_inv (s : State) (q : Nat) (cls : Nat → List Nat)
    (hinv : PQInv s q cls) : GetHead s q = (ringList cls).head? := by
  unfold GetHead
  rw [GetTail_inv s q cls hinv]
  cases hl : (ringList cls).getLast? with
  | none =>
    have : ringList cls = [] := by simpa using hl
    simp [this]
  | some t =>
    obtain ⟨hd, hhd, hthd⟩ := isRing_head_of_last s _ t hinv.ring hl
    simp only [hhd]
    exact hthd

theorem walk_inv (s : State) (q : Nat) (cls : Nat → List Nat) (hinv : PQInv s q cls)
    (fuel : Nat) (hfuel : (ringList cls).length ≤ fuel) :
    walk s fuel (PriorityQueue.GetHead s q) = some (ringList cls) := by
  rw [PriorityQueue.GetHead_inv s q cls hinv]
  have htail := PriorityQueue.GetTail_inv s q cls hinv
  have hring := hinv.ring
  have hnd := hinv.nodup
  have htag := hinv.tagged
  generalize ringList cls = R at *
  cases R with
  | nil => cases fuel <;> simp [walk]
  | cons a S =>
    have hl : (a :: S).getLast? = some ((a :: S).getLast (by simp)) :=
      List.getLast?_eq_getLast _ _
    rw [hl] at htail
    simp only [List.head?_cons]
    exact walk_suffix s q _ htail [a] S a (by simpa [isRing] using hring) hl hnd htag fuel hfuel

end ot

namespace ot

theorem priorityMajor_length (s : State) (ms : List Nat) :
    (priorityMajor s ms).length = ms.length := by
  induction ms with
  | nil => simp [priorityMajor]
  | cons a rest ih =>
    have hp := (s.msg a).GetPriority_lt
    simp only [priorityMajor, List.length_append] at ih ⊢
    simp only [kPriorityNet, kPriorityHigh, kPriorityNormal, kPriorityLow,
      OT_MESSAGE_PRIORITY_HIGH, OT_MESSAGE_PRIORITY_NORMAL, OT_MESSAGE_PRIORITY_LOW] at ih ⊢
    have hcases : (s.msg a).GetPriority = 0 ∨ (s.msg a).GetPriority = 1 ∨
        (s.msg a).GetPriority = 2 ∨ (s.msg a).GetPriority = 3 := by omega
    simp only [Nat.reduceAdd] at ih ⊢
    rcases hcases with h | h | h | h <;> simp [List.filter_cons, h] <;> omega

theorem filter_head_cases (s : State) (ms : List Nat) (p : Nat) :
    ((ms.filter (fun m => (s.msg m).GetPriority = p)).head? = none ∧
        ∀ m ∈ ms, (s.msg m).GetPriority ≠ p) ∨
    ∃ h, (ms.filter (fun m => (s.msg m).GetPriority = p)).head? = some h ∧ h ∈ ms ∧
        (s.msg h).GetPriority = p := by
  cases hf : (ms.filter (fun m => (s.msg m).GetPriority = p)).head? with
  | none =>
    left
    refine ⟨rfl, ?_⟩
    have : ms.filter (fun m => (s.msg m).GetPriority = p) = [] := by simpa using hf
    intro m hm
    have := (List.filter_eq_nil_iff.1 this) m hm
    simpa using this
  | some h =>
    right
    have hmem := List.mem_of_mem_head? hf
    rw [List.mem_filter] at hmem
    exact ⟨h, rfl, hmem.1, by simpa using hmem.2⟩

theorem priorityMajor_head (s : State) (ms : List Nat) (h : Nat)
    (hh : (priorityMajor s ms).head? = some h) :
    h ∈ ms ∧ ∀ m ∈ ms, (s.msg m).GetPriority ≤ (s.msg h).GetPriority := by
  simp only [priorityMajor, kPriorityNet, kPriorityHigh, kPriorityNormal, kPriorityLow,
    OT_MESSAGE_PRIORITY_HIGH, OT_MESSAGE_PRIORITY_NORMAL, OT_MESSAGE_PRIORITY_LOW,
    Nat.reduceAdd, List.head?_append] at hh
  have hlt : ∀ m, (s.msg m).GetPriority < 4 := fun m => (s.msg m).GetPriority_lt
  rcases filter_head_cases s ms 3 with ⟨e3, n3⟩ | ⟨h3, e3, m3, p3⟩
  · rcases filter_head_cases s ms 2 with ⟨e2, n2⟩ | ⟨h2, e2, m2, p2⟩
    · rcases filter_head_cases s ms 1 with ⟨e1, n1⟩ | ⟨h1, e1, m1, p1⟩
      · rcases filter_head_cases s ms 0 with ⟨e0, n0⟩ | ⟨h0, e0, m0, p0⟩
        · rw [e3, e2, e1, e0] at hh
          simp at hh
        · rw [e3, e2, e1, e0] at hh
          have : h0 = h := by simpa using hh
          subst this
          refine ⟨m0, fun m hm => ?_⟩
          have := n3 m hm; have := n2 m hm; have := n1 m hm; have := hlt m
          omega
      · rw [e3, e2, e1] at hh
        have : h1 = h := by simpa using hh
        subst this
        refine ⟨m1, fun m hm => ?_⟩
        have := n3 m hm; have := n2 m hm; have := hlt m
        omega
    · rw [e3, e2] at hh
      have : h2 = h := by simpa using hh
      subst this
      refine ⟨m2, fun m hm => ?_⟩
      have := n3 m hm; have := hlt m
      omega
  · rw [e3] at hh
    have : h3 = h := by simpa using hh
    subst this
    refine ⟨m3, fun m hm => ?_⟩
    have := hlt m
    omega

theorem PQInv_empty (s : State) (q : Nat)
    (hempty : ∀ p, p < kNumPriorities → (s.pq q).mTails p = none) :
    PQInv s q (fun _ => []) := by
  refine ⟨by simp [ringList], ?_, by simp [ringList, isRing], by simp [ringList]⟩
  intro p hp
  simpa using hempty p hp

/-- C1: starting from an empty priority queue, after any sequence of `Enqueue` calls on
distinct messages that are in no queue, `GetHead()` is a message of the highest priority class
that has a message (network-control before high before normal before low), and following
`GetNext()` from the head visits all messages in priority-major order, messages of one class in
the order they were enqueued, and ends with `NULL` after as many steps as there are messages. -/
theorem C1_priority_queue_order (s : State) (q : Nat) (ms : List Nat)
    (hempty : ∀ p, p < kNumPriorities → (s.pq q).mTails p = none)
    (hnodup : ms.Nodup)
    (hfree : ∀ m ∈ ms, (s.msg m).IsInAQueue = false) :
    PriorityQueue.GetHead (enqueueAll s q ms) q = (priorityMajor s ms).head? ∧
    (∀ h, PriorityQueue.GetHead (enqueueAll s q ms) q = some h →
      h ∈ ms ∧ ∀ m ∈ ms, (s.msg m).GetPriority ≤ (s.msg h).GetPriority) ∧
    walk (enqueueAll s q ms) ms.length (PriorityQueue.GetHead (enqueueAll s q ms) q) =
      some (priorityMajor s ms) ∧
    ∀ m, ((enqueueAll s q ms).msg m).GetPriority = (s.msg m).GetPriority := by
  have h0 := PQInv_empty s q hempty
  obtain ⟨hinv, hprio⟩ := enqueueAll_inv q ms s (fun _ => []) h0 hnodup
    (by simp [ringList]) hfree
  have hrl : ringList (fun p => ([] : List Nat) ++
      ms.filter (fun m => (s.msg m).GetPriority = p)) = priorityMajor s ms := by
    simp [ringList, priorityMajor, kPriorityNet, kPriorityHigh, kPriorityNormal, kPriorityLow,
      OT_MESSAGE_PRIORITY_HIGH, OT_MESSAGE_PRIORITY_NORMAL, OT_MESSAGE_PRIORITY_LOW]
  have hhead := PriorityQueue.GetHead_inv _ q _ hinv
  rw [hrl] at hhead
  refine ⟨hhead, ?_, ?_, ?_⟩
  · intro h hh
    rw [hhead] at hh
    exact priorityMajor_head s ms h hh
  · have := walk_inv _ q _ hinv ms.length (by rw [hrl, priorityMajor_length])
    rw [hrl] at this
    exact this
  · intro m
    simp only [Message.GetPriority, hprio m]

end ot

namespace ot

theorem C1_priority_queue_order_witness :
    (∀ p, p < kNumPriorities → (sampleState.pq 0).mTails p = none) ∧
    [4, 1, 2, 3, 5, 7].Nodup ∧
    (∀ m ∈ [4, 1, 2, 3, 5, 7], (sampleState.msg m).IsInAQueue = false) ∧
    PriorityQueue.GetHead (enqueueAll sampleState 0 [4, 1, 2, 3, 5, 7]) 0 = some 3 ∧
    walk (enqueueAll sampleState 0 [4, 1, 2, 3, 5, 7]) 6
      (PriorityQueue.GetHead (enqueueAll sampleState 0 [4, 1, 2, 3, 5, 7]) 0) =
      some [3, 7, 2, 1, 5, 4] :=
  ⟨by decide, by decide, by decide,
    (C1_priority_queue_order sampleState 0 [4, 1, 2, 3, 5, 7]
      (by decide) (by decide) (by decide)).1,
    (C1_priority_queue_order sampleState 0 [4, 1, 2, 3, 5, 7]
      (by decide) (by decide) (by decide)).2.2.1⟩

/-- C2: `Enqueue` (of a `MessageQueue`, at either position, or of a `PriorityQueue`) of a
message that is already in some queue returns `OT_ERROR_ALREADY`, and `Dequeue` of a message
whose queue tag does not name this queue returns `OT_ERROR_NOT_FOUND`; in both cases the whole
state (the message, every queue, every other message) is unchanged. -/
theorem C2_queue_misuse_errors (s : State) (q aMessage : Nat)
    (aPosition : MessageQueue.QueuePosition) :
    ((s.msg aMessage).IsInAQueue = true →
      MessageQueue.Enqueue s q aMessage aPosition = (otError.OT_ERROR_ALREADY, s) ∧
      PriorityQueue.Enqueue s q aMessage = (otError.OT_ERROR_ALREADY, s)) ∧
    ((s.msg aMessage).GetMessageQueue ≠ some q →
      MessageQueue.Dequeue s q aMessage = (otError.OT_ERROR_NOT_FOUND, s)) ∧
    ((s.msg aMessage).GetPriorityQueue ≠ some q →
      PriorityQueue.Dequeue s q aMessage = (otError.OT_ERROR_NOT_FOUND, s)) := by
  refine ⟨fun h => ⟨?_, ?_⟩, fun h => ?_, fun h => ?_⟩
  · simp [MessageQueue.Enqueue, h]
  · simp [PriorityQueue.Enqueue, h]
  · simp [MessageQueue.Dequeue, h]
  · simp [PriorityQueue.Dequeue, h]

theorem C2_queue_misuse_errors_witness :
    ((enqueueAll sampleState 0 [1]).msg 1).IsInAQueue = true ∧
    MessageQueue.Enqueue (enqueueAll sampleState 0 [1]) 5 1
        MessageQueue.QueuePosition.kQueuePositionTail =
      (otError.OT_ERROR_ALREADY, enqueueAll sampleState 0 [1]) ∧
    PriorityQueue.Enqueue (enqueueAll sampleState 0 [1]) 0 1 =
      (otError.OT_ERROR_ALREADY, enqueueAll sampleState 0 [1]) ∧
    ((enqueueAll sampleState 0 [1]).msg 1).GetMessageQueue ≠ some 0 ∧
    MessageQueue.Dequeue (enqueueAll sampleState 0 [1]) 0 1 =
      (otError.OT_ERROR_NOT_FOUND, enqueueAll sampleState 0 [1]) ∧
    ((enqueueAll sampleState 0 [1]).msg 1).GetPriorityQueue ≠ some 7 ∧
    PriorityQueue.Dequeue (enqueueAll sampleState 0 [1]) 7 1 =
      (otError.OT_ERROR_NOT_FOUND, enqueueAll sampleState 0 [1]) :=
  ⟨by decide,
    ((C2_queue_misuse_errors (enqueueAll sampleState 0 [1]) 5 1
      MessageQueue.QueuePosition.kQueuePositionTail).1 (by decide)).1,
    ((C2_queue_misuse_errors (enqueueAll sampleState 0 [1]) 0 1
      MessageQueue.QueuePosition.kQueuePositionTail).1 (by decide)).2,
    by decide,
    (C2_queue_misuse_errors (enqueueAll sampleState 0 [1]) 0 1
      MessageQueue.QueuePosition.kQueuePositionTail).2.1 (by decide),
    by decide,
    (C2_queue_misuse_errors (enqueueAll sampleState 0 [1]) 7 1
      MessageQueue.QueuePosition.kQueuePositionTail).2.2 (by decide)⟩

/-- C3: for every message state, `GetMessageQueue()` is the stored back-reference exactly when
the in-priority-queue flag is clear and `NULL` otherwise, `GetPriorityQueue()` is the stored
back-reference exactly when the flag is set and `NULL` otherwise, and so the two are never
both non-`NULL`: a message reports membership in at most one queue. -/
theorem C3_at_most_one_queue (m : Message) :
    (m.GetMessageQueue = if m.mInfo.mInPriorityQ = false then m.mInfo.mQueue else none) ∧
    (m.GetPriorityQueue = if m.mInfo.mInPriorityQ = true then m.mInfo.mQueue else none) ∧
    ¬ (m.GetMessageQueue ≠ none ∧ m.GetPriorityQueue ≠ none) := by
  unfold Message.GetMessageQueue Message.GetPriorityQueue
  cases m.mInfo.mInPriorityQ <;> simp

end ot

namespace ot

/-! ## Buffer chains -/

theorem readChain_eq (bufs : List (List Nat)) :
    ∀ (aOffset aLength : Nat),
      readChain bufs aOffset aLength = (bufs.flatten.drop aOffset).take aLength := by
  induction bufs with
  | nil => intro _ _; simp [readChain]
  | cons b rest ih =>
    intro off len
    simp only [readChain, List.flatten_cons, ih, List.drop_append_eq_append_drop,
      List.take_append_eq_append_take, List.length_drop]

theorem writeChain_lengths (bufs : List (List Nat)) :
    ∀ (aOffset : Nat) (aBuf : List Nat),
      (writeChain bufs aOffset aBuf).map List.length = bufs.map List.length := by
  induction bufs with
  | nil => intro _ _; simp [writeChain]
  | cons b rest ih =>
    intro off data
    simp only [writeChain, List.map_cons, ih, List.length_append, List.length_take,
      List.length_drop]
    congr 1
    omega

theorem writeChain_flatten (bufs : List (List Nat)) :
    ∀ (aOffset : Nat) (aBuf : List Nat),
      (writeChain bufs aOffset aBuf).flatten =
        bufs.flatten.take aOffset ++ aBuf.take (bufs.flatten.length - aOffset) ++
          bufs.flatten.drop (aOffset + aBuf.length) := by
  induction bufs with
  | nil => intro _ _; simp [writeChain]
  | cons b rest ih =>
    intro off data
    simp only [writeChain, List.flatten_cons, ih, List.length_append, List.length_drop]
    rcases Nat.lt_or_ge off b.length with h | h
    · have a1 : off - b.length = 0 := by omega
      have a2 : (b ++ rest.flatten).take off = b.take off := by
        rw [List.take_append_eq_append_take, a1]; simp
      rw [a1, a2]
      rcases Nat.lt_or_ge b.length (off + data.length) with h2 | h2
      · have b1 : b.drop (off + data.length) = [] := List.drop_of_length_le (by omega)
        have b2 : (b ++ rest.flatten).drop (off + data.length) =
            rest.flatten.drop (data.length - (b.length - off)) := by
          rw [List.drop_append_eq_append_drop, b1]
          simp only [List.nil_append]
          congr 1
          omega
        have b3 : b.length + rest.flatten.length - off =
            (b.length - off) + rest.flatten.length := by omega
        rw [b1, b2, b3, List.take_add]
        simp
      · have b1 : data.take (b.length - off) = data := List.take_of_length_le (by omega)
        have b2 : data.drop (b.length - off) = [] := List.drop_of_length_le (by omega)
        have b3 : data.take (b.length + rest.flatten.length - off) = data :=
          List.take_of_length_le (by omega)
        have b4 : data.length - (b.length - off) = 0 := by omega
        have b5 : (b ++ rest.flatten).drop (off + data.length) =
            b.drop (off + data.length) ++ rest.flatten := by
          rw [List.drop_append_eq_append_drop]
          have : off + data.length - b.length = 0 := by omega
          rw [this]; simp
        rw [b1, b2, b3, b4, b5]
        simp
    · have a1 : b.length - off = 0 := by omega
      have a2 : b.take off = b := List.take_of_length_le h
      have a3 : b.drop (off + data.length) = [] := List.drop_of_length_le (by omega)
      have a4 : (b ++ rest.flatten).take off = b ++ rest.flatten.take (off - b.length) := by
        rw [List.take_append_eq_append_take, a2]
      have a5 : (b ++ rest.flatten).drop (off + data.length) =
          rest.flatten.drop (off - b.length + data.length) := by
        rw [List.drop_append_eq_append_drop, a3]
        simp only [List.nil_append]
        congr 1
        omega
      have a6 : b.length + rest.flatten.length - off =
          rest.flatten.length - (off - b.length) := by omega
      rw [a1, a2, a3, a4, a5, a6]
      simp

end ot

namespace ot

theorem writeChain_flatten_length (bufs : List (List Nat)) (aOffset : Nat) (aBuf : List Nat) :
    (writeChain bufs aOffset aBuf).flatten.length = bufs.flatten.length := by
  rw [List.length_flatten, List.length_flatten, writeChain_lengths]

/-- A write leaves the bytes after the written range as they were. -/
theorem writeChain_flatten_drop (bufs : List (List Nat)) (aOffset : Nat) (aBuf : List Nat)
    (k : Nat) (hk : aOffset + aBuf.length ≤ k) :
    (writeChain bufs aOffset aBuf).flatten.drop k = bufs.flatten.drop k := by
  rw [writeChain_flatten]
  rcases Nat.lt_or_ge aOffset bufs.flatten.length with h1 | h1
  · have hA : (bufs.flatten.take aOffset).length = aOffset := by
      rw [List.length_take]; omega
    rcases Nat.lt_or_ge bufs.flatten.length (aOffset + aBuf.length) with h2 | h2
    · rw [List.drop_of_length_le, List.drop_of_length_le]
      · omega
      · simp only [List.length_append, List.length_take, List.length_drop]
        omega
    · have hB : aBuf.take (bufs.flatten.length - aOffset) = aBuf :=
        List.take_of_length_le (by omega)
      rw [hB, List.drop_append_eq_append_drop, List.drop_of_length_le, List.nil_append,
        List.drop_drop]
      · congr 1
        simp only [List.length_append, hA]
        omega
      · simp only [List.length_append, hA]
        omega
  · rw [List.drop_of_length_le, List.drop_of_length_le]
    · omega
    · simp only [List.length_append, List.length_take, List.length_drop]
      omega

theorem flatten_length_of_uniform (l : List (List Nat)) (k : Nat)
    (h : ∀ b ∈ l, b.length = k) : l.flatten.length = l.length * k := by
  induction l with
  | nil => simp
  | cons b rest ih =>
    have hb := h b (by simp)
    have ih' := ih (fun x hx => h x (by simp [hx]))
    simp only [List.flatten_cons, List.length_append, List.length_cons, hb, ih']
    rw [Nat.succ_mul]; omega

theorem Config.extraBuffers_capacity (cfg : Config) (hB : 0 < cfg.kBufferDataSize) (T : Nat) :
    T ≤ cfg.kHeadBufferDataSize + cfg.extraBuffers T * cfg.kBufferDataSize := by
  unfold Config.extraBuffers
  split_ifs with h
  · omega
  · have h1 := Nat.div_add_mod (T - cfg.kHeadBufferDataSize - 1) cfg.kBufferDataSize
    have h2 := Nat.mod_lt (T - cfg.kHeadBufferDataSize - 1) hB
    rw [Nat.add_mul, Nat.one_mul, Nat.mul_comm]
    omega

end ot

namespace ot

namespace Message

/-! ## Reading and writing the payload -/

theorem WF.capacity {cfg : Config} {m : Message} (hwf : m.WF cfg)
    (hB : 0 < cfg.kBufferDataSize) :
    m.GetReserved + m.GetLength ≤ m.buffers.flatten.length := by
  obtain ⟨h1, h2, h3⟩ := hwf
  have := cfg.extraBuffers_capacity hB (m.GetReserved + m.GetLength)
  simp only [buffers, List.flatten_cons, List.length_append, h1,
    flatten_length_of_uniform m.mChain _ h2, h3]
  exact this

theorem payload_length {cfg : Config} {m : Message} (hwf : m.WF cfg)
    (hB : 0 < cfg.kBufferDataSize) : m.payload.length = m.GetLength := by
  have := hwf.capacity hB
  simp only [payload, List.length_take, List.length_drop]
  omega

/-- `Read` returns the slice of the payload that starts at `aOffset` and has at most `aLength`
bytes. -/
theorem Read_eq (m : Message) (aOffset aLength : Nat) :
    m.Read aOffset aLength =
      (((m.payload.drop aOffset).take aLength).length, (m.payload.drop aOffset).take aLength) := by
  unfold Read
  split_ifs with h
  · have : m.payload.drop aOffset = [] := by
      apply List.drop_of_length_le
      simp only [payload, List.length_take]
      omega
    simp [this]
  · have : readChain m.buffers (m.GetReserved + aOffset) (min aLength (m.GetLength - aOffset)) =
        (m.payload.drop aOffset).take aLength := by
      rw [readChain_eq]
      simp only [payload, List.drop_take, List.drop_drop, List.take_take]
    simp only [this]

theorem setBuffers_writeChain (m : Message) (aOffset : Nat) (aBuf : List Nat) :
    (m.setBuffers (writeChain m.buffers aOffset aBuf)).buffers =
        writeChain m.buffers aOffset aBuf ∧
      (m.setBuffers (writeChain m.buffers aOffset aBuf)).mInfo = m.mInfo := by
  simp [buffers, writeChain, setBuffers]

theorem Write_info (m : Message) (aOffset aLength : Nat) (aBuf : List Nat) :
    (m.Write aOffset aLength aBuf).2.mInfo = m.mInfo := by
  unfold Write
  split_ifs
  · rfl
  · exact (setBuffers_writeChain m _ _).2

theorem Write_buffers (m : Message) (aOffset aLength : Nat) (aBuf : List Nat) :
    (m.Write aOffset aLength aBuf).2.buffers =
      if m.GetLength ≤ aOffset then m.buffers
      else writeChain m.buffers (m.GetReserved + aOffset)
        (aBuf.take (min aLength (m.GetLength - aOffset))) := by
  unfold Write
  split_ifs
  · rfl
  · exact (setBuffers_writeChain m _ _).1

theorem Write_lengths (m : Message) (aOffset aLength : Nat) (aBuf : List Nat) :
    (m.Write aOffset aLength aBuf).2.buffers.map List.length = m.buffers.map List.length := by
  rw [Write_buffers]
  split_ifs
  · rfl
  · exact writeChain_lengths _ _ _

end Message

/-- C7: on a message of length `L` (occupying exactly the buffers it needs), `Read(offset, n)`
returns `min(n, L - offset)` when `offset ≤ L` and 0 when `offset > L`, and the bytes it stores
are exactly that many payload bytes starting at payload position `offset`, however many buffers
they span.  `Read` is a function of the message alone, so the message is as before. -/
theorem C7_read_clamped (cfg : Config) (m : Message) (aOffset aLength : Nat)
    (hB : 0 < cfg.kBufferDataSize) (hwf : m.WF cfg) :
    (m.Read aOffset aLength).1 =
        (if aOffset ≤ m.GetLength then min aLength (m.GetLength - aOffset) else 0) ∧
    (m.Read aOffset aLength).2 = (m.payload.drop aOffset).take (m.Read aOffset aLength).1 ∧
    (m.Read aOffset aLength).2.length = (m.Read aOffset aLength).1 := by
  have hlen := Message.payload_length hwf hB
  rw [Message.Read_eq]
  simp only [List.length_take, List.length_drop, hlen, List.take_take]
  refine ⟨?_, ?_, trivial⟩
  · split_ifs <;> omega
  · rw [List.take_eq_take]
    simp only [List.length_drop, hlen]
    omega

end ot

namespace ot

namespace Message

theorem Prepend_ok (m : Message) (aBuf : List Nat) (aLength : Nat)
    (h : aLength ≤ m.GetReserved) :
    (m.Prepend aBuf aLength).1 = otError.OT_ERROR_NONE ∧
    (m.Prepend aBuf aLength).2.GetLength = m.GetLength + aLength ∧
    (m.Prepend aBuf aLength).2.GetReserved = m.GetReserved - aLength ∧
    (m.Prepend aBuf aLength).2.GetOffset = m.GetOffset + aLength ∧
    (m.Prepend aBuf aLength).2.buffers.map List.length = m.buffers.map List.length ∧
    (m.Prepend aBuf aLength).2.buffers.flatten.drop m.GetReserved =
      m.buffers.flatten.drop m.GetReserved := by
  have hn : ¬ m.GetReserved < aLength := by omega
  simp only [Prepend, hn, if_false]
  refine ⟨trivial, ?_, ?_, ?_, ?_, ?_⟩
  · simp only [GetLength, Write_info]
  · simp only [GetReserved, Write_info]
  · simp only [GetOffset, Write_info]
  · rw [Write_lengths]; rfl
  · rw [Write_buffers]
    split_ifs
    · rfl
    · apply writeChain_flatten_drop
      simp only [GetReserved, GetLength, List.length_take] at h ⊢
      omega

end Message

/-- C5: whenever `Prepend(buf, n)` succeeds, `Prepend(buf, n)` followed by `RemoveHeader(n)`
restores the original length, the original number of reserved header bytes, the original
offset and the original payload bytes. -/
theorem C5_prepend_remove_roundtrip (m : Message) (aBuf : List Nat) (aLength : Nat)
    (hok : (m.Prepend aBuf aLength).1 = otError.OT_ERROR_NONE) :
    ((m.Prepend aBuf aLength).2.RemoveHeader aLength).GetLength = m.GetLength ∧
    ((m.Prepend aBuf aLength).2.RemoveHeader aLength).GetReserved = m.GetReserved ∧
    ((m.Prepend aBuf aLength).2.RemoveHeader aLength).GetOffset = m.GetOffset ∧
    ((m.Prepend aBuf aLength).2.RemoveHeader aLength).payload = m.payload := by
  have hle : aLength ≤ m.GetReserved := by
    by_contra hc
    have hlt : m.GetReserved < aLength := by omega
    simp [Message.Prepend, hlt] at hok
  obtain ⟨_, h1, h2, h3, _, h5⟩ := Message.Prepend_ok m aBuf aLength hle
  have e1 : ((m.Prepend aBuf aLength).2.RemoveHeader aLength).GetLength = m.GetLength := by
    simp only [Message.RemoveHeader, Message.GetLength] at h1 ⊢
    omega
  have e2 : ((m.Prepend aBuf aLength).2.RemoveHeader aLength).GetReserved = m.GetReserved := by
    simp only [Message.RemoveHeader, Message.GetReserved] at h2 hle ⊢
    omega
  refine ⟨e1, e2, ?_, ?_⟩
  · clear e1 e2 h5
    simp only [Message.RemoveHeader, Message.GetOffset, Message.GetLength,
      Message.GetReserved] at *
    split_ifs <;> omega
  · unfold Message.payload
    rw [e1, e2]
    have : ((m.Prepend aBuf aLength).2.RemoveHeader aLength).buffers =
        (m.Prepend aBuf aLength).2.buffers := rfl
    rw [this, h5]

theorem C5_prepend_remove_roundtrip_witness :
    (((blankMessage 1).SetReserved 3).Prepend [7, 9] 2).1 = otError.OT_ERROR_NONE ∧
    ((((blankMessage 1).SetReserved 3).Prepend [7, 9] 2).2.RemoveHeader 2).GetReserved = 3 :=
  ⟨by decide,
    (C5_prepend_remove_roundtrip ((blankMessage 1).SetReserved 3) [7, 9] 2 (by decide)).2.1⟩

/-- C6: on a message whose byte counts are 16-bit values and for a `uint16_t` argument `n`,
`Prepend(buf, n)` returns `OT_ERROR_NO_BUFS` if and only if `n` exceeds the reserved header
bytes still available; in that case the message is unchanged, and otherwise it succeeds, the
length grows by exactly `n`, the reserved bytes shrink by exactly `n`, and the message keeps the
same buffers (same number, same sizes): none is allocated.  The new length and reserved count
are again 16-bit values, with the same sum as before. -/
theorem C6_prepend_no_bufs (m : Message) (aBuf : List Nat) (aLength : Nat)
    (hrange : m.inRange) (_hn : aLength < 2 ^ 16) :
    ((m.Prepend aBuf aLength).1 = otError.OT_ERROR_NO_BUFS ↔ m.GetReserved < aLength) ∧
    (m.GetReserved < aLength → (m.Prepend aBuf aLength).2 = m) ∧
    (aLength ≤ m.GetReserved →
      (m.Prepend aBuf aLength).1 = otError.OT_ERROR_NONE ∧
      (m.Prepend aBuf aLength).2.GetLength = m.GetLength + aLength ∧
      (m.Prepend aBuf aLength).2.GetReserved + aLength = m.GetReserved ∧
      (m.Prepend aBuf aLength).2.buffers.map List.length = m.buffers.map List.length ∧
      (m.Prepend aBuf aLength).2.GetReserved + (m.Prepend aBuf aLength).2.GetLength =
        m.GetReserved + m.GetLength ∧
      (m.Prepend aBuf aLength).2.GetLength < 2 ^ 16 ∧
      (m.Prepend aBuf aLength).2.GetReserved < 2 ^ 16 ∧
      (m.GetOffset ≤ m.GetLength → (m.Prepend aBuf aLength).2.inRange)) := by
  obtain ⟨hsum, _⟩ := hrange
  refine ⟨?_, ?_, ?_⟩
  · by_cases h : m.GetReserved < aLength
    · simp [Message.Prepend, h]
    · simp [Message.Prepend, h]
  · intro h
    simp [Message.Prepend, h]
  · intro h
    obtain ⟨h0, h1, h2, h3, h4, _⟩ := Message.Prepend_ok m aBuf aLength h
    refine ⟨h0, h1, by omega, h4, by omega, by omega, by omega, ?_⟩
    intro hoff
    exact ⟨by omega, by omega⟩

theorem C6_prepend_no_bufs_witness :
    ((blankMessage 1).SetReserved 3).GetReserved < 4 ∧
    (((blankMessage 1).SetReserved 3).Prepend [1, 2, 3, 4] 4).2 =
      (blankMessage 1).SetReserved 3 ∧
    2 ≤ ((blankMessage 1).SetReserved 3).GetReserved ∧
    (((blankMessage 1).SetReserved 3).Prepend [7, 9] 2).2.GetLength =
      ((blankMessage 1).SetReserved 3).GetLength + 2 :=
  ⟨by decide,
    (C6_prepend_no_bufs ((blankMessage 1).SetReserved 3) [1, 2, 3, 4] 4 (by decide)
      (by decide)).2.1 (by decide),
    by decide,
    ((C6_prepend_no_bufs ((blankMessage 1).SetReserved 3) [7, 9] 2 (by decide)
      (by decide)).2.2 (by decide)).2.1⟩

end ot

namespace ot

/-! ## Operations that only touch queue linkage -/

theorem State.sameData_refl (s : State) : s.sameData s := fun _ => rfl

theorem State.sameData_trans {s s1 s2 : State} (h1 : s.sameData s1) (h2 : s1.sameData s2) :
    s.sameData s2 := fun x => (h2 x).trans (h1 x)

theorem State.sameData_of_msg_eq {s s' : State} (h : s'.msg = s.msg) : s.sameData s' := by
  intro x; rw [h]

theorem State.sameData_modifyMsg (s : State) (a : Nat) (f : Message → Message)
    (hf : ∀ m, (f m).unlinked = m.unlinked) : s.sameData (s.modifyMsg a f) := by
  intro x
  rw [State.modifyMsg_msg]
  split_ifs with h
  · subst h; exact hf _
  · rfl

theorem State.sameData_modifyPtr (s : State) (p : Option Nat) (f : Message → Message)
    (hf : ∀ m, (f m).unlinked = m.unlinked) : s.sameData (s.modifyPtr p f) := by
  cases p with
  | none => exact State.sameData_refl s
  | some a => exact State.sameData_modifyMsg s a f hf

theorem PriorityQueue.Dequeue_sameData (s : State) (q v : Nat) :
    s.sameData (Dequeue s q v).2 := by
  unfold Dequeue
  dsimp only
  split_ifs with h1 h2
  · exact State.sameData_refl s
  · dsimp only
    refine State.sameData_trans ?_ (State.sameData_modifyMsg _ _ _ ?_)
    · refine State.sameData_trans ?_ (State.sameData_modifyPtr _ _ _ ?_)
      · refine State.sameData_trans ?_ (State.sameData_modifyPtr _ _ _ ?_)
        · exact State.sameData_of_msg_eq rfl
        · intro _; rfl
      · intro _; rfl
    · intro _; rfl
  · dsimp only
    refine State.sameData_trans ?_ (State.sameData_modifyMsg _ _ _ ?_)
    · refine State.sameData_trans ?_ (State.sameData_modifyPtr _ _ _ ?_)
      · refine State.sameData_modifyPtr _ _ _ ?_
        intro _; rfl
      · intro _; rfl
    · intro _; rfl

/-- `Dequeue` keeps the pool bookkeeping and the queue tag of every other message. -/
theorem PriorityQueue.Dequeue_others (s : State) (q v : Nat) :
    (Dequeue s q v).2.live = s.live ∧
    (Dequeue s q v).2.mNumFreeBuffers = s.mNumFreeBuffers ∧
    (Dequeue s q v).2.reclaimQueue = s.reclaimQueue ∧
    ∀ x, x ≠ v →
      ((Dequeue s q v).2.msg x).mInfo.mQueue = (s.msg x).mInfo.mQueue ∧
      ((Dequeue s q v).2.msg x).mInfo.mInPriorityQ = (s.msg x).mInfo.mInPriorityQ := by
  have hP : ∀ (t : State) (p : Option Nat) (f : Message → Message),
      (t.modifyPtr p f).live = t.live ∧ (t.modifyPtr p f).mNumFreeBuffers = t.mNumFreeBuffers ∧
      (t.modifyPtr p f).reclaimQueue = t.reclaimQueue := by
    intro t p f; cases p <;> exact ⟨rfl, rfl, rfl⟩
  unfold Dequeue
  dsimp only
  split_ifs with h1 h2
  · exact ⟨rfl, rfl, rfl, fun _ _ => ⟨rfl, rfl⟩⟩
  · refine ⟨?_, ?_, ?_, ?_⟩
    · simp only [State.modifyMsg, (hP _ _ _).1]; rfl
    · simp only [State.modifyMsg, (hP _ _ _).2.1]; rfl
    · simp only [State.modifyMsg, (hP _ _ _).2.2]; rfl
    · intro x hx
      simp only [State.modifyMsg_msg, State.modifyPtr_msg, State.setPq_msg, hx, if_false]
      split_ifs <;> exact ⟨rfl, rfl⟩
  · refine ⟨?_, ?_, ?_, ?_⟩
    · simp only [State.modifyMsg, (hP _ _ _).1]
    · simp only [State.modifyMsg, (hP _ _ _).2.1]
    · simp only [State.modifyMsg, (hP _ _ _).2.2]
    · intro x hx
      simp only [State.modifyMsg_msg, State.modifyPtr_msg, hx, if_false]
      split_ifs <;> exact ⟨rfl, rfl⟩

end ot

namespace ot

namespace MessagePool

/-! ## Reclamation -/

theorem evictionCandidate_evictable (cfg : Config) (s : State) (aPriority v : Nat)
    (h : evictionCandidate cfg s aPriority = some v) :
    v ∈ queuedMessages cfg s ∧ (s.msg v).GetDoNotEvict = false ∧
      (s.msg v).GetPriority ≤ aPriority := by
  unfold evictionCandidate at h
  obtain ⟨p, _, hp⟩ := List.exists_of_findSome?_eq_some h
  have hmem := List.mem_of_find?_eq_some hp
  rw [List.mem_filter] at hmem
  obtain ⟨h1, h2⟩ := hmem
  simp only [Bool.and_eq_true, Bool.not_eq_true', decide_eq_true_eq] at h2
  exact ⟨h1, h2.1, h2.2⟩

theorem evictionCandidate_none (cfg : Config) (s : State) (aPriority : Nat)
    (h : ∀ x ∈ queuedMessages cfg s, (s.msg x).GetDoNotEvict = true) :
    evictionCandidate cfg s aPriority = none := by
  have hnil : (queuedMessages cfg s).filter
      (fun m => !(s.msg m).GetDoNotEvict && decide ((s.msg m).GetPriority ≤ aPriority)) = [] := by
    rw [List.filter_eq_nil_iff]
    intro x hx
    simp [h x hx]
  unfold evictionCandidate
  simp only [hnil]
  simp

theorem EvictMessage_sameData (s : State) (v : Nat) : s.sameData (EvictMessage s v) := by
  unfold EvictMessage Free
  exact State.sameData_trans (PriorityQueue.Dequeue_sameData s s.reclaimQueue v)
    (State.sameData_of_msg_eq rfl)

theorem EvictMessage_others (s : State) (v x : Nat) (hx : x ≠ v) :
    (EvictMessage s v).live x = s.live x ∧
    ((EvictMessage s v).msg x).mInfo.mQueue = (s.msg x).mInfo.mQueue ∧
    ((EvictMessage s v).msg x).mInfo.mInPriorityQ = (s.msg x).mInfo.mInPriorityQ := by
  obtain ⟨h1, _, _, h4⟩ := PriorityQueue.Dequeue_others s s.reclaimQueue v
  unfold EvictMessage Free
  refine ⟨?_, (h4 x hx).1, (h4 x hx).2⟩
  simp only [Function.update, hx, h1]
  simp

/-- What a reclamation pass does to the messages: every message keeps its data, and a message
whose do-not-evict flag is set also stays allocated and keeps its queue tag. -/
theorem ReclaimLoop_keeps (cfg : Config) (aNumBuffers aPriority : Nat) :
    ∀ (fuel : Nat) (s s' : State), ReclaimLoop cfg aNumBuffers aPriority fuel s = some s' →
      s.sameData s' ∧ aNumBuffers ≤ s'.mNumFreeBuffers ∧
      ∀ x, (s.msg x).GetDoNotEvict = true →
        s'.live x = s.live x ∧
        (s'.msg x).mInfo.mQueue = (s.msg x).mInfo.mQueue ∧
        (s'.msg x).mInfo.mInPriorityQ = (s.msg x).mInfo.mInPriorityQ := by
  intro fuel
  induction fuel with
  | zero =>
    intro s s' h
    simp only [ReclaimLoop, GetFreeBufferCount] at h
    split_ifs at h with hc
    · have : s = s' := by simpa using h
      subst this
      exact ⟨State.sameData_refl s, hc, fun _ _ => ⟨rfl, rfl, rfl⟩⟩
  | succ n ih =>
    intro s s' h
    simp only [ReclaimLoop, GetFreeBufferCount] at h
    split_ifs at h with hc
    · have : s = s' := by simpa using h
      subst this
      exact ⟨State.sameData_refl s, hc, fun _ _ => ⟨rfl, rfl, rfl⟩⟩
    · cases hv : evictionCandidate cfg s aPriority with
      | none => simp [hv] at h
      | some v =>
        rw [hv] at h
        simp only at h
        obtain ⟨ih1, ih2, ih3⟩ := ih _ _ h
        have hsd := EvictMessage_sameData s v
        have hev := evictionCandidate_evictable cfg s aPriority v hv
        refine ⟨State.sameData_trans hsd ih1, ih2, ?_⟩
        intro x hx
        have hxv : x ≠ v := by
          intro e; subst e
          rw [hev.2.1] at hx
          exact Bool.false_ne_true hx
        have hflag : ((EvictMessage s v).msg x).GetDoNotEvict = true := by
          have := congrArg (fun m => m.mInfo.mDoNotEvict) (hsd x)
          exact this.trans hx
        obtain ⟨a1, a2, a3⟩ := ih3 x hflag
        obtain ⟨b1, b2, b3⟩ := EvictMessage_others s v x hxv
        exact ⟨a1.trans b1, a2.trans b2, a3.trans b3⟩

theorem ReclaimBuffers_cases (cfg : Config) (s : State) (aNumBuffers aPriority : Nat) :
    ((ReclaimBuffers cfg s aNumBuffers aPriority).1 = otError.OT_ERROR_NONE ∧
      aNumBuffers ≤ (ReclaimBuffers cfg s aNumBuffers aPriority).2.mNumFreeBuffers) ∨
    ReclaimBuffers cfg s aNumBuffers aPriority = (otError.OT_ERROR_NO_BUFS, s) := by
  unfold ReclaimBuffers
  cases h : ReclaimLoop cfg aNumBuffers aPriority cfg.kNumBuffers s with
  | none => right; rfl
  | some s' => left; exact ⟨rfl, (ReclaimLoop_keeps cfg _ _ _ s s' h).2.1⟩

theorem ReclaimBuffers_keeps (cfg : Config) (s : State) (aNumBuffers aPriority : Nat) :
    s.sameData (ReclaimBuffers cfg s aNumBuffers aPriority).2 ∧
    ∀ x, (s.msg x).GetDoNotEvict = true →
      (ReclaimBuffers cfg s aNumBuffers aPriority).2.live x = s.live x ∧
      ((ReclaimBuffers cfg s aNumBuffers aPriority).2.msg x).mInfo.mQueue =
        (s.msg x).mInfo.mQueue ∧
      ((ReclaimBuffers cfg s aNumBuffers aPriority).2.msg x).mInfo.mInPriorityQ =
        (s.msg x).mInfo.mInPriorityQ := by
  unfold ReclaimBuffers
  cases h : ReclaimLoop cfg aNumBuffers aPriority cfg.kNumBuffers s with
  | none => exact ⟨State.sameData_refl s, fun _ _ => ⟨rfl, rfl, rfl⟩⟩
  | some s' =>
    obtain ⟨h1, _, h3⟩ := ReclaimLoop_keeps cfg _ _ _ s s' h
    exact ⟨h1, h3⟩

/-- With the pool exhausted and every queued message marked not-evictable, reclamation fails
and changes nothing. -/
theorem ReclaimBuffers_fail (cfg : Config) (s : State) (aNumBuffers aPriority : Nat)
    (hfree : s.mNumFreeBuffers < aNumBuffers)
    (hall : ∀ x ∈ queuedMessages cfg s, (s.msg x).GetDoNotEvict = true) :
    ReclaimBuffers cfg s aNumBuffers aPriority = (otError.OT_ERROR_NO_BUFS, s) := by
  have hnone := evictionCandidate_none cfg s aPriority hall
  have hc : ¬ aNumBuffers ≤ GetFreeBufferCount s := by
    unfold GetFreeBufferCount; omega
  have : ReclaimLoop cfg aNumBuffers aPriority cfg.kNumBuffers s = none := by
    cases cfg.kNumBuffers with
    | zero => simp [ReclaimLoop, hc]
    | succ n => simp [ReclaimLoop, hc, hnone]
  simp [ReclaimBuffers, this]

end MessagePool

end ot

namespace ot

namespace Message

/-! ## Resizing -/

theorem storeLength_info (cfg : Config) (m : Message) (aLength : Nat) :
    (m.storeLength cfg aLength).mInfo =
      { m.mInfo with
        mLength := aLength,
        mOffset := if aLength < m.GetOffset then aLength else m.GetOffset } := rfl

theorem storeLength_offset_le (cfg : Config) (m : Message) (aLength : Nat) :
    (m.storeLength cfg aLength).GetOffset ≤ (m.storeLength cfg aLength).GetLength := by
  simp only [GetOffset, GetLength, storeLength_info]
  split_ifs <;> omega

theorem storeLength_WF (cfg : Config) (m : Message) (aLength : Nat)
    (hhead : m.mHeadData.length = cfg.kHeadBufferDataSize)
    (hchain : ∀ buf ∈ m.mChain, buf.length = cfg.kBufferDataSize) :
    (m.storeLength cfg aLength).WF cfg := by
  refine ⟨hhead, ?_, ?_⟩
  · intro b hb
    simp only [storeLength, ResizeMessage, List.mem_append] at hb
    rcases hb with hb | hb
    · exact hchain b (List.mem_of_mem_take hb)
    · rw [List.eq_of_mem_replicate hb]; simp
  · simp only [storeLength, ResizeMessage, GetReserved, GetLength, List.length_append,
      List.length_take, List.length_replicate]
    omega

end Message

end ot

namespace ot

namespace Message

end Message

end ot

namespace ot

namespace Message

/-! ## SetLength and Append on the state -/

/-- `SetLength` either fails with `OT_ERROR_NO_BUFS` and changes nothing, or succeeds: then the
state is the one left by reclamation (which keeps every message's data and every
not-evictable message), with the length stored in the message. -/
theorem SetLength_cases (cfg : Config) (s : State) (h n : Nat) :
    SetLength cfg s h n = (otError.OT_ERROR_NO_BUFS, s) ∨
    ((SetLength cfg s h n).1 = otError.OT_ERROR_NONE ∧
      ∃ s1 : State, s.sameData s1 ∧
        (∀ x, (s.msg x).GetDoNotEvict = true → s1.live x = s.live x) ∧
        (SetLength cfg s h n).2.live = s1.live ∧
        ∀ x, (SetLength cfg s h n).2.msg x =
          if x = h then (s1.msg h).storeLength cfg n else s1.msg x) := by
  unfold SetLength
  dsimp only
  split_ifs with hc
  · have hcases := MessagePool.ReclaimBuffers_cases cfg s
      (cfg.extraBuffers ((s.msg h).GetReserved + n) - (s.msg h).mChain.length)
      (s.msg h).GetPriority
    have hkeeps := MessagePool.ReclaimBuffers_keeps cfg s
      (cfg.extraBuffers ((s.msg h).GetReserved + n) - (s.msg h).mChain.length)
      (s.msg h).GetPriority
    generalize MessagePool.ReclaimBuffers cfg s
      (cfg.extraBuffers ((s.msg h).GetReserved + n) - (s.msg h).mChain.length)
      (s.msg h).GetPriority = r at hcases hkeeps
    obtain ⟨e, s1⟩ := r
    rcases hcases with ⟨he, _⟩ | hfail
    · simp only at he
      subst he
      right
      refine ⟨rfl, s1, hkeeps.1, fun x hx => (hkeeps.2 x hx).1, rfl, ?_⟩
      intro x
      simp only [State.modifyMsg_msg]
    · rw [hfail]
      left; rfl
  · right
    refine ⟨rfl, s, State.sameData_refl s, fun _ _ => rfl, rfl, ?_⟩
    intro x
    simp only [State.modifyMsg_msg]

/-- An allocation request on an exhausted pool whose queued messages are all not-evictable
fails and changes nothing. -/
theorem SetLength_exhausted (cfg : Config) (s : State) (h n : Nat)
    (hgrow : (s.msg h).mChain.length < cfg.extraBuffers ((s.msg h).GetReserved + n))
    (hfree : s.mNumFreeBuffers <
      cfg.extraBuffers ((s.msg h).GetReserved + n) - (s.msg h).mChain.length)
    (hall : ∀ x ∈ MessagePool.queuedMessages cfg s, (s.msg x).GetDoNotEvict = true) :
    SetLength cfg s h n = (otError.OT_ERROR_NO_BUFS, s) := by
  unfold SetLength
  dsimp only
  rw [if_pos hgrow, MessagePool.ReclaimBuffers_fail cfg s _ _ hfree hall]

theorem Append_cases (cfg : Config) (s : State) (h : Nat) (aBuf : List Nat) (n : Nat) :
    Append cfg s h aBuf n = (otError.OT_ERROR_NO_BUFS, s) ∨
    ((Append cfg s h aBuf n).1 = otError.OT_ERROR_NONE ∧
      ∃ s1 : State, s.sameData s1 ∧
        (∀ x, (s.msg x).GetDoNotEvict = true → s1.live x = s.live x) ∧
        (Append cfg s h aBuf n).2.live = s1.live ∧
        ∀ x, (Append cfg s h aBuf n).2.msg x =
          if x = h then
            (((s1.msg h).storeLength cfg ((s.msg h).GetLength + n)).Write
              (s.msg h).GetLength n aBuf).2
          else s1.msg x) := by
  unfold Append
  dsimp only
  rcases SetLength_cases cfg s h ((s.msg h).GetLength + n) with hfail | ⟨hok, s1, h1, h2, h3, h4⟩
  · rw [hfail]
    left; rfl
  · generalize SetLength cfg s h ((s.msg h).GetLength + n) = r at hok h3 h4
    obtain ⟨e, s2⟩ := r
    simp only at hok h3 h4
    subst hok
    right
    refine ⟨rfl, s1, h1, h2, ?_, ?_⟩
    · simpa [State.modifyMsg] using h3
    · intro x
      simp only [State.modifyMsg_msg, h4]
      split_ifs <;> rfl

end Message

end ot

namespace ot

theorem C7_read_clamped_witness :
    0 < sampleConfig.kBufferDataSize ∧ sampleMessage.WF sampleConfig ∧
    (sampleMessage.Read 2 10).1 =
      (if 2 ≤ sampleMessage.GetLength then min 10 (sampleMessage.GetLength - 2) else 0) ∧
    (sampleMessage.Read 6 10).1 =
      (if 6 ≤ sampleMessage.GetLength then min 10 (sampleMessage.GetLength - 6) else 0) :=
  ⟨by decide, by decide,
    (C7_read_clamped sampleConfig sampleMessage 2 10 (by decide) (by decide)).1,
    (C7_read_clamped sampleConfig sampleMessage 6 10 (by decide) (by decide)).1⟩

end ot

namespace ot

namespace MessagePool

/-! ## Creating messages -/

theorem NewBuffer_cases (cfg : Config) (s : State) (aPriority : Nat) :
    NewBuffer cfg s aPriority = (none, s) ∨
    ∃ (hd : Nat) (s1 : State),
      NewBuffer cfg s aPriority =
        (some hd, { s1 with
          mNumFreeBuffers := s1.mNumFreeBuffers - 1,
          live := Function.update s1.live hd true }) ∧
      s.sameData s1 ∧ s1.live hd = false ∧
      ∀ x, (s.msg x).GetDoNotEvict = true → s1.live x = s.live x := by
  unfold NewBuffer
  have hkeeps := ReclaimBuffers_keeps cfg s 1 aPriority
  generalize ReclaimBuffers cfg s 1 aPriority = r at hkeeps
  obtain ⟨e, s1⟩ := r
  cases e
  · cases hf : (List.range cfg.kNumBuffers).find? (fun i => !s1.live i) with
    | none => left; simp [hf]
    | some hd =>
      right
      refine ⟨hd, s1, by simp [hf], hkeeps.1, ?_, fun x hx => (hkeeps.2 x hx).1⟩
      have := List.find?_some hf
      simpa using this
  all_goals (left; rfl)

theorem SetPriority_unqueued (s : State) (hd p : Nat) (hq : (s.msg hd).IsInAQueue = false)
    (hp : p < kNumPriorities) :
    Message.SetPriority s hd p =
      (otError.OT_ERROR_NONE,
        s.modifyMsg hd (fun m => { m with mInfo := { m.mInfo with mPriority := ⟨p, hp⟩ } })) := by
  simp [Message.SetPriority, hp, hq]

theorem SetPriority_invalid (s : State) (hd p : Nat) (hp : ¬ p < kNumPriorities) :
    Message.SetPriority s hd p = (otError.OT_ERROR_INVALID_ARGS, s) := by
  simp [Message.SetPriority, hp]

end MessagePool

end ot

namespace ot

namespace MessagePool

theorem isNewMessage_of_unlinked (cfg : Config) (m0 : Message) (aType aReserveHeader p : Nat)
    (hp : p < kNumPriorities)
    (hu : m0.unlinked =
      ({ ((clearedMessage cfg).SetType aType).SetReserved aReserveHeader with
          mInfo := { (((clearedMessage cfg).SetType aType).SetReserved aReserveHeader).mInfo with
            mPriority := ⟨p, hp⟩ } } : Message).unlinked) :
    isNewMessage cfg (m0.storeLength cfg 0) aType aReserveHeader p := by
  have f1 : m0.mInfo.mOffset = 0 := congrArg (fun x => x.mInfo.mOffset) hu
  have f2 : m0.mInfo.mPriority = ⟨p, hp⟩ := congrArg (fun x => x.mInfo.mPriority) hu
  have f3 : m0.mInfo.mType = _ := congrArg (fun x => x.mInfo.mType) hu
  have f4 : m0.mInfo.mSubType = _ := congrArg (fun x => x.mInfo.mSubType) hu
  have f5 : m0.mInfo.mReserved = aReserveHeader % 2 ^ 16 :=
    congrArg (fun x => x.mInfo.mReserved) hu
  have f6 : m0.mInfo.mDirectTx = false := congrArg (fun x => x.mInfo.mDirectTx) hu
  have f7 : m0.mInfo.mTxSuccess = false := congrArg (fun x => x.mInfo.mTxSuccess) hu
  have f8 : m0.mInfo.mDoNotEvict = false := congrArg (fun x => x.mInfo.mDoNotEvict) hu
  have f9 : m0.mInfo.mLinkSecurity = false := congrArg (fun x => x.mInfo.mLinkSecurity) hu
  have f10 : m0.mHeadData = List.replicate cfg.kHeadBufferDataSize 0 :=
    congrArg (fun x => x.mHeadData) hu
  have f11 : m0.mChain = [] := congrArg (fun x => x.mChain) hu
  refine ⟨rfl, ?_, ?_, ?_, ?_, ?_, ?_, ?_, ?_, ?_, ?_⟩
  · simp only [Message.GetOffset, Message.storeLength_info, f1]; rfl
  · simp only [Message.GetPriority, Message.storeLength_info, f2]
  · simp only [Message.GetType, Message.storeLength_info, f3]; rfl
  · simp only [Message.GetSubType, Message.storeLength_info, f4]; rfl
  · simp only [Message.GetReserved, Message.storeLength_info, f5]
  · simp only [Message.GetDirectTransmission, Message.storeLength_info, f6]
  · simp only [Message.GetTxSuccess, Message.storeLength_info, f7]
  · simp only [Message.GetDoNotEvict, Message.storeLength_info, f8]
  · simp only [Message.IsLinkSecurityEnabled, Message.storeLength_info, f9]
  · apply Message.storeLength_WF
    · rw [f10]; simp
    · rw [f11]; simp

end MessagePool

end ot

namespace ot

namespace MessagePool

/-- `New` either fails right away and changes nothing, or obtains a handle: then every
allocated not-evictable message stays allocated with its data, and if `New` succeeds the
priority is a valid one and the new message has the defaults of a new message. -/
theorem New_result (cfg : Config) (s : State) (aType aReserveHeader aPriority : Nat) :
    New cfg s aType aReserveHeader aPriority = (none, s) ∨
    ((∀ x, (s.msg x).GetDoNotEvict = true → s.live x = true →
        (New cfg s aType aReserveHeader aPriority).2.live x = true ∧
        ((New cfg s aType aReserveHeader aPriority).2.msg x).unlinked = (s.msg x).unlinked) ∧
      ∀ hd, (New cfg s aType aReserveHeader aPriority).1 = some hd →
        aPriority < kNumPriorities ∧
        isNewMessage cfg ((New cfg s aType aReserveHeader aPriority).2.msg hd)
          aType aReserveHeader aPriority) := by
  rcases NewBuffer_cases cfg s aPriority with hnb | ⟨hd, s1, hnb, hsd, hlive, hkeep⟩
  · left
    simp [New, hnb]
  · right
    have hne : ∀ x, (s.msg x).GetDoNotEvict = true → s.live x = true → x ≠ hd := by
      intro x hx hl e
      subst e
      rw [hkeep x hx, hl] at hlive
      exact Bool.noConfusion hlive
    unfold New
    rw [hnb]
    dsimp only
    by_cases hp : aPriority < kNumPriorities
    · rw [SetPriority_unqueued _ hd aPriority (by simp [Message.IsInAQueue, clearedMessage,
        Message.SetType, Message.SetReserved]) hp]
      dsimp only
      generalize hs3 : State.modifyMsg _ hd _ = s3
      have hs3msg : ∀ x, s3.msg x = if x = hd then
          ({ ((clearedMessage cfg).SetType aType).SetReserved aReserveHeader with
            mInfo := { (((clearedMessage cfg).SetType aType).SetReserved aReserveHeader).mInfo
              with mPriority := ⟨aPriority, hp⟩ } } : Message)
          else s1.msg x := by
        intro x
        rw [← hs3, State.modifyMsg_msg]
        by_cases hx : x = hd
        · simp [hx]
        · simp [hx, Function.update]
      have hs3live : ∀ x, x ≠ hd → s3.live x = s1.live x := by
        intro x hx
        rw [← hs3]
        simp [State.modifyMsg, Function.update, hx]
      rcases Message.SetLength_cases cfg s3 hd 0 with hfail | ⟨hok, s3', k1, k2, k3, k4⟩
      · rw [hfail]
        dsimp only
        refine ⟨?_, fun _ h => by simp at h⟩
        intro x hx hl
        have hxd := hne x hx hl
        refine ⟨?_, ?_⟩
        · simp only [Free, Function.update, hxd, hs3live x hxd, hkeep x hx, hl]
          simp
        · show (s3.msg x).unlinked = _
          rw [hs3msg x, if_neg hxd]
          exact hsd x
      · generalize Message.SetLength cfg s3 hd 0 = r at hok k3 k4
        obtain ⟨e, s4⟩ := r
        simp only at hok k3 k4
        subst hok
        dsimp only
        refine ⟨?_, ?_⟩
        · intro x hx hl
          have hxd := hne x hx hl
          have hflag : (s3.msg x).GetDoNotEvict = true := by
            rw [hs3msg x, if_neg hxd]
            exact (congrArg (fun m => m.mInfo.mDoNotEvict) (hsd x)).trans hx
          refine ⟨?_, ?_⟩
          · rw [k3, k2 x hflag, hs3live x hxd, hkeep x hx, hl]
          · rw [k4 x, if_neg hxd, k1 x, hs3msg x, if_neg hxd]
            exact hsd x
        · intro hd' hhd'
          have : hd = hd' := by simpa using hhd'
          subst this
          refine ⟨hp, ?_⟩
          rw [k4 hd, if_pos rfl]
          apply isNewMessage_of_unlinked cfg _ aType aReserveHeader aPriority hp
          rw [k1 hd, hs3msg hd, if_pos rfl]
    · rw [SetPriority_invalid _ hd aPriority hp]
      dsimp only
      refine ⟨?_, fun _ h => by simp at h⟩
      intro x hx hl
      have hxd := hne x hx hl
      refine ⟨?_, ?_⟩
      · simp only [Free, Function.update, hxd, hkeep x hx, hl]
        simp
      · simp only [Free, Function.update, hxd]
        exact hsd x

end MessagePool

end ot

namespace ot

/-- C9: reclamation never takes a message whose do-not-evict flag is set: through
`ReclaimBuffers`, `New` and `SetLength` such a message stays allocated, keeps its data and (for
`ReclaimBuffers`) its queue tag.  When every queued message is marked not-evictable, an
allocation request on the exhausted pool fails with no buffers (`ReclaimBuffers` and
`SetLength` return `OT_ERROR_NO_BUFS`, `New` returns `NULL`) and the whole state (pool, queues
and every message) is exactly as before. -/
theorem C9_not_evictable_never_reclaimed (cfg : Config) (s : State) :
    (∀ n p x, (s.msg x).GetDoNotEvict = true →
      (MessagePool.ReclaimBuffers cfg s n p).2.live x = s.live x ∧
      ((MessagePool.ReclaimBuffers cfg s n p).2.msg x).unlinked = (s.msg x).unlinked ∧
      ((MessagePool.ReclaimBuffers cfg s n p).2.msg x).mInfo.mQueue = (s.msg x).mInfo.mQueue ∧
      ((MessagePool.ReclaimBuffers cfg s n p).2.msg x).mInfo.mInPriorityQ =
        (s.msg x).mInfo.mInPriorityQ) ∧
    (∀ t r p x, (s.msg x).GetDoNotEvict = true → s.live x = true →
      (MessagePool.New cfg s t r p).2.live x = true ∧
      ((MessagePool.New cfg s t r p).2.msg x).unlinked = (s.msg x).unlinked) ∧
    (∀ h n x, (s.msg x).GetDoNotEvict = true →
      (Message.SetLength cfg s h n).2.live x = s.live x ∧
      (x ≠ h → ((Message.SetLength cfg s h n).2.msg x).unlinked = (s.msg x).unlinked)) ∧
    ((∀ x ∈ MessagePool.queuedMessages cfg s, (s.msg x).GetDoNotEvict = true) →
      (∀ n p, s.mNumFreeBuffers < n →
        MessagePool.ReclaimBuffers cfg s n p = (otError.OT_ERROR_NO_BUFS, s)) ∧
      (s.mNumFreeBuffers = 0 → ∀ t r p, MessagePool.New cfg s t r p = (none, s)) ∧
      (∀ h n, (s.msg h).mChain.length < cfg.extraBuffers ((s.msg h).GetReserved + n) →
        s.mNumFreeBuffers <
          cfg.extraBuffers ((s.msg h).GetReserved + n) - (s.msg h).mChain.length →
        Message.SetLength cfg s h n = (otError.OT_ERROR_NO_BUFS, s))) := by
  refine ⟨?_, ?_, ?_, ?_⟩
  · intro n p x hx
    obtain ⟨h1, h2⟩ := MessagePool.ReclaimBuffers_keeps cfg s n p
    exact ⟨(h2 x hx).1, h1 x, (h2 x hx).2.1, (h2 x hx).2.2⟩
  · intro t r p x hx hl
    rcases MessagePool.New_result cfg s t r p with h | ⟨h, _⟩
    · rw [h]; exact ⟨hl, rfl⟩
    · exact h x hx hl
  · intro h n x hx
    rcases Message.SetLength_cases cfg s h n with hf | ⟨_, s1, k1, k2, k3, k4⟩
    · rw [hf]; exact ⟨rfl, fun _ => rfl⟩
    · refine ⟨by rw [k3, k2 x hx], fun hxh => ?_⟩
      rw [k4 x, if_neg hxh]
      exact k1 x
  · intro hall
    refine ⟨fun n p hn => MessagePool.ReclaimBuffers_fail cfg s n p hn hall, ?_, ?_⟩
    · intro h0 t r p
      have := MessagePool.ReclaimBuffers_fail cfg s 1 p (by omega) hall
      simp [MessagePool.New, MessagePool.NewBuffer, this]
    · intro h n hg hf
      exact Message.SetLength_exhausted cfg s h n hg hf hall

theorem C9_not_evictable_never_reclaimed_witness :
    (exhaustedPool.msg 4).GetDoNotEvict = true ∧ exhaustedPool.live 4 = true ∧
    MessagePool.queuedMessages sampleConfig exhaustedPool = [4] ∧
    (∀ x ∈ MessagePool.queuedMessages sampleConfig exhaustedPool,
      (exhaustedPool.msg x).GetDoNotEvict = true) ∧
    exhaustedPool.mNumFreeBuffers = 0 ∧
    (MessagePool.New sampleConfig exhaustedPool 0 0 3).2.live 4 = true ∧
    MessagePool.New sampleConfig exhaustedPool 0 0 3 = (none, exhaustedPool) ∧
    Message.SetLength sampleConfig exhaustedPool 4 20 =
      (otError.OT_ERROR_NO_BUFS, exhaustedPool) :=
  ⟨by decide, by decide, by decide, by decide, by decide,
    ((C9_not_evictable_never_reclaimed sampleConfig exhaustedPool).2.1 0 0 3 4
      (by decide) (by decide)).1,
    ((C9_not_evictable_never_reclaimed sampleConfig exhaustedPool).2.2.2 (by decide)).2.1
      (by decide) 0 0 3,
    ((C9_not_evictable_never_reclaimed sampleConfig exhaustedPool).2.2.2 (by decide)).2.2
      4 20 (by decide) (by decide)⟩

/-- C10: when `New(type, reserveHeader, priority)` succeeds, the new message has length 0,
offset 0, cleared flags and the given priority (which is then a valid one); `New(type,
reserveHeader)` without a priority argument is `New(type, reserveHeader, kPriorityNormal)`, so
its message has priority `kPriorityNormal`, because `kDefaultMessagePriority` equals
`Message::kPriorityNormal`. -/
theorem C10_new_defaults (cfg : Config) (s : State) (aType aReserveHeader aPriority hd : Nat)
    (hok : (MessagePool.New cfg s aType aReserveHeader aPriority).1 = some hd) :
    ((MessagePool.New cfg s aType aReserveHeader aPriority).2.msg hd).GetLength = 0 ∧
    ((MessagePool.New cfg s aType aReserveHeader aPriority).2.msg hd).GetOffset = 0 ∧
    ((MessagePool.New cfg s aType aReserveHeader aPriority).2.msg hd).GetDirectTransmission
      = false ∧
    ((MessagePool.New cfg s aType aReserveHeader aPriority).2.msg hd).GetTxSuccess = false ∧
    ((MessagePool.New cfg s aType aReserveHeader aPriority).2.msg hd).GetDoNotEvict = false ∧
    ((MessagePool.New cfg s aType aReserveHeader aPriority).2.msg hd).IsLinkSecurityEnabled
      = false ∧
    ((MessagePool.New cfg s aType aReserveHeader aPriority).2.msg hd).GetPriority = aPriority ∧
    aPriority < kNumPriorities ∧
    MessagePool.NewDefault cfg s aType aReserveHeader =
      MessagePool.New cfg s aType aReserveHeader kPriorityNormal ∧
    kDefaultMessagePriority = kPriorityNormal ∧
    (∀ hd', (MessagePool.NewDefault cfg s aType aReserveHeader).1 = some hd' →
      ((MessagePool.NewDefault cfg s aType aReserveHeader).2.msg hd').GetPriority =
        kPriorityNormal) := by
  have key : ∀ p hd', (MessagePool.New cfg s aType aReserveHeader p).1 = some hd' →
      p < kNumPriorities ∧
      MessagePool.isNewMessage cfg ((MessagePool.New cfg s aType aReserveHeader p).2.msg hd')
        aType aReserveHeader p := by
    intro p hd' h
    rcases MessagePool.New_result cfg s aType aReserveHeader p with hf | ⟨_, hs⟩
    · rw [hf] at h; simp at h
    · exact hs hd' h
  obtain ⟨hp, h1, h2, h3, _, _, _, h7, h8, h9, h10, _⟩ := key aPriority hd hok
  refine ⟨h1, h2, h7, h8, h9, h10, h3, hp, rfl, rfl, ?_⟩
  intro hd' h
  exact (key kPriorityNormal hd' h).2.2.2.1

theorem C10_new_defaults_witness :
    (MessagePool.New sampleConfig samplePool 2 3 1).1 = some 0 ∧
    ((MessagePool.New sampleConfig samplePool 2 3 1).2.msg 0).GetLength = 0 ∧
    ((MessagePool.New sampleConfig samplePool 2 3 1).2.msg 0).GetPriority = 1 :=
  ⟨by decide,
    (C10_new_defaults sampleConfig samplePool 2 3 1 0 (by decide)).1,
    (C10_new_defaults sampleConfig samplePool 2 3 1 0 (by decide)).2.2.2.2.2.2.1⟩

end ot

namespace ot

/-- C8: `offset ≤ length` is an invariant of every message: it holds for the message `New`
creates, and a message that satisfies it still does after `SetOffset`, `MoveOffset`, `Prepend`
and `RemoveHeader`, and after `SetLength` and `Append` (whether they succeed or fail).
`SetOffset(o)` and `MoveOffset(d)` return `OT_ERROR_INVALID_ARGS` and leave the message
unchanged exactly when the resulting offset would not lie within the message, and otherwise
store the resulting offset. -/
theorem C8_offset_within_length (cfg : Config) (s : State) (aMessage : Nat) (m : Message)
    (hm : m.GetOffset ≤ m.GetLength)
    (hs : (s.msg aMessage).GetOffset ≤ (s.msg aMessage).GetLength) :
    (∀ t r p hd, (MessagePool.New cfg s t r p).1 = some hd →
      ((MessagePool.New cfg s t r p).2.msg hd).GetOffset ≤
        ((MessagePool.New cfg s t r p).2.msg hd).GetLength) ∧
    (∀ o, (m.SetOffset o).2.GetOffset ≤ (m.SetOffset o).2.GetLength ∧
      (m.GetLength < o → m.SetOffset o = (otError.OT_ERROR_INVALID_ARGS, m)) ∧
      (o ≤ m.GetLength →
        (m.SetOffset o).1 = otError.OT_ERROR_NONE ∧ (m.SetOffset o).2.GetOffset = o)) ∧
    (∀ d : Int, (m.MoveOffset d).2.GetOffset ≤ (m.MoveOffset d).2.GetLength ∧
      (((m.GetOffset : Int) + d < 0 ∨ (m.GetLength : Int) < (m.GetOffset : Int) + d) →
        m.MoveOffset d = (otError.OT_ERROR_INVALID_ARGS, m)) ∧
      ((0 ≤ (m.GetOffset : Int) + d ∧ (m.GetOffset : Int) + d ≤ (m.GetLength : Int)) →
        (m.MoveOffset d).1 = otError.OT_ERROR_NONE ∧
        ((m.MoveOffset d).2.GetOffset : Int) = (m.GetOffset : Int) + d)) ∧
    (∀ aBuf n, (m.Prepend aBuf n).2.GetOffset ≤ (m.Prepend aBuf n).2.GetLength) ∧
    (∀ n, (m.RemoveHeader n).GetOffset ≤ (m.RemoveHeader n).GetLength) ∧
    (∀ n, ((Message.SetLength cfg s aMessage n).2.msg aMessage).GetOffset ≤
      ((Message.SetLength cfg s aMessage n).2.msg aMessage).GetLength) ∧
    (∀ aBuf n, ((Message.Append cfg s aMessage aBuf n).2.msg aMessage).GetOffset ≤
      ((Message.Append cfg s aMessage aBuf n).2.msg aMessage).GetLength) := by
  refine ⟨?_, ?_, ?_, ?_, ?_, ?_, ?_⟩
  · intro t r p hd h
    rcases MessagePool.New_result cfg s t r p with hf | ⟨_, hnew⟩
    · rw [hf] at h; simp at h
    · obtain ⟨_, h1, h2, _⟩ := hnew hd h
      rw [h1, h2]
  · intro o
    by_cases h : o ≤ m.GetLength
    · have hn : ¬ m.GetLength < o := by omega
      unfold Message.SetOffset
      rw [if_pos h]
      exact ⟨h, fun hc => absurd hc hn, fun _ => ⟨rfl, rfl⟩⟩
    · unfold Message.SetOffset
      rw [if_neg h]
      exact ⟨hm, fun _ => rfl, fun hc => absurd hc h⟩
  · intro d
    by_cases h : 0 ≤ (m.GetOffset : Int) + d ∧ (m.GetOffset : Int) + d ≤ (m.GetLength : Int)
    · unfold Message.MoveOffset
      rw [if_pos h]
      refine ⟨?_, fun hc => ?_, fun _ => ⟨rfl, ?_⟩⟩
      · simp only [Message.GetOffset, Message.GetLength] at h ⊢
        omega
      · omega
      · simp only [Message.GetOffset] at h ⊢
        omega
    · unfold Message.MoveOffset
      rw [if_neg h]
      exact ⟨hm, fun _ => rfl, fun hc => absurd hc h⟩
  · intro aBuf n
    by_cases h : n ≤ m.GetReserved
    · obtain ⟨_, h1, _, h3, _⟩ := Message.Prepend_ok m aBuf n h
      omega
    · have hlt : m.GetReserved < n := by omega
      simp only [Message.Prepend, hlt, if_true]
      exact hm
  · intro n
    simp only [Message.RemoveHeader, Message.GetOffset, Message.GetLength] at hm ⊢
    split_ifs <;> omega
  · intro n
    rcases Message.SetLength_cases cfg s aMessage n with hf | ⟨_, s1, _, _, _, k4⟩
    · rw [hf]; exact hs
    · rw [k4 aMessage, if_pos rfl]
      exact Message.storeLength_offset_le cfg _ n
  · intro aBuf n
    rcases Message.Append_cases cfg s aMessage aBuf n with hf | ⟨_, s1, _, _, _, k4⟩
    · rw [hf]; exact hs
    · rw [k4 aMessage, if_pos rfl]
      have hi := Message.Write_info ((s1.msg aMessage).storeLength cfg
        ((s.msg aMessage).GetLength + n)) (s.msg aMessage).GetLength n aBuf
      have hle := Message.storeLength_offset_le cfg (s1.msg aMessage)
        ((s.msg aMessage).GetLength + n)
      generalize (((s1.msg aMessage).storeLength cfg ((s.msg aMessage).GetLength + n)).Write
        (s.msg aMessage).GetLength n aBuf).2 = mf at hi ⊢
      show mf.mInfo.mOffset ≤ mf.mInfo.mLength
      rw [hi]
      exact hle

theorem C8_offset_within_length_witness :
    sampleMessage.GetOffset ≤ sampleMessage.GetLength ∧
    (samplePool.msg 1).GetOffset ≤ (samplePool.msg 1).GetLength ∧
    sampleMessage.GetLength < 6 ∧
    sampleMessage.SetOffset 6 = (otError.OT_ERROR_INVALID_ARGS, sampleMessage) ∧
    ((sampleMessage.GetOffset : Int) + (-2) < 0 ∨
      (sampleMessage.GetLength : Int) < (sampleMessage.GetOffset : Int) + (-2)) ∧
    sampleMessage.MoveOffset (-2) = (otError.OT_ERROR_INVALID_ARGS, sampleMessage) ∧
    (sampleMessage.RemoveHeader 3).GetOffset ≤ (sampleMessage.RemoveHeader 3).GetLength :=
  ⟨by decide, by decide, by decide,
    ((C8_offset_within_length sampleConfig samplePool 1 sampleMessage (by decide)
      (by decide)).2.1 6).2.1 (by decide),
    by decide,
    ((C8_offset_within_length sampleConfig samplePool 1 sampleMessage (by decide)
      (by decide)).2.2.1 (-2)).2.1 (by decide),
    (C8_offset_within_length sampleConfig samplePool 1 sampleMessage (by decide)
      (by decide)).2.2.2.2.1 3⟩

end ot

/-! ## Cloning a message -/

namespace ot

namespace MessagePool

end MessagePool

namespace Message

end Message

end ot

namespace ot

namespace MessagePool

end MessagePool

namespace Message

end Message

end ot

namespace ot

/-- C11: the priority levels are totally ordered with network control strictly highest:
`kPriorityLow < kPriorityNormal < kPriorityHigh < kPriorityNet = kPriorityHigh + 1`; the four
values are pairwise distinct and are exactly the values below `kNumPriorities = 4`, so each is
unchanged by the 2-bit `mPriority` field and indexes one of the `kNumPriorities` entries of
`PriorityQueue::mTails`. -/
theorem C11_priority_levels :
    kPriorityLow < kPriorityNormal ∧ kPriorityNormal < kPriorityHigh ∧
      kPriorityHigh < kPriorityNet ∧ kPriorityNet = kPriorityHigh + 1 ∧
      [kPriorityLow, kPriorityNormal, kPriorityHigh, kPriorityNet].Nodup ∧
      kNumPriorities = 4 ∧
      (∀ p ∈ [kPriorityLow, kPriorityNormal, kPriorityHigh, kPriorityNet],
        p < kNumPriorities ∧ p % 2 ^ 2 = p) ∧
      (∀ p, p < kNumPriorities →
        p ∈ [kPriorityLow, kPriorityNormal, kPriorityHigh, kPriorityNet]) := by
  refine ⟨by decide, by decide, by decide, by decide, by decide, rfl, by decide, ?_⟩
  intro p hp
  have h4 : p < 4 := hp
  interval_cases p <;> decide

end ot

/-! ## Status codes of the AES-GCM port -/

namespace gcm_alt

/-- With a driver handle and a supported request, `gcm_auth_crypt` in decrypt mode turns every
driver status other than success into `MBEDTLS_ERR_PLATFORM_HW_ACCEL_FAILED`. -/
theorem gcm_auth_crypt_decrypt_not_success (k : Codes) (drv : Driver)
    (ctx : mbedtls_gcm_context) (handle : Nat) (length : Nat) (iv : List Nat) (iv_len : Nat)
    (add : List Nat) (add_len : Nat) (input : List Nat) (tag_len : Nat) (tag : List Nat)
    (hmodes : k.MBEDTLS_GCM_DECRYPT ≠ k.MBEDTLS_GCM_ENCRYPT)
    (hctx : ctx.handle = some handle) (hiv : iv_len = 12) (hlen : 0 < add_len + length)
    (hdrv : drv.AESGCM_oneStepDecrypt handle
      { aad := add, aadLength := add_len, input := input, inputLength := length,
        iv := iv, ivLength := iv_len, mac := tag, macLength := tag_len } ≠
        k.AESGCM_STATUS_SUCCESS) :
    (gcm_auth_crypt k drv ctx k.MBEDTLS_GCM_DECRYPT length iv iv_len add add_len input tag_len
      tag).1 = k.MBEDTLS_ERR_PLATFORM_HW_ACCEL_FAILED := by
  have hc : ¬ (iv_len ≠ 12 ∨ (add_len = 0 ∧ length = 0)) := by
    rintro (h | ⟨h1, h2⟩)
    · exact h hiv
    · omega
  simp only [gcm_auth_crypt, hctx, hc, if_false, hmodes, if_true, hdrv, ne_eq, not_false_eq_true]

/-- C13: for a valid context, IV length 12 and non-empty input, when the driver's one-step
decrypt reports `AESGCM_STATUS_MAC_INVALID`, `mbedtls_gcm_auth_decrypt` returns
`MBEDTLS_ERR_PLATFORM_HW_ACCEL_FAILED`, which is not `MBEDTLS_ERR_GCM_AUTH_FAILED`:
`gcm_auth_crypt` has already replaced the driver status, so the translation of the
authentication failure is never reached. -/
theorem C13_auth_decrypt_mac_invalid (k : Codes) (drv : Driver) (ctx : mbedtls_gcm_context)
    (handle : Nat) (length : Nat) (iv : List Nat) (iv_len : Nat) (add : List Nat)
    (add_len : Nat) (tag : List Nat) (tag_len : Nat) (input : List Nat)
    (hmodes : k.MBEDTLS_GCM_DECRYPT ≠ k.MBEDTLS_GCM_ENCRYPT)
    (hmac : k.AESGCM_STATUS_MAC_INVALID ≠ k.AESGCM_STATUS_SUCCESS)
    (hacc : k.MBEDTLS_ERR_PLATFORM_HW_ACCEL_FAILED ≠ k.AESGCM_STATUS_MAC_INVALID)
    (hauth : k.MBEDTLS_ERR_PLATFORM_HW_ACCEL_FAILED ≠ k.MBEDTLS_ERR_GCM_AUTH_FAILED)
    (hctx : ctx.handle = some handle) (hiv : iv_len = 12) (hlen : 0 < add_len + length)
    (hdrv : drv.AESGCM_oneStepDecrypt handle
      { aad := add, aadLength := add_len, input := input, inputLength := length,
        iv := iv, ivLength := iv_len, mac := tag, macLength := tag_len } =
        k.AESGCM_STATUS_MAC_INVALID) :
    (mbedtls_gcm_auth_decrypt k drv ctx length iv iv_len add add_len tag tag_len input).1 =
      k.MBEDTLS_ERR_PLATFORM_HW_ACCEL_FAILED ∧
    (mbedtls_gcm_auth_decrypt k drv ctx length iv iv_len add add_len tag tag_len input).1 ≠
      k.MBEDTLS_ERR_GCM_AUTH_FAILED := by
  have h := gcm_auth_crypt_decrypt_not_success k drv ctx handle length iv iv_len add add_len
    input tag_len tag hmodes hctx hiv hlen (by rw [hdrv]; exact hmac)
  have h1 : (mbedtls_gcm_auth_decrypt k drv ctx length iv iv_len add add_len tag tag_len
      input).1 = k.MBEDTLS_ERR_PLATFORM_HW_ACCEL_FAILED := by
    unfold mbedtls_gcm_auth_decrypt
    dsimp only
    rw [h, if_neg hacc]
    exact h
  exact ⟨h1, by rw [h1]; exact hauth⟩

theorem C13_auth_decrypt_mac_invalid_witness :
    (mbedtls_gcm_auth_decrypt headerCodes macInvalidDriver sampleContext 16 [] 12 [] 0 [] 16
      []).1 = headerCodes.MBEDTLS_ERR_PLATFORM_HW_ACCEL_FAILED ∧
    (mbedtls_gcm_auth_decrypt headerCodes macInvalidDriver sampleContext 16 [] 12 [] 0 [] 16
      []).1 ≠ headerCodes.MBEDTLS_ERR_GCM_AUTH_FAILED :=
  C13_auth_decrypt_mac_invalid headerCodes macInvalidDriver sampleContext 1 16 [] 12 [] 0 [] 16
    [] (by decide) (by decide) (by decide) (by decide) rfl rfl (by decide) rfl

/-- C14: for a valid context, IV length 12 and non-empty input, when the driver's one-step
decrypt reports `AESGCM_STATUS_MAC_INVALID`, `mbedtls_gcm_crypt_and_tag` in decrypt mode
returns `MBEDTLS_ERR_PLATFORM_HW_ACCEL_FAILED` and not 0: `gcm_auth_crypt` has already replaced
the driver status, so the branch that ignores the failed authentication is never reached. -/
theorem C14_crypt_and_tag_mac_invalid (k : Codes) (drv : Driver) (ctx : mbedtls_gcm_context)
    (handle : Nat) (length : Nat) (iv : List Nat) (iv_len : Nat) (add : List Nat)
    (add_len : Nat) (input : List Nat) (tag_len : Nat) (tag : List Nat)
    (hmodes : k.MBEDTLS_GCM_DECRYPT ≠ k.MBEDTLS_GCM_ENCRYPT)
    (hmac : k.AESGCM_STATUS_MAC_INVALID ≠ k.AESGCM_STATUS_SUCCESS)
    (hacc : k.MBEDTLS_ERR_PLATFORM_HW_ACCEL_FAILED ≠ k.AESGCM_STATUS_MAC_INVALID)
    (hzero : k.MBEDTLS_ERR_PLATFORM_HW_ACCEL_FAILED ≠ 0)
    (hctx : ctx.handle = some handle) (hiv : iv_len = 12) (hlen : 0 < add_len + length)
    (hdrv : drv.AESGCM_oneStepDecrypt handle
      { aad := add, aadLength := add_len, input := input, inputLength := length,
        iv := iv, ivLength := iv_len, mac := tag, macLength := tag_len } =
        k.AESGCM_STATUS_MAC_INVALID) :
    (mbedtls_gcm_crypt_and_tag k drv ctx k.MBEDTLS_GCM_DECRYPT length iv iv_len add add_len
      input tag_len tag).1 = k.MBEDTLS_ERR_PLATFORM_HW_ACCEL_FAILED ∧
    (mbedtls_gcm_crypt_and_tag k drv ctx k.MBEDTLS_GCM_DECRYPT length iv iv_len add add_len
      input tag_len tag).1 ≠ 0 := by
  have h := gcm_auth_crypt_decrypt_not_success k drv ctx handle length iv iv_len add add_len
    input tag_len tag hmodes hctx hiv hlen (by rw [hdrv]; exact hmac)
  have h1 : (mbedtls_gcm_crypt_and_tag k drv ctx k.MBEDTLS_GCM_DECRYPT length iv iv_len add
      add_len input tag_len tag).1 = k.MBEDTLS_ERR_PLATFORM_HW_ACCEL_FAILED := by
    unfold mbedtls_gcm_crypt_and_tag
    dsimp only
    rw [h, if_neg (fun hc => hacc hc.2)]
    exact h
  exact ⟨h1, by rw [h1]; exact hzero⟩

theorem C14_crypt_and_tag_mac_invalid_witness :
    (mbedtls_gcm_crypt_and_tag headerCodes macInvalidDriver sampleContext
      headerCodes.MBEDTLS_GCM_DECRYPT 16 [] 12 [] 0 [] 16 []).1 =
        headerCodes.MBEDTLS_ERR_PLATFORM_HW_ACCEL_FAILED ∧
    (mbedtls_gcm_crypt_and_tag headerCodes macInvalidDriver sampleContext
      headerCodes.MBEDTLS_GCM_DECRYPT 16 [] 12 [] 0 [] 16 []).1 ≠ 0 :=
  C14_crypt_and_tag_mac_invalid headerCodes macInvalidDriver sampleContext 1 16 [] 12 [] 0 [] 16
    [] (by decide) (by decide) (by decide) (by decide) rfl rfl (by decide) rfl

end gcm_alt

namespace gcm_alt

/-- With a driver handle, `gcm_auth_crypt` rejects exactly the requests with an IV length other
than 12 or with neither additional data nor input, and it rejects them before any driver
call. -/
theorem gcm_auth_crypt_unsupported (k : Codes) (drv : Driver) (ctx : mbedtls_gcm_context)
    (handle : Nat) (mode : Int) (length : Nat) (iv : List Nat) (iv_len : Nat) (add : List Nat)
    (add_len : Nat) (input : List Nat) (tag_len : Nat) (tag : List Nat)
    (hS : k.MBEDTLS_ERR_PLATFORM_FEATURE_UNSUPPORTED ≠ k.AESGCM_STATUS_SUCCESS)
    (hA : k.MBEDTLS_ERR_PLATFORM_FEATURE_UNSUPPORTED ≠ k.MBEDTLS_ERR_PLATFORM_HW_ACCEL_FAILED)
    (hctx : ctx.handle = some handle) :
    ((gcm_auth_crypt k drv ctx mode length iv iv_len add add_len input tag_len tag).1 =
        k.MBEDTLS_ERR_PLATFORM_FEATURE_UNSUPPORTED ↔
      (iv_len ≠ 12 ∨ (add_len = 0 ∧ length = 0))) ∧
    ((iv_len ≠ 12 ∨ (add_len = 0 ∧ length = 0)) →
      gcm_auth_crypt k drv ctx mode length iv iv_len add add_len input tag_len tag =
        (k.MBEDTLS_ERR_PLATFORM_FEATURE_UNSUPPORTED, [])) := by
  by_cases hc : iv_len ≠ 12 ∨ (add_len = 0 ∧ length = 0)
  · have : gcm_auth_crypt k drv ctx mode length iv iv_len add add_len input tag_len tag =
        (k.MBEDTLS_ERR_PLATFORM_FEATURE_UNSUPPORTED, []) := by
      simp only [gcm_auth_crypt, hctx]
      rw [if_pos hc]
    exact ⟨⟨fun _ => hc, fun _ => by rw [this]⟩, fun _ => this⟩
  · refine ⟨⟨fun h => ?_, fun h => absurd h hc⟩, fun h => absurd h hc⟩
    exfalso
    simp only [gcm_auth_crypt, hctx] at h
    rw [if_neg hc] at h
    have fin : ∀ run : Int × List DriverCall,
        (if run.1 ≠ k.AESGCM_STATUS_SUCCESS then (k.MBEDTLS_ERR_PLATFORM_HW_ACCEL_FAILED, run.2)
          else (run.1, run.2)).1 ≠ k.MBEDTLS_ERR_PLATFORM_FEATURE_UNSUPPORTED := by
      intro run
      split_ifs with h1
      · exact fun e => hA e.symm
      · intro e
        apply hS
        rw [← e]
        exact not_not.1 h1
    exact fin _ h

/-- C15: with a non-NULL handle, `gcm_auth_crypt`, `mbedtls_gcm_crypt_and_tag` and
`mbedtls_gcm_auth_decrypt` return `MBEDTLS_ERR_PLATFORM_FEATURE_UNSUPPORTED` if and only if
`iv_len != 12` or (`add_len == 0` and `length == 0`), and then no driver operation is invoked;
for each of the self-test's vectors this is exactly when the self-test prints "not supported"
and skips the vector. -/
theorem C15_feature_unsupported (k : Codes) (drv : Driver) (ctx : mbedtls_gcm_context)
    (handle : Nat) (mode : Int) (length : Nat) (iv : List Nat) (iv_len : Nat) (add : List Nat)
    (add_len : Nat) (input : List Nat) (tag_len : Nat) (tag : List Nat)
    (h0 : k.MBEDTLS_ERR_PLATFORM_FEATURE_UNSUPPORTED ≠ 0)
    (hS : k.MBEDTLS_ERR_PLATFORM_FEATURE_UNSUPPORTED ≠ k.AESGCM_STATUS_SUCCESS)
    (hM : k.MBEDTLS_ERR_PLATFORM_FEATURE_UNSUPPORTED ≠ k.AESGCM_STATUS_MAC_INVALID)
    (hA : k.MBEDTLS_ERR_PLATFORM_FEATURE_UNSUPPORTED ≠ k.MBEDTLS_ERR_PLATFORM_HW_ACCEL_FAILED)
    (hG : k.MBEDTLS_ERR_PLATFORM_FEATURE_UNSUPPORTED ≠ k.MBEDTLS_ERR_GCM_AUTH_FAILED)
    (hctx : ctx.handle = some handle) :
    ((gcm_auth_crypt k drv ctx mode length iv iv_len add add_len input tag_len tag).1 =
        k.MBEDTLS_ERR_PLATFORM_FEATURE_UNSUPPORTED ↔
      (iv_len ≠ 12 ∨ (add_len = 0 ∧ length = 0))) ∧
    ((mbedtls_gcm_crypt_and_tag k drv ctx mode length iv iv_len add add_len input tag_len
        tag).1 = k.MBEDTLS_ERR_PLATFORM_FEATURE_UNSUPPORTED ↔
      (iv_len ≠ 12 ∨ (add_len = 0 ∧ length = 0))) ∧
    ((mbedtls_gcm_auth_decrypt k drv ctx length iv iv_len add add_len tag tag_len input).1 =
        k.MBEDTLS_ERR_PLATFORM_FEATURE_UNSUPPORTED ↔
      (iv_len ≠ 12 ∨ (add_len = 0 ∧ length = 0))) ∧
    ((iv_len ≠ 12 ∨ (add_len = 0 ∧ length = 0)) →
      (gcm_auth_crypt k drv ctx mode length iv iv_len add add_len input tag_len tag).2 = [] ∧
      (mbedtls_gcm_crypt_and_tag k drv ctx mode length iv iv_len add add_len input tag_len
        tag).2 = [] ∧
      (mbedtls_gcm_auth_decrypt k drv ctx length iv iv_len add add_len tag tag_len input).2
        = []) ∧
    (∀ i, i < MAX_TESTS → ∀ (ivv addv ptv tagv : List Nat),
      (selfTestSkips k
        (mbedtls_gcm_crypt_and_tag k drv ctx k.MBEDTLS_GCM_ENCRYPT (pt_len_test_data.getD i 0)
          ivv (iv_len_test_data.getD i 0) addv (add_len_test_data.getD i 0) ptv 16 tagv).1 i
        = true ↔
      (mbedtls_gcm_crypt_and_tag k drv ctx k.MBEDTLS_GCM_ENCRYPT (pt_len_test_data.getD i 0)
          ivv (iv_len_test_data.getD i 0) addv (add_len_test_data.getD i 0) ptv 16 tagv).1 =
        k.MBEDTLS_ERR_PLATFORM_FEATURE_UNSUPPORTED)) := by
  have key := fun (md : Int) (len : Nat) (ivv : List Nat) (ivl : Nat) (addv : List Nat)
      (addl : Nat) (inp : List Nat) (tl : Nat) (tg : List Nat) =>
    gcm_auth_crypt_unsupported k drv ctx handle md len ivv ivl addv addl inp tl tg hS hA hctx
  have hcat : ∀ (md : Int) (len : Nat) (ivv : List Nat) (ivl : Nat) (addv : List Nat)
      (addl : Nat) (inp : List Nat) (tl : Nat) (tg : List Nat),
      ((mbedtls_gcm_crypt_and_tag k drv ctx md len ivv ivl addv addl inp tl tg).1 =
        k.MBEDTLS_ERR_PLATFORM_FEATURE_UNSUPPORTED ↔
      (ivl ≠ 12 ∨ (addl = 0 ∧ len = 0))) := by
    intro md len ivv ivl addv addl inp tl tg
    obtain ⟨k1, _⟩ := key md len ivv ivl addv addl inp tl tg
    unfold mbedtls_gcm_crypt_and_tag
    dsimp only
    split_ifs with hb
    · constructor
      · intro h; exact absurd h.symm h0
      · intro h
        exfalso
        rw [k1.2 h] at hb
        exact hM hb.2
    · exact k1
  refine ⟨(key _ _ _ _ _ _ _ _ _).1, hcat _ _ _ _ _ _ _ _ _, ?_, ?_, ?_⟩
  · obtain ⟨k1, _⟩ := key k.MBEDTLS_GCM_DECRYPT length iv iv_len add add_len input tag_len tag
    unfold mbedtls_gcm_auth_decrypt
    dsimp only
    split_ifs with hb
    · constructor
      · intro h; exact absurd h.symm hG
      · intro h
        exfalso
        rw [k1.2 h] at hb
        exact hM hb
    · exact k1
  · intro hc
    have e1 := (key mode length iv iv_len add add_len input tag_len tag).2 hc
    have e2 := (key k.MBEDTLS_GCM_DECRYPT length iv iv_len add add_len input tag_len tag).2 hc
    refine ⟨by rw [e1], ?_, ?_⟩
    · unfold mbedtls_gcm_crypt_and_tag
      dsimp only
      rw [e1]
      split_ifs <;> rfl
    · unfold mbedtls_gcm_auth_decrypt
      dsimp only
      rw [e2]
      split_ifs <;> rfl
  · intro i hi ivv addv ptv tagv
    have hc := hcat k.MBEDTLS_GCM_ENCRYPT (pt_len_test_data.getD i 0) ivv
      (iv_len_test_data.getD i 0) addv (add_len_test_data.getD i 0) ptv 16 tagv
    unfold selfTestSkips
    simp only [Bool.and_eq_true, Bool.or_eq_true, decide_eq_true_eq]
    constructor
    · intro h; exact h.1
    · intro h; exact ⟨h, hc.1 h⟩

theorem C15_feature_unsupported_witness :
    (mbedtls_gcm_crypt_and_tag headerCodes macInvalidDriver sampleContext
        headerCodes.MBEDTLS_GCM_ENCRYPT 60 [] 8 [] 20 [] 16 []).1 =
      headerCodes.MBEDTLS_ERR_PLATFORM_FEATURE_UNSUPPORTED ↔ (8 ≠ 12 ∨ (20 = 0 ∧ 60 = 0)) :=
  (C15_feature_unsupported headerCodes macInvalidDriver sampleContext 1
    headerCodes.MBEDTLS_GCM_ENCRYPT 60 [] 8 [] 20 [] 16 [] (by decide) (by decide) (by decide)
    (by decide) (by decide) rfl).2.1

/-- C16: `mbedtls_gcm_update` stores `input_length` through `output_length` on every path
(invalid context, empty input, driver failure, success), so whenever it returns 0 the reported
output length is the input length, and a self-test step never leaves through its
`olen != expected` branch. -/
theorem C16_update_output_length (k : Codes) (drv : Driver) (ctx : mbedtls_gcm_context)
    (input : List Nat) (input_length output_size : Nat) :
    (mbedtls_gcm_update k drv ctx input input_length output_size).output_length =
      input_length ∧
    ((mbedtls_gcm_update k drv ctx input input_length output_size).ret = 0 →
      (mbedtls_gcm_update k drv ctx input input_length output_size).output_length =
        input_length) ∧
    selfTestUpdateStep k drv ctx input input_length output_size ≠ UpdateStep.exitOnLength := by
  have h : (mbedtls_gcm_update k drv ctx input input_length output_size).output_length =
      input_length := by
    unfold mbedtls_gcm_update
    cases ctx.handle with
    | none => rfl
    | some handle =>
      dsimp only
      split_ifs <;> rfl
  refine ⟨h, fun _ => h, ?_⟩
  unfold selfTestUpdateStep
  dsimp only
  split_ifs with h1 h2
  · intro hc; cases hc
  · exact absurd h h2
  · intro hc; cases hc

end gcm_alt

namespace ot

namespace Ncp

/-! ## Bit masks -/

theorem testBit_one_shiftLeft (i j : Nat) : (1 <<< i).testBit j = decide (i = j) := by
  rw [Nat.one_shiftLeft, Nat.testBit_two_pow]

theorem testBit_SetBit (b i j : Nat) :
    (SetBit b i).testBit j = (decide (j < 64) && (b.testBit j || decide (i = j))) := by
  simp only [SetBit, kBitMaskWidth, Nat.testBit_mod_two_pow, Nat.testBit_or,
    testBit_one_shiftLeft]

theorem testBit_ClearBit (b i j : Nat) :
    (ClearBit b i).testBit j = (b.testBit j && (decide (j < 64) && !decide (i = j))) := by
  simp only [ClearBit, kBitMaskWidth, Nat.testBit_and, Nat.testBit_xor,
    Nat.testBit_two_pow_sub_one, Nat.testBit_mod_two_pow, testBit_one_shiftLeft]
  by_cases h1 : j < 64 <;> by_cases h2 : i = j <;> simp [h1, h2]

theorem IsBitSet_eq (b i : Nat) : IsBitSet b i = (b.testBit i && decide (i < 64)) := by
  unfold IsBitSet
  by_cases hb : (b.testBit i && decide (i < 64)) = true
  · rw [hb]
    simp only [bne_iff_ne, ne_eq]
    intro h0
    have := congrArg (fun x => x.testBit i) h0
    simp only [kBitMaskWidth, Nat.testBit_and, Nat.testBit_mod_two_pow, testBit_one_shiftLeft,
      Nat.zero_testBit] at this
    simp only [Bool.and_eq_true, decide_eq_true_eq] at hb
    simp [hb.1, hb.2] at this
  · have hb' : (b.testBit i && decide (i < 64)) = false := by simpa using hb
    rw [hb']
    simp only [bne_eq_false_iff_eq]
    apply Nat.eq_of_testBit_eq
    intro j
    simp only [kBitMaskWidth, Nat.testBit_and, Nat.testBit_mod_two_pow, testBit_one_shiftLeft,
      Nat.zero_testBit]
    by_cases hij : i = j
    · subst hij
      simp only [Bool.and_eq_false_iff, decide_eq_false_iff_not] at hb'
      rcases hb' with h | h
      · simp [h]
      · simp [h]
    · simp [hij]

end Ncp

end ot

namespace ot

namespace Ncp

namespace ChangedPropsSet

/-! ## The loops of `Add` and `EnablePropertyFilter` -/

/-- The set after the body of the loop of `EnablePropertyFilter` ran on entry `index`. -/
theorem EnableLoop_cons (k : SpinelValues) (aPropKey : Nat) (aEnable : Bool) (e : Entry)
    (rest : List Entry) (index : Nat) (s : ChangedPropsSet) (didFind : Bool) :
    EnableLoop k aPropKey aEnable (e :: rest) index s didFind =
      if e.mFilterable = true ∧ e.mPropKey = aPropKey then
        if aPropKey ≠ k.SPINEL_PROP_LAST_STATUS then
          (bif aEnable then
            { mFilterSet := SetBit s.mFilterSet index,
              mChangedSet := ClearBit s.mChangedSet index }
          else { s with mFilterSet := ClearBit s.mFilterSet index }, true)
        else EnableLoop k aPropKey aEnable rest (index + 1)
          (bif aEnable then
            { mFilterSet := SetBit s.mFilterSet index,
              mChangedSet := ClearBit s.mChangedSet index }
          else { s with mFilterSet := ClearBit s.mFilterSet index }) true
      else EnableLoop k aPropKey aEnable rest (index + 1) s didFind := by
  cases aEnable <;> simp [EnableLoop]

theorem AddLoop_filter (aPropKey aStatus : Nat) (entries : List Entry) :
    ∀ (index : Nat) (s : ChangedPropsSet),
      (AddLoop aPropKey aStatus entries index s).mFilterSet = s.mFilterSet := by
  induction entries with
  | nil => intro _ _; rfl
  | cons e rest ih =>
    intro index s
    simp only [AddLoop]
    split_ifs
    · rfl
    · rfl
    · exact ih _ _

theorem AddLoop_disjoint (aPropKey aStatus : Nat) (entries : List Entry) :
    ∀ (index : Nat) (s : ChangedPropsSet), s.disjointSets →
      (AddLoop aPropKey aStatus entries index s).disjointSets := by
  induction entries with
  | nil => intro _ s h; exact h
  | cons e rest ih =>
    intro index s h
    simp only [AddLoop]
    split_ifs with h1 h2
    · intro j hj
      simp only [testBit_SetBit, Bool.and_eq_true, Bool.or_eq_true, decide_eq_true_eq] at hj
      obtain ⟨⟨hlt, hc | hij⟩, hf⟩ := hj
      · exact h j ⟨hc, hf⟩
      · subst hij
        simp only [IsEntryFiltered, IsBitSet_eq, Bool.not_eq_true', Bool.and_eq_false_iff,
          decide_eq_false_iff_not] at h2
        rcases h2 with h2 | h2
        · rw [h2] at hf; exact Bool.false_ne_true hf
        · exact h2 hlt
    · exact h
    · exact ih _ _ h

theorem enableStep_disjoint (s : ChangedPropsSet) (index : Nat) (aEnable : Bool)
    (h : s.disjointSets) :
    ChangedPropsSet.disjointSets
      (bif aEnable then
        { mFilterSet := SetBit s.mFilterSet index,
          mChangedSet := ClearBit s.mChangedSet index }
      else { s with mFilterSet := ClearBit s.mFilterSet index }) := by
  cases aEnable
  · intro j hj
    simp only [cond_false, testBit_ClearBit, Bool.and_eq_true] at hj
    exact h j ⟨hj.1, hj.2.1⟩
  · intro j hj
    simp only [cond_true, testBit_ClearBit, testBit_SetBit, Bool.and_eq_true, Bool.or_eq_true,
      decide_eq_true_eq, Bool.not_eq_true', decide_eq_false_iff_not] at hj
    obtain ⟨⟨hc, _, hne⟩, _, hf | hij⟩ := hj
    · exact h j ⟨hc, hf⟩
    · exact hne hij

theorem EnableLoop_disjoint (k : SpinelValues) (aPropKey : Nat) (aEnable : Bool)
    (entries : List Entry) :
    ∀ (index : Nat) (s : ChangedPropsSet) (didFind : Bool), s.disjointSets →
      (EnableLoop k aPropKey aEnable entries index s didFind).1.disjointSets := by
  induction entries with
  | nil => intro _ s _ h; exact h
  | cons e rest ih =>
    intro index s didFind h
    rw [EnableLoop_cons]
    split_ifs with h1 h2
    · exact enableStep_disjoint s index aEnable h
    · exact ih _ _ _ (enableStep_disjoint s index aEnable h)
    · exact ih _ _ _ h

theorem hasFilterable_cons (e : Entry) (rest : List Entry) (aPropKey : Nat) :
    hasFilterable (e :: rest) aPropKey ↔
      ((e.mFilterable = true ∧ e.mPropKey = aPropKey) ∨ hasFilterable rest aPropKey) := by
  simp [hasFilterable]

/-- Whether `EnablePropertyFilter` finds an entry, and that it changes nothing when it finds
none. -/
theorem EnableLoop_didFind (k : SpinelValues) (aPropKey : Nat) (aEnable : Bool)
    (entries : List Entry) :
    ∀ (index : Nat) (s : ChangedPropsSet) (didFind : Bool),
      ((EnableLoop k aPropKey aEnable entries index s didFind).2 = true ↔
        (didFind = true ∨ hasFilterable entries aPropKey)) ∧
      (¬ hasFilterable entries aPropKey →
        (EnableLoop k aPropKey aEnable entries index s didFind).1 = s) := by
  induction entries with
  | nil =>
    intro _ s d
    simp [EnableLoop, hasFilterable]
  | cons e rest ih =>
    intro index s d
    rw [EnableLoop_cons]
    have hcons := hasFilterable_cons e rest aPropKey
    split_ifs with h1 h2
    · refine ⟨⟨fun _ => Or.inr (hcons.2 (Or.inl h1)), fun _ => rfl⟩, fun hn => ?_⟩
      exact absurd (hcons.2 (Or.inl h1)) hn
    · refine ⟨⟨fun _ => Or.inr (hcons.2 (Or.inl h1)), fun _ => ?_⟩, fun hn => ?_⟩
      · exact ((ih _ _ true).1).2 (Or.inl rfl)
      · exact absurd (hcons.2 (Or.inl h1)) hn
    · obtain ⟨i1, i2⟩ := ih (index + 1) s d
      refine ⟨?_, fun hn => i2 (fun hr => hn (hcons.2 (Or.inr hr)))⟩
      rw [i1, hcons]
      constructor
      · rintro (h | h)
        · exact Or.inl h
        · exact Or.inr (Or.inr h)
      · rintro (h | h | h)
        · exact Or.inl h
        · exact absurd h h1
        · exact Or.inr h

theorem enableStep_filter (s : ChangedPropsSet) (index : Nat) (aEnable : Bool) (j : Nat) :
    (ChangedPropsSet.mFilterSet
      (bif aEnable then
        { mFilterSet := SetBit s.mFilterSet index,
          mChangedSet := ClearBit s.mChangedSet index }
      else { s with mFilterSet := ClearBit s.mFilterSet index })).testBit j =
      if index = j then (aEnable && decide (j < 64))
      else (s.mFilterSet.testBit j && decide (j < 64)) := by
  cases aEnable <;> by_cases hij : index = j <;>
    simp [testBit_ClearBit, testBit_SetBit, hij, Bool.and_comm]

theorem enableStep_changed (s : ChangedPropsSet) (index : Nat) (aEnable : Bool) (j : Nat)
    (hij : index ≠ j) (hs : s.mChangedSet < 2 ^ 64) :
    (ChangedPropsSet.mChangedSet
      (bif aEnable then
        { mFilterSet := SetBit s.mFilterSet index,
          mChangedSet := ClearBit s.mChangedSet index }
      else { s with mFilterSet := ClearBit s.mFilterSet index })).testBit j =
      s.mChangedSet.testBit j := by
  cases aEnable
  · rfl
  · simp only [cond_true, testBit_ClearBit]
    by_cases hj : j < 64
    · simp [hij, hj]
    · have : s.mChangedSet.testBit j = false := by
        apply Nat.testBit_lt_two_pow
        exact lt_of_lt_of_le hs (Nat.pow_le_pow_right (by norm_num) (by omega))
      simp [this]

/-- The loop of `EnablePropertyFilter` from entry `index` on leaves the filter bits of earlier
entries alone, up to the truncation to 64 bits. -/
theorem EnableLoop_filter_below (k : SpinelValues) (aPropKey : Nat) (aEnable : Bool)
    (entries : List Entry) :
    ∀ (index : Nat) (s : ChangedPropsSet) (didFind : Bool) (j : Nat), j < index → j < 64 →
      (EnableLoop k aPropKey aEnable entries index s didFind).1.mFilterSet.testBit j =
        s.mFilterSet.testBit j := by
  induction entries with
  | nil => intro _ _ _ _ _ _; rfl
  | cons e rest ih =>
    intro index s didFind j hj h64
    have hne : ¬ index = j := by omega
    have hstep := enableStep_filter s index aEnable j
    rw [if_neg hne] at hstep
    simp only [h64, decide_True, Bool.and_true] at hstep
    rw [EnableLoop_cons]
    split_ifs with h1 h2
    · exact hstep
    · rw [ih _ _ _ j (by omega) h64]; exact hstep
    · exact ih _ _ _ j (by omega) h64

end ChangedPropsSet

end Ncp

end ot

namespace ot

namespace Ncp

namespace ChangedPropsSet

/-! ## Sequences of calls -/

theorem init_disjoint : init.disjointSets := by
  intro j hj
  simp [init] at hj

theorem runCalls_disjoint (k : SpinelValues) (calls : List Call) :
    ∀ s : ChangedPropsSet, s.disjointSets → (runCalls k calls s).disjointSets := by
  induction calls with
  | nil => intro s h; exact h
  | cons c rest ih =>
    intro s h
    cases c with
    | add aPropKey aStatus =>
      exact ih _ (AddLoop_disjoint aPropKey aStatus _ 0 s h)
    | enablePropertyFilter aPropKey aEnable =>
      exact ih _ (EnableLoop_disjoint k aPropKey aEnable _ 0 s false h)

theorem land_eq_zero_of_disjoint (s : ChangedPropsSet) (h : s.disjointSets) :
    s.mChangedSet &&& s.mFilterSet = 0 := by
  apply Nat.eq_of_testBit_eq
  intro j
  rw [Nat.testBit_and, Nat.zero_testBit]
  cases hc : s.mChangedSet.testBit j
  · rfl
  · cases hf : s.mFilterSet.testBit j
    · rfl
    · exact absurd ⟨hc, hf⟩ (h j)

/-- `Add` only sets a change bit whose filter bit is clear. -/
theorem AddLoop_changed (aPropKey aStatus : Nat) (entries : List Entry) :
    ∀ (index : Nat) (s : ChangedPropsSet) (j : Nat),
      (AddLoop aPropKey aStatus entries index s).mChangedSet.testBit j = true →
        s.mChangedSet.testBit j = true ∨ s.mFilterSet.testBit j = false := by
  induction entries with
  | nil => intro _ s j h; exact Or.inl h
  | cons e rest ih =>
    intro index s j h
    simp only [AddLoop] at h
    split_ifs at h with h1 h2
    · simp only [testBit_SetBit, Bool.and_eq_true, Bool.or_eq_true, decide_eq_true_eq] at h
      obtain ⟨hlt, hc | hij⟩ := h
      · exact Or.inl hc
      · subst hij
        simp only [IsEntryFiltered, IsBitSet_eq, Bool.not_eq_true', Bool.and_eq_false_iff,
          decide_eq_false_iff_not] at h2
        rcases h2 with h2 | h2
        · exact Or.inr h2
        · exact absurd hlt h2
    · exact Or.inl h
    · exact ih _ _ _ h

/-- With the filter enabled, the loop of `EnablePropertyFilter` clears the change bit of every
entry it matches. -/
theorem EnableLoop_clears (k : SpinelValues) (aPropKey : Nat) (entries : List Entry) :
    ∀ (index : Nat) (s : ChangedPropsSet) (didFind : Bool) (j : Nat),
      (EnableLoop k aPropKey true entries index s didFind).1.mFilterSet.testBit j = true →
        (EnableLoop k aPropKey true entries index s didFind).1.mChangedSet.testBit j = true →
          s.mFilterSet.testBit j = true ∧ s.mChangedSet.testBit j = true := by
  induction entries with
  | nil => intro _ s _ j hf hc; exact ⟨hf, hc⟩
  | cons e rest ih =>
    intro index s didFind j hf hc
    rw [EnableLoop_cons] at hf hc
    have step : ∀ t : ChangedPropsSet,
        t = { mFilterSet := SetBit s.mFilterSet index,
              mChangedSet := ClearBit s.mChangedSet index } →
        t.mFilterSet.testBit j = true → t.mChangedSet.testBit j = true →
          s.mFilterSet.testBit j = true ∧ s.mChangedSet.testBit j = true := by
      intro t ht h1 h2
      subst ht
      simp only [testBit_ClearBit, testBit_SetBit, Bool.and_eq_true, Bool.or_eq_true,
        decide_eq_true_eq, Bool.not_eq_true', decide_eq_false_iff_not] at h1 h2
      obtain ⟨_, h1 | h1⟩ := h1
      · exact ⟨h1, h2.1⟩
      · exact absurd h1 h2.2.2
    split_ifs at hf hc with h1 h2
    · exact step _ rfl hf hc
    · obtain ⟨a, b⟩ := ih _ _ _ j hf hc
      exact step _ rfl a b
    · exact ih _ _ _ j hf hc

/-! ## Reading a filter back -/

theorem IsFilteredLoop_none (s : ChangedPropsSet) (aPropKey : Nat) (entries : List Entry) :
    ∀ index : Nat, ¬ hasFilterable entries aPropKey →
      IsFilteredLoop s aPropKey entries index = false := by
  induction entries with
  | nil => intro _ _; rfl
  | cons e rest ih =>
    intro index hn
    rw [hasFilterable_cons] at hn
    simp only [IsFilteredLoop]
    rw [if_neg (fun h => hn (Or.inl h))]
    exact ih _ (fun h => hn (Or.inr h))

theorem IsFilteredLoop_after_enable (k : SpinelValues) (aPropKey : Nat) (aEnable : Bool)
    (entries : List Entry) :
    ∀ (index : Nat) (s : ChangedPropsSet) (didFind : Bool),
      index + entries.length ≤ 64 → hasFilterable entries aPropKey →
        IsFilteredLoop (EnableLoop k aPropKey aEnable entries index s didFind).1 aPropKey
          entries index = aEnable := by
  induction entries with
  | nil =>
    intro _ _ _ _ h
    obtain ⟨_, hm, _⟩ := h
    exact absurd hm (List.not_mem_nil _)
  | cons e rest ih =>
    intro index s didFind hlen hhas
    simp only [List.length_cons] at hlen
    have h64 : index < 64 := by omega
    simp only [IsFilteredLoop]
    by_cases h1 : e.mFilterable = true ∧ e.mPropKey = aPropKey
    · rw [if_pos h1, EnableLoop_cons, if_pos h1]
      have hstep := enableStep_filter s index aEnable index
      rw [if_pos rfl] at hstep
      simp only [h64, decide_True, Bool.and_true] at hstep
      split_ifs with h2
      · simp only [IsEntryFiltered, IsBitSet_eq, h64, decide_True, Bool.and_true]
        exact hstep
      · simp only [IsEntryFiltered, IsBitSet_eq, h64, decide_True, Bool.and_true]
        rw [EnableLoop_filter_below k aPropKey aEnable rest (index + 1) _ true index
          (by omega) h64]
        exact hstep
    · rw [if_neg h1, EnableLoop_cons, if_neg h1]
      have hrest : hasFilterable rest aPropKey := by
        rcases (hasFilterable_cons e rest aPropKey).1 hhas with h | h
        · exact absurd h h1
        · exact h
      exact ih (index + 1) s didFind (by omega) hrest

theorem hasFilterable_supported (k : SpinelValues) (aPropKey : Nat) :
    hasFilterable (mSupportedProps k) aPropKey ↔ aPropKey = k.SPINEL_PROP_LAST_STATUS := by
  constructor
  · rintro ⟨e, hm, hf, hk⟩
    simp only [mSupportedProps, List.mem_cons, List.mem_singleton, List.not_mem_nil,
      or_false] at hm
    rcases hm with rfl | rfl | rfl
    · exact absurd hf (by simp)
    · exact hk.symm
    · exact absurd hf (by simp)
  · intro h
    refine ⟨_, List.mem_cons_of_mem _ (List.mem_cons_self _ _), rfl, h.symm⟩

/-! ## The first entry -/

theorem EnablePropertyFilter_filter_zero (k : SpinelValues) (s : ChangedPropsSet)
    (aPropKey : Nat) (aEnable : Bool) :
    (EnablePropertyFilter k s aPropKey aEnable).2.mFilterSet.testBit 0 =
      s.mFilterSet.testBit 0 := by
  simp only [EnablePropertyFilter, mSupportedProps]
  rw [EnableLoop_cons, if_neg (by simp)]
  exact EnableLoop_filter_below k aPropKey aEnable _ 1 s false 0 (by norm_num) (by norm_num)

theorem runCalls_filter_zero (k : SpinelValues) (calls : List Call) :
    ∀ s : ChangedPropsSet, s.mFilterSet.testBit 0 = false →
      (runCalls k calls s).mFilterSet.testBit 0 = false := by
  induction calls with
  | nil => intro s h; exact h
  | cons c rest ih =>
    intro s h
    cases c with
    | add aPropKey aStatus =>
      apply ih
      simp only [Add, AddLoop_filter]
      exact h
    | enablePropertyFilter aPropKey aEnable =>
      apply ih
      rw [EnablePropertyFilter_filter_zero]
      exact h

end ChangedPropsSet

/-! ## Claims about the changed-properties set -/

/-- C17: starting from empty changed and filter sets, after every sequence of `Add` and
`EnablePropertyFilter` calls the two sets are disjoint; `Add` sets no bit whose filter bit is
set, and after enabling a filter no bit is in both sets unless it was in both before. -/
theorem C17_changed_filter_disjoint (k : SpinelValues) (calls : List Call) :
    (runCalls k calls ChangedPropsSet.init).mChangedSet &&&
        (runCalls k calls ChangedPropsSet.init).mFilterSet = 0 ∧
      (∀ j, ¬ (IsBitSet (runCalls k calls ChangedPropsSet.init).mChangedSet j = true ∧
        IsBitSet (runCalls k calls ChangedPropsSet.init).mFilterSet j = true)) ∧
      (∀ (s : ChangedPropsSet) (aPropKey aStatus j : Nat), s.mFilterSet.testBit j = true →
        (ChangedPropsSet.Add k s aPropKey aStatus).mChangedSet.testBit j = true →
          s.mChangedSet.testBit j = true) ∧
      (∀ (s : ChangedPropsSet) (aPropKey j : Nat),
        (ChangedPropsSet.EnablePropertyFilter k s aPropKey true).2.mFilterSet.testBit j = true →
        (ChangedPropsSet.EnablePropertyFilter k s aPropKey true).2.mChangedSet.testBit j = true →
          s.mFilterSet.testBit j = true ∧ s.mChangedSet.testBit j = true) := by
  have hd := ChangedPropsSet.runCalls_disjoint k calls _ ChangedPropsSet.init_disjoint
  refine ⟨ChangedPropsSet.land_eq_zero_of_disjoint _ hd, ?_, ?_, ?_⟩
  · intro j hj
    simp only [IsBitSet_eq, Bool.and_eq_true] at hj
    exact hd j ⟨hj.1.1, hj.2.1⟩
  · intro s aPropKey aStatus j hf hc
    rcases ChangedPropsSet.AddLoop_changed aPropKey aStatus _ 0 s j hc with h | h
    · exact h
    · rw [h] at hf; exact absurd hf Bool.false_ne_true
  · intro s aPropKey j hf hc
    exact ChangedPropsSet.EnableLoop_clears k aPropKey _ 0 s false j hf hc

/-- C18: `EnablePropertyFilter` returns `OT_ERROR_INVALID_ARGS` exactly when no entry of
`mSupportedProps` is filterable with the key, and then leaves both sets as they were; in every
other case it returns `OT_ERROR_NONE`.  With the entries of the table, the keys without a
filterable entry are the keys other than `SPINEL_PROP_LAST_STATUS`. -/
theorem C18_enable_filter_invalid_args (k : SpinelValues) (s : ChangedPropsSet)
    (aPropKey : Nat) (aEnable : Bool) :
    ((ChangedPropsSet.EnablePropertyFilter k s aPropKey aEnable).1 =
        otError.OT_ERROR_INVALID_ARGS ↔ ¬ hasFilterable (mSupportedProps k) aPropKey) ∧
      ((ChangedPropsSet.EnablePropertyFilter k s aPropKey aEnable).1 =
        otError.OT_ERROR_INVALID_ARGS →
          (ChangedPropsSet.EnablePropertyFilter k s aPropKey aEnable).2 = s) ∧
      ((ChangedPropsSet.EnablePropertyFilter k s aPropKey aEnable).1 ≠
        otError.OT_ERROR_INVALID_ARGS →
          (ChangedPropsSet.EnablePropertyFilter k s aPropKey aEnable).1 =
            otError.OT_ERROR_NONE) ∧
      ((ChangedPropsSet.EnablePropertyFilter k s aPropKey aEnable).1 =
        otError.OT_ERROR_INVALID_ARGS ↔ aPropKey ≠ k.SPINEL_PROP_LAST_STATUS) := by
  obtain ⟨h1, h2⟩ :=
    ChangedPropsSet.EnableLoop_didFind k aPropKey aEnable (mSupportedProps k) 0 s false
  have key : (ChangedPropsSet.EnablePropertyFilter k s aPropKey aEnable).1 =
      otError.OT_ERROR_INVALID_ARGS ↔ ¬ hasFilterable (mSupportedProps k) aPropKey := by
    simp only [ChangedPropsSet.EnablePropertyFilter]
    cases hr : (ChangedPropsSet.EnableLoop k aPropKey aEnable (mSupportedProps k) 0 s false).2
    · rw [hr] at h1
      simp only [Bool.false_eq_true, if_false, true_iff]
      intro hh
      exact Bool.false_ne_true (h1.2 (Or.inr hh))
    · rw [hr] at h1
      simp only [if_true, reduceCtorEq, false_iff, not_not]
      rcases h1.1 rfl with h | h
      · exact absurd h Bool.false_ne_true
      · exact h
  refine ⟨key, fun h => ?_, fun h => ?_, ?_⟩
  · simp only [ChangedPropsSet.EnablePropertyFilter]
    exact h2 (key.1 h)
  · simp only [ChangedPropsSet.EnablePropertyFilter] at h ⊢
    split_ifs at h ⊢ with hr
    · rfl
    · exact absurd rfl h
  · rw [key, ChangedPropsSet.hasFilterable_supported]

/-- C19: if `EnablePropertyFilter(key, e)` returns `OT_ERROR_NONE` then `IsPropertyFiltered(key)`
right afterwards returns `e`, from every state; and `IsPropertyFiltered(key)` is false for every
key without a filterable entry. -/
theorem C19_filter_readback (k : SpinelValues) (s : ChangedPropsSet) (aPropKey : Nat)
    (aEnable : Bool)
    (h : (ChangedPropsSet.EnablePropertyFilter k s aPropKey aEnable).1 = otError.OT_ERROR_NONE) :
    ChangedPropsSet.IsPropertyFiltered k
        (ChangedPropsSet.EnablePropertyFilter k s aPropKey aEnable).2 aPropKey = aEnable ∧
      ∀ (t : ChangedPropsSet) (aOther : Nat), ¬ hasFilterable (mSupportedProps k) aOther →
        ChangedPropsSet.IsPropertyFiltered k t aOther = false := by
  refine ⟨?_, fun t aOther hn => ChangedPropsSet.IsFilteredLoop_none t aOther _ 0 hn⟩
  have hfound : hasFilterable (mSupportedProps k) aPropKey := by
    obtain ⟨h1, _⟩ :=
      ChangedPropsSet.EnableLoop_didFind k aPropKey aEnable (mSupportedProps k) 0 s false
    simp only [ChangedPropsSet.EnablePropertyFilter] at h
    split_ifs at h with hr
    rcases h1.1 hr with h | h
    · exact absurd h Bool.false_ne_true
    · exact h
  exact ChangedPropsSet.IsFilteredLoop_after_enable k aPropKey aEnable (mSupportedProps k) 0 s
    false (by simp [mSupportedProps]) hfound

theorem C19_filter_readback_witness :
    (ChangedPropsSet.EnablePropertyFilter sampleSpinel ChangedPropsSet.init 0 true).1 =
        otError.OT_ERROR_NONE ∧
      ChangedPropsSet.IsPropertyFiltered sampleSpinel
        (ChangedPropsSet.EnablePropertyFilter sampleSpinel ChangedPropsSet.init 0 true).2 0 =
          true :=
  ⟨by decide, (C19_filter_readback sampleSpinel ChangedPropsSet.init 0 true (by decide)).1⟩

/-- Whenever entry 0 is in the changed set it is the first entry reported, and every other
pending entry is reported after it. -/
theorem reportOrder_first (k : SpinelValues) (s : ChangedPropsSet)
    (h : s.IsEntryChanged 0 = true) :
    ∃ rest, reportOrder k s = 0 :: rest ∧ ∀ i ∈ rest, 0 < i := by
  have hr : List.range (GetNumEntries k) = [0, 1, 2] := rfl
  refine ⟨[1, 2].filter (fun index => s.IsEntryChanged index), ?_, ?_⟩
  · unfold reportOrder
    rw [hr, List.filter_cons_of_pos (by simpa using h)]
  · intro i hi
    have hmem := List.mem_of_mem_filter hi
    simp only [List.mem_cons, List.mem_singleton, List.not_mem_nil, or_false] at hmem
    rcases hmem with rfl | rfl <;> decide

/-- C20: `{SPINEL_PROP_LAST_STATUS, SPINEL_STATUS_RESET_UNKNOWN}` is entry 0 of
`mSupportedProps` and no other entry comes before it; `GetNumEntries` is the number of entries
of the table, which is at most the 64 bits of the mask; in every state reached from the empty
sets `Add(SPINEL_PROP_LAST_STATUS, SPINEL_STATUS_RESET_UNKNOWN)` sets bit 0 of the changed set,
the lowest one, and no other bit; and then RESET is the first update reported: every other
pending entry is reported after it. -/
theorem C20_reset_is_first_entry (k : SpinelValues) (calls : List Call) :
    (mSupportedProps k)[0]? =
        some { mPropKey := k.SPINEL_PROP_LAST_STATUS, mStatus := k.SPINEL_STATUS_RESET_UNKNOWN,
               mFilterable := false } ∧
      GetNumEntries k = (mSupportedProps k).length ∧
      (mSupportedProps k).length ≤ kBitMaskWidth ∧
      GetNumEntries k ≤ kBitMaskWidth ∧
      (ChangedPropsSet.Add k (runCalls k calls ChangedPropsSet.init) k.SPINEL_PROP_LAST_STATUS
          k.SPINEL_STATUS_RESET_UNKNOWN).mChangedSet =
        SetBit (runCalls k calls ChangedPropsSet.init).mChangedSet 0 ∧
      (ChangedPropsSet.Add k (runCalls k calls ChangedPropsSet.init) k.SPINEL_PROP_LAST_STATUS
          k.SPINEL_STATUS_RESET_UNKNOWN).mChangedSet.testBit 0 = true ∧
      (∀ j, j ≠ 0 → j < kBitMaskWidth →
        (ChangedPropsSet.Add k (runCalls k calls ChangedPropsSet.init) k.SPINEL_PROP_LAST_STATUS
            k.SPINEL_STATUS_RESET_UNKNOWN).mChangedSet.testBit j =
          (runCalls k calls ChangedPropsSet.init).mChangedSet.testBit j) ∧
      (∃ rest,
        reportOrder k
            (ChangedPropsSet.Add k (runCalls k calls ChangedPropsSet.init)
              k.SPINEL_PROP_LAST_STATUS k.SPINEL_STATUS_RESET_UNKNOWN) = 0 :: rest ∧
          ∀ i ∈ rest, 0 < i) ∧
      (∀ s : ChangedPropsSet, s.IsEntryChanged 0 = true →
        (reportOrder k s).head? = some 0) := by
  have hf := ChangedPropsSet.runCalls_filter_zero k calls ChangedPropsSet.init
    (by simp [ChangedPropsSet.init])
  have hadd : (ChangedPropsSet.Add k (runCalls k calls ChangedPropsSet.init)
      k.SPINEL_PROP_LAST_STATUS k.SPINEL_STATUS_RESET_UNKNOWN).mChangedSet =
        SetBit (runCalls k calls ChangedPropsSet.init).mChangedSet 0 := by
    simp only [ChangedPropsSet.Add, mSupportedProps, ChangedPropsSet.AddLoop, and_self, if_true,
      ChangedPropsSet.IsEntryFiltered, IsBitSet_eq, hf, Bool.false_and, Bool.not_false]
  have hbit : (ChangedPropsSet.Add k (runCalls k calls ChangedPropsSet.init)
      k.SPINEL_PROP_LAST_STATUS k.SPINEL_STATUS_RESET_UNKNOWN).mChangedSet.testBit 0 = true := by
    rw [hadd, testBit_SetBit]
    simp
  refine ⟨rfl, rfl, by simp [mSupportedProps, kBitMaskWidth],
    by simp [GetNumEntries, mSupportedProps, kBitMaskWidth], hadd, hbit, ?_, ?_, ?_⟩
  · intro j hj hlt
    rw [hadd, testBit_SetBit]
    simp only [kBitMaskWidth] at hlt
    simp [hlt, hj.symm]
  · apply reportOrder_first
    simp only [ChangedPropsSet.IsEntryChanged, IsBitSet_eq, hbit]
    decide
  · intro s hs
    obtain ⟨rest, hrest, _⟩ := reportOrder_first k s hs
    rw [hrest]
    rfl

end Ncp

end ot

namespace ot

namespace Ncp

namespace ChangedPropsSet

/-! ## Filtering every `LAST_STATUS` entry -/

/-- For the key `SPINEL_PROP_LAST_STATUS` the loop of `EnablePropertyFilter` goes on after a
match, so it stores the flag in the filter bit of every filterable entry with that key, in
whatever table it runs on. -/
theorem EnableLoop_last_status (k : SpinelValues) (aEnable : Bool) (entries : List Entry) :
    ∀ (index : Nat) (s : ChangedPropsSet) (didFind : Bool) (i : Nat) (e : Entry),
      entries[i]? = some e → e.mFilterable = true →
      e.mPropKey = k.SPINEL_PROP_LAST_STATUS → index + i < 64 →
        IsEntryFiltered
          (EnableLoop k k.SPINEL_PROP_LAST_STATUS aEnable entries index s didFind).1
          (index + i) = aEnable := by
  induction entries with
  | nil => intro _ _ _ i e h; simp at h
  | cons e0 rest ih =>
    intro index s didFind i e hi hf hk h64
    rw [EnableLoop_cons]
    cases i with
    | zero =>
      simp only [List.getElem?_cons_zero, Option.some.injEq] at hi
      subst hi
      rw [if_pos ⟨hf, hk⟩, if_neg (by simp)]
      have hstep := enableStep_filter s index aEnable index
      rw [if_pos rfl] at hstep
      have hlt : index < 64 := by omega
      simp only [hlt, decide_True, Bool.and_true] at hstep
      simp only [IsEntryFiltered, IsBitSet_eq, Nat.add_zero, hlt, decide_True, Bool.and_true]
      rw [EnableLoop_filter_below k _ aEnable rest (index + 1) _ true index (by omega) hlt]
      exact hstep
    | succ j =>
      simp only [List.getElem?_cons_succ] at hi
      have hidx : index + (j + 1) = index + 1 + j := by omega
      rw [hidx]
      split_ifs with h1 h2
      · exact absurd rfl h2
      · exact ih (index + 1) _ true j e hi hf hk (by omega)
      · exact ih (index + 1) s didFind j e hi hf hk (by omega)

end ChangedPropsSet

/-- C21, as the code has it: the table holds exactly one filterable `SPINEL_PROP_LAST_STATUS`
entry, the one with status `DROPPED`, and no entry with status `NOMEM`.  The loop of
`EnablePropertyFilter(SPINEL_PROP_LAST_STATUS, e)` stores `e` in the filter bit of every
filterable `LAST_STATUS` entry of any table of at most 64 entries; on this table, after
`EnablePropertyFilter(SPINEL_PROP_LAST_STATUS, true)` every such entry is filtered and
`Add(LAST_STATUS, DROPPED)` changes nothing, while `Add(LAST_STATUS, NOMEM)` changes nothing in
any state, filtered or not, because no entry matches it. -/
theorem C21_filter_last_status (k : SpinelValues)
    (hD : k.SPINEL_STATUS_DROPPED ≠ k.SPINEL_STATUS_RESET_UNKNOWN)
    (hN1 : k.SPINEL_STATUS_NOMEM ≠ k.SPINEL_STATUS_RESET_UNKNOWN)
    (hN2 : k.SPINEL_STATUS_NOMEM ≠ k.SPINEL_STATUS_DROPPED)
    (hN3 : k.SPINEL_STATUS_NOMEM ≠ k.SPINEL_STATUS_JOIN_FAILED) :
    (mSupportedProps k).filter
        (fun e => e.mFilterable && decide (e.mPropKey = k.SPINEL_PROP_LAST_STATUS)) =
      [{ mPropKey := k.SPINEL_PROP_LAST_STATUS, mStatus := k.SPINEL_STATUS_DROPPED,
         mFilterable := true }] ∧
    (∀ e ∈ mSupportedProps k, e.mStatus ≠ k.SPINEL_STATUS_NOMEM) ∧
    (∀ (entries : List Entry) (s : ChangedPropsSet) (aEnable : Bool) (i : Nat) (e : Entry),
      entries.length ≤ kBitMaskWidth → entries[i]? = some e → e.mFilterable = true →
      e.mPropKey = k.SPINEL_PROP_LAST_STATUS →
        ChangedPropsSet.IsEntryFiltered
          (ChangedPropsSet.EnableLoop k k.SPINEL_PROP_LAST_STATUS aEnable entries 0 s false).1 i
          = aEnable) ∧
    (∀ (s : ChangedPropsSet) (i : Nat) (e : Entry),
      (mSupportedProps k)[i]? = some e → e.mFilterable = true →
      e.mPropKey = k.SPINEL_PROP_LAST_STATUS →
        ChangedPropsSet.IsEntryFiltered
          (ChangedPropsSet.EnablePropertyFilter k s k.SPINEL_PROP_LAST_STATUS true).2 i = true) ∧
    (∀ s : ChangedPropsSet,
      ChangedPropsSet.Add k
          (ChangedPropsSet.EnablePropertyFilter k s k.SPINEL_PROP_LAST_STATUS true).2
          k.SPINEL_PROP_LAST_STATUS k.SPINEL_STATUS_DROPPED =
        (ChangedPropsSet.EnablePropertyFilter k s k.SPINEL_PROP_LAST_STATUS true).2) ∧
    (∀ t : ChangedPropsSet,
      ChangedPropsSet.Add k t k.SPINEL_PROP_LAST_STATUS k.SPINEL_STATUS_NOMEM = t) := by
  have hall : ∀ (entries : List Entry) (s : ChangedPropsSet) (aEnable : Bool) (i : Nat)
      (e : Entry), entries.length ≤ kBitMaskWidth → entries[i]? = some e →
      e.mFilterable = true → e.mPropKey = k.SPINEL_PROP_LAST_STATUS →
        ChangedPropsSet.IsEntryFiltered
          (ChangedPropsSet.EnableLoop k k.SPINEL_PROP_LAST_STATUS aEnable entries 0 s false).1 i
          = aEnable := by
    intro entries s aEnable i e hlen hi hf hk
    have hlt : i < entries.length := by
      rcases Nat.lt_or_ge i entries.length with h | h
      · exact h
      · rw [List.getElem?_eq_none h] at hi
        exact absurd hi (by simp)
    have := ChangedPropsSet.EnableLoop_last_status k aEnable entries 0 s false i e hi hf hk
      (by simp only [kBitMaskWidth] at hlen; omega)
    rwa [Nat.zero_add] at this
  have htable : ∀ (s : ChangedPropsSet) (i : Nat) (e : Entry),
      (mSupportedProps k)[i]? = some e → e.mFilterable = true →
      e.mPropKey = k.SPINEL_PROP_LAST_STATUS →
        ChangedPropsSet.IsEntryFiltered
          (ChangedPropsSet.EnablePropertyFilter k s k.SPINEL_PROP_LAST_STATUS true).2 i
            = true := by
    intro s i e hi hf hk
    exact hall (mSupportedProps k) s true i e (by simp [mSupportedProps, kBitMaskWidth]) hi hf hk
  refine ⟨?_, ?_, hall, htable, ?_, ?_⟩
  · simp [mSupportedProps]
  · intro e he
    simp only [mSupportedProps, List.mem_cons, List.mem_singleton, List.not_mem_nil,
      or_false] at he
    rcases he with rfl | rfl | rfl
    · exact fun h => hN1 h.symm
    · exact fun h => hN2 h.symm
    · exact fun h => hN3 h.symm
  · intro s
    have h1 := htable s 1 _ rfl rfl rfl
    generalize (ChangedPropsSet.EnablePropertyFilter k s k.SPINEL_PROP_LAST_STATUS true).2 = s1
      at h1 ⊢
    simp only [ChangedPropsSet.Add, mSupportedProps, ChangedPropsSet.AddLoop, true_and]
    rw [if_neg (fun h => hD h.symm)]
    simp [h1]
  · intro t
    simp only [ChangedPropsSet.Add, mSupportedProps, ChangedPropsSet.AddLoop, true_and]
    rw [if_neg (fun h => hN1 h.symm), if_neg (fun h => hN2 h.symm),
      if_neg (fun h => hN3 h.symm)]

theorem C21_filter_last_status_witness :
    ChangedPropsSet.Add sampleSpinel
        (ChangedPropsSet.EnablePropertyFilter sampleSpinel ChangedPropsSet.init
          sampleSpinel.SPINEL_PROP_LAST_STATUS true).2
        sampleSpinel.SPINEL_PROP_LAST_STATUS sampleSpinel.SPINEL_STATUS_DROPPED =
      (ChangedPropsSet.EnablePropertyFilter sampleSpinel ChangedPropsSet.init
        sampleSpinel.SPINEL_PROP_LAST_STATUS true).2 :=
  (C21_filter_last_status sampleSpinel (by decide) (by decide) (by decide) (by decide)).2.2.2.2.1
    ChangedPropsSet.init

/-- C21, a concrete table: with sample values for the spinel constants, `mSupportedProps` has
one filterable `SPINEL_PROP_LAST_STATUS` entry, not several, and none of its entries has status
`NOMEM`; after `EnablePropertyFilter(SPINEL_PROP_LAST_STATUS, true)` on the empty sets only
bit 1 (the `DROPPED` entry) is in the filter set, and `Add(LAST_STATUS, NOMEM)` marks nothing as
changed on the empty sets, where nothing is filtered. -/
theorem C21_nomem_entry_counterexample :
    ((mSupportedProps sampleSpinel).filter
        (fun e => e.mFilterable &&
          decide (e.mPropKey = sampleSpinel.SPINEL_PROP_LAST_STATUS))).length = 1 ∧
    ((mSupportedProps sampleSpinel).filter
        (fun e => decide (e.mStatus = sampleSpinel.SPINEL_STATUS_NOMEM))) = [] ∧
    (ChangedPropsSet.EnablePropertyFilter sampleSpinel ChangedPropsSet.init
      sampleSpinel.SPINEL_PROP_LAST_STATUS true).2.mFilterSet = 2 ∧
    ChangedPropsSet.Add sampleSpinel ChangedPropsSet.init
        sampleSpinel.SPINEL_PROP_LAST_STATUS sampleSpinel.SPINEL_STATUS_NOMEM =
      ChangedPropsSet.init := by
  decide

end Ncp

end ot

/-! ## Priority levels, bit-fields and buffer sizes -/

namespace ot

/-- C22: for every priority `p < kNumPriorities`, `PrevPriority(p) = (p + 1) mod kNumPriorities`:
it moves the level forward by one and wraps from `kNumPriorities - 1` back to 0; its result is
again below `kNumPriorities`; it is one-to-one and onto on the levels; applying it
`kNumPriorities` times returns `p`; and the `kNumPriorities` levels visited from the one just
after `p`, stepping with `PrevPriority`, are pairwise different and are all the levels. -/
theorem C22_prev_priority_cycle (p : Nat) (hp : p < kNumPriorities) :
    PriorityQueue.PrevPriority p = (p + 1) % kNumPriorities ∧
    PriorityQueue.PrevPriority (kNumPriorities - 1) = 0 ∧
    PriorityQueue.PrevPriority p < kNumPriorities ∧
    (∀ q, q < kNumPriorities →
      PriorityQueue.PrevPriority p = PriorityQueue.PrevPriority q → p = q) ∧
    (∃ q, q < kNumPriorities ∧ PriorityQueue.PrevPriority q = p) ∧
    PriorityQueue.PrevPriority^[kNumPriorities] p = p ∧
    (List.iterate PriorityQueue.PrevPriority (PriorityQueue.PrevPriority p)
      kNumPriorities).Nodup ∧
    (∀ q, q < kNumPriorities ↔
      q ∈ List.iterate PriorityQueue.PrevPriority (PriorityQueue.PrevPriority p)
        kNumPriorities) := by
  have h4 : p < 4 := hp
  refine ⟨?_, by decide, ?_, ?_, ?_, ?_, ?_, ?_⟩
  · interval_cases p <;> decide
  · interval_cases p <;> decide
  · intro q hq
    have hq4 : q < 4 := hq
    interval_cases p <;> interval_cases q <;> decide
  · interval_cases p
    · exact ⟨3, by decide, by decide⟩
    · exact ⟨0, by decide, by decide⟩
    · exact ⟨1, by decide, by decide⟩
    · exact ⟨2, by decide, by decide⟩
  · interval_cases p <;> decide
  · interval_cases p <;> decide
  · intro q
    constructor
    · intro hq
      have hq4 : q < 4 := hq
      interval_cases p <;> interval_cases q <;> decide
    · intro hq
      have hmem : ∀ l : List Nat, (∀ x ∈ l, x < kNumPriorities) → q ∈ l → q < kNumPriorities :=
        fun l hl h => hl q h
      interval_cases p
      · exact hmem _ (by decide) hq
      · exact hmem _ (by decide) hq
      · exact hmem _ (by decide) hq
      · exact hmem _ (by decide) hq

theorem C22_prev_priority_cycle_witness :
    PriorityQueue.PrevPriority 3 = 0 ∧
    List.iterate PriorityQueue.PrevPriority (PriorityQueue.PrevPriority 3) kNumPriorities =
      [0, 1, 2, 3] :=
  ⟨(C22_prev_priority_cycle 3 (by decide)).1, by decide⟩

/-- C23: `SetType(t)` then `GetType()` returns `t` for every value of the type enumeration
(0..3), and `SetSubType(s)` then `GetSubType()` returns `s` for every value of the sub type
enumeration (0..10); for every argument `x`, `GetType()` after `SetType(x)` is `x mod 4` and
`GetSubType()` after `SetSubType(x)` is `x mod 16`; each setter changes its own field only:
storing the old value again gives the message back, and the other of the two fields, the
priority and the flags read as before. -/
theorem C23_type_subtype_fields (m : Message) (x : Nat) :
    (∀ t ∈ messageTypes, (m.SetType t).GetType = t) ∧
    (∀ s ∈ messageSubTypes, (m.SetSubType s).GetSubType = s) ∧
    messageTypes = List.range 4 ∧ messageSubTypes = List.range 11 ∧
    (m.SetType x).GetType = x % 4 ∧
    (m.SetSubType x).GetSubType = x % 16 ∧
    (m.SetType x).SetType m.GetType = m ∧
    (m.SetSubType x).SetSubType m.GetSubType = m ∧
    ((m.SetType x).GetSubType = m.GetSubType ∧
      (m.SetType x).GetPriority = m.GetPriority ∧
      (m.SetType x).GetDirectTransmission = m.GetDirectTransmission ∧
      (m.SetType x).IsLinkSecurityEnabled = m.IsLinkSecurityEnabled ∧
      (m.SetType x).GetTxSuccess = m.GetTxSuccess ∧
      (m.SetType x).GetDoNotEvict = m.GetDoNotEvict ∧
      (m.SetType x).mInfo.mInPriorityQ = m.mInfo.mInPriorityQ) ∧
    ((m.SetSubType x).GetType = m.GetType ∧
      (m.SetSubType x).GetPriority = m.GetPriority ∧
      (m.SetSubType x).GetDirectTransmission = m.GetDirectTransmission ∧
      (m.SetSubType x).IsLinkSecurityEnabled = m.IsLinkSecurityEnabled ∧
      (m.SetSubType x).GetTxSuccess = m.GetTxSuccess ∧
      (m.SetSubType x).GetDoNotEvict = m.GetDoNotEvict ∧
      (m.SetSubType x).mInfo.mInPriorityQ = m.mInfo.mInPriorityQ) := by
  have ht : ∀ t ∈ messageTypes, t < 4 := by decide
  have hs : ∀ s ∈ messageSubTypes, s < 16 := by decide
  refine ⟨fun t h => Nat.mod_eq_of_lt (ht t h), fun s h => Nat.mod_eq_of_lt (hs s h), by decide,
    by decide, rfl, rfl, ?_, ?_, ⟨rfl, rfl, rfl, rfl, rfl, rfl, rfl⟩,
    ⟨rfl, rfl, rfl, rfl, rfl, rfl, rfl⟩⟩
  · obtain ⟨i, h, c⟩ := m
    simp only [Message.SetType, Message.GetType, Message.mk.injEq, and_true]
    have : (⟨i.mType.val % 4, Nat.mod_lt _ (by decide)⟩ : Fin 4) = i.mType :=
      Fin.ext (Nat.mod_eq_of_lt i.mType.isLt)
    rw [this]
  · obtain ⟨i, h, c⟩ := m
    simp only [Message.SetSubType, Message.GetSubType, Message.mk.injEq, and_true]
    have : (⟨i.mSubType.val % 16, Nat.mod_lt _ (by decide)⟩ : Fin 16) = i.mSubType :=
      Fin.ext (Nat.mod_eq_of_lt i.mSubType.isLt)
    rw [this]

end ot
